import Mathlib

/-!
# Snowflake identifier generator (`pkg/idgen/snowflake.go`)

A shallow embedding of the Snowflake generator of `go-lib-id`.

* Go `int64` values are integers in `[-2^63, 2^63)`.  Every arithmetic or bitwise
  operation of the source is modelled by a function that reduces its result to that
  range (`add64`, `sub64`, `shl64`, `shr64`, `or64`, `and64`).
* The wall clock is the list of readings that successive calls of
  `currentTimestamp` return.  A call that needs a reading when the list is exhausted
  yields `none`: the Go call would still be waiting.
* `time.Sleep` changes no generator state, and the mutex plays no role in a sequential
  run, so neither appears in the state.
-/

set_option maxRecDepth 8000

namespace Idgen

/-! ## 64-bit two's-complement arithmetic -/

/-- Bit pattern of an integer, read as an unsigned 64-bit word. -/
def toU64 (x : Int) : Nat := (x % 2 ^ 64).toNat

/-- Signed value of the low 64 bits of a natural number. -/
def toI64 (n : Nat) : Int :=
  if n % 2 ^ 64 < 2 ^ 63 then ((n % 2 ^ 64 : Nat) : Int)
  else ((n % 2 ^ 64 : Nat) : Int) - 2 ^ 64

/-- Reduction of an integer to the `int64` range. -/
def wrap64 (x : Int) : Int := toI64 (toU64 x)

/-- Go `a + b` on `int64`. -/
def add64 (a b : Int) : Int := wrap64 (a + b)

/-- Go `a - b` on `int64`. -/
def sub64 (a b : Int) : Int := wrap64 (a - b)

/-- Go `a << k` on `int64`: bits shifted out of the word are lost. -/
def shl64 (a : Int) (k : Nat) : Int := toI64 (toU64 a <<< k)

/-- Go `a >> k` on `int64`: arithmetic shift, rounding towards minus infinity. -/
def shr64 (a : Int) (k : Nat) : Int := wrap64 a / 2 ^ k

/-- Go `a | b` on `int64`. -/
def or64 (a b : Int) : Int := toI64 (toU64 a ||| toU64 b)

/-- Go `a & b` on `int64`. -/
def and64 (a b : Int) : Int := toI64 (toU64 a &&& toU64 b)

/-- Membership in the `int64` range. -/
def isInt64 (x : Int) : Prop := -2 ^ 63 ≤ x ∧ x < 2 ^ 63

instance (x : Int) : Decidable (isInt64 x) := by
  unfold isInt64; exact inferInstance

/-! ## Constants -/

/-- The default epoch: 2025-01-01T00:00:00Z in Unix milliseconds. -/
def DefaultEpoch : Int := 1735689600000

def timestampBits : Nat := 41
def processIDBits : Nat := 5
def workerIDBits : Nat := 5
def sequenceBits : Nat := 12

/-- Untyped Go constant `-1 ^ (-1 << processIDBits)`, evaluated exactly. -/
def maxProcessID : Int := Int.xor (-1) ((-1 : Int) <<< (processIDBits : Int))

/-- Untyped Go constant `-1 ^ (-1 << workerIDBits)`, evaluated exactly. -/
def maxWorkerID : Int := Int.xor (-1) ((-1 : Int) <<< (workerIDBits : Int))

/-- Untyped Go constant `-1 ^ (-1 << sequenceBits)`, evaluated exactly. -/
def maxSequence : Int := Int.xor (-1) ((-1 : Int) <<< (sequenceBits : Int))

def sequenceShift : Nat := 0
def workerIDShift : Nat := sequenceBits
def processIDShift : Nat := sequenceBits + workerIDBits
def timestampShift : Nat := sequenceBits + workerIDBits + processIDBits

/-! ## Errors -/

/-- The error values declared in `snowflake.go`. -/
inductive SnowflakeError where
  | ErrInvalidProcessID
  | ErrInvalidWorkerID
  | ErrClockMovedBackwards
  deriving DecidableEq, Repr

/-! ## Generator state -/

/-- The fields of the Go struct `Snowflake`, the mutex left out. -/
structure Snowflake where
  epoch : Int
  processID : Int
  workerID : Int
  sequence : Int
  lastTimestamp : Int
  deriving DecidableEq, Repr

/-- Go `NewWithEpoch`: a `(nil, err)` result is `Except.error err`, a `(gen, nil)`
result is `Except.ok gen`. -/
def NewWithEpoch (processID workerID epoch : Int) : Except SnowflakeError Snowflake :=
  if processID < 0 ∨ processID > maxProcessID then
    .error .ErrInvalidProcessID
  else if workerID < 0 ∨ workerID > maxWorkerID then
    .error .ErrInvalidWorkerID
  else
    .ok { epoch := epoch, processID := processID, workerID := workerID,
          sequence := 0, lastTimestamp := 0 }

/-- Go `New`. -/
def New (processID workerID : Int) : Except SnowflakeError Snowflake :=
  NewWithEpoch processID workerID DefaultEpoch

/-- Go `(*Snowflake).ProcessID`. -/
def ProcessID (s : Snowflake) : Int := s.processID

/-- Go `(*Snowflake).WorkerID`. -/
def WorkerID (s : Snowflake) : Int := s.workerID

/-- Go `(*Snowflake).Epoch`. -/
def Epoch (s : Snowflake) : Int := s.epoch

/-! ## The clock -/

/-- The readings that the next calls of `currentTimestamp` will return, in order. -/
abbrev Clock := List Int

/-- Go `currentTimestamp`: the next reading of the wall clock. -/
def currentTimestamp : Clock → Option (Int × Clock)
  | [] => none
  | t :: rest => some (t, rest)

/-- Go `waitNextMillis`: read the clock, and read it again for as long as the reading
is not above `lastTimestamp`. -/
def waitNextMillis (lastTimestamp : Int) : Clock → Option (Int × Clock)
  | [] => none
  | t :: rest =>
    if t ≤ lastTimestamp then waitNextMillis lastTimestamp rest else some (t, rest)

/-! ## Generation -/

/-- The packing expression of `Generate` (lines 203-206 of `snowflake.go`). -/
def packID (epoch processID workerID timestamp sequence : Int) : Int :=
  or64 (or64 (or64 (shl64 (sub64 timestamp epoch) timestampShift)
                   (shl64 processID processIDShift))
             (shl64 workerID workerIDShift))
       sequence

/-- Go `(*Snowflake).Generate`: the identifier, the state left behind and the clock
readings not yet consumed. -/
def Generate (s : Snowflake) (clock : Clock) : Option (Int × Snowflake × Clock) :=
  match currentTimestamp clock with
  | none => none
  | some (now, clock1) =>
    -- clock moved backwards: sleep, then read the clock once more
    let reread : Option (Int × Clock) :=
      if now < s.lastTimestamp then currentTimestamp clock1 else some (now, clock1)
    match reread with
    | none => none
    | some (timestamp, clock2) =>
      let advanced : Option (Int × Int × Clock) :=
        if timestamp = s.lastTimestamp then
          let sequence := and64 (add64 s.sequence 1) maxSequence
          if sequence = 0 then
            match waitNextMillis s.lastTimestamp clock2 with
            | none => none
            | some (t, clock3) => some (t, sequence, clock3)
          else some (timestamp, sequence, clock2)
        else some (timestamp, 0, clock2)
      match advanced with
      | none => none
      | some (timestamp, sequence, clock3) =>
        some (packID s.epoch s.processID s.workerID timestamp sequence,
              { s with sequence := sequence, lastTimestamp := timestamp },
              clock3)

/-- Successive `Generate` calls on one generator: the identifiers returned by the first
calls that return (at most `n`), the state and the clock after the last of them. -/
def generateCalls : Nat → Snowflake → Clock → List Int × Snowflake × Clock
  | 0, s, clock => ([], s, clock)
  | n + 1, s, clock =>
    match Generate s clock with
    | none => ([], s, clock)
    | some (id, s1, clock1) =>
      let r := generateCalls n s1 clock1
      (id :: r.1, r.2.1, r.2.2)

/-! ## Decoding -/

/-- Go `(*Snowflake).ExtractTimestamp`. -/
def ExtractTimestamp (s : Snowflake) (id : Int) : Int :=
  add64 (shr64 id timestampShift) s.epoch

/-- Go `(*Snowflake).ExtractProcessID`. -/
def ExtractProcessID (_s : Snowflake) (id : Int) : Int :=
  and64 (shr64 id processIDShift) maxProcessID

/-- Go `(*Snowflake).ExtractWorkerID`. -/
def ExtractWorkerID (_s : Snowflake) (id : Int) : Int :=
  and64 (shr64 id workerIDShift) maxWorkerID

/-- Go `(*Snowflake).ExtractSequence`. -/
def ExtractSequence (_s : Snowflake) (id : Int) : Int :=
  and64 id maxSequence

/-! ## Batch generation -/

/-- How a Go call ends: it returns a value, it aborts with a run-time panic, or it is still
waiting for the clock when the readings run out. -/
inductive Outcome (α : Type) where
  | returns (value : α)
  | panics (message : String)
  | blocks
  deriving Repr

/-- The message of the run-time panic of `make` on a length out of range. -/
def makesliceMessage : String := "runtime error: makeslice: len out of range"

/-- The largest allocation the Go runtime admits, `maxAlloc` of `runtime/malloc.go`:
`1 << 48` bytes on 64-bit Linux, the platform of this model (`int` is 64 bits wide). -/
def maxAlloc : Int := 2 ^ 48

/-- The condition under which `make([]T, len)` panics with `makesliceMessage`, as
`makeslice` of the Go runtime tests it for elements of `elemSize` bytes: the length is
negative, or the size in bytes overflows a 64-bit `uintptr` or exceeds `maxAlloc`. -/
def makesliceLenOutOfRange (elemSize len : Int) : Prop :=
  len < 0 ∨ elemSize * len ≥ 2 ^ 64 ∨ elemSize * len > maxAlloc

instance (elemSize len : Int) : Decidable (makesliceLenOutOfRange elemSize len) :=
  inferInstanceAs (Decidable (len < 0 ∨ elemSize * len ≥ 2 ^ 64 ∨ elemSize * len > maxAlloc))

/-- The message of the run-time panic of a dereference of an invalid pointer. -/
def nilDereferenceMessage : String :=
  "runtime error: invalid memory address or nil pointer dereference"

/-- The loop `for i := 0; i < count; i++ { ids[i] = s.Generate() }` of `GenerateBatch`,
with `remaining = count - i` iterations still to run. -/
def generateBatchLoop :
    Nat → Nat → List Int → Snowflake → Clock → Outcome (List Int × Snowflake × Clock)
  | 0, _, ids, s, clock => .returns (ids, s, clock)
  | remaining + 1, i, ids, s, clock =>
    match Generate s clock with
    | none => .blocks
    | some (id, s1, clock1) => generateBatchLoop remaining (i + 1) (ids.set i id) s1 clock1

/-- Go `(*Snowflake).GenerateBatch`.  `make([]int64, count)` panics at run time when
`count` is negative or the `8 * count` bytes of the slice exceed the allocation limit, and
otherwise gives `count` zeros; an allocation within the limit is taken to succeed. -/
def GenerateBatch (s : Snowflake) (count : Int) (clock : Clock) :
    Outcome (List Int × Snowflake × Clock) :=
  if makesliceLenOutOfRange 8 count then .panics makesliceMessage
  else generateBatchLoop count.toNat 0 (List.replicate count.toNat 0) s clock

/-- Specification of batch generation, in the words of the spec: the identifiers produced by
`count` sequential calls to `Generate`, each starting from the state and the clock the
previous one left; `none` when one of the calls does not return. -/
def sequentialGenerate : Nat → Snowflake → Clock → Option (List Int × Snowflake × Clock)
  | 0, s, clock => some ([], s, clock)
  | count + 1, s, clock =>
    match Generate s clock with
    | none => none
    | some (id, s1, clock1) =>
      match sequentialGenerate count s1 clock1 with
      | none => none
      | some (ids, s2, clock2) => some (id :: ids, s2, clock2)

/-- The states a generator constructed by `NewWithEpoch p w e` can be in: the state at
construction, and the state left by a returning `Generate` or `GenerateBatch` call made in
such a state, under any clock. -/
inductive Reachable (p w e : Int) : Snowflake → Prop where
  | construct {g : Snowflake} : NewWithEpoch p w e = .ok g → Reachable p w e g
  | generate {s s1 : Snowflake} {clock rest : Clock} {id : Int} :
      Reachable p w e s → Generate s clock = some (id, s1, rest) → Reachable p w e s1
  | generateBatch {s s1 : Snowflake} {count : Int} {clock rest : Clock} {ids : List Int} :
      Reachable p w e s → GenerateBatch s count clock = .returns (ids, s1, rest) →
      Reachable p w e s1

/-! ## The package-level default generator (`pkg/idgen/global.go`) -/

/-- Go `NewSnowflake`. -/
def NewSnowflake (processID workerID : Int) : Except SnowflakeError Snowflake :=
  New processID workerID

/-- The package-level state: the generators allocated so far, a pointer `*Snowflake` being
the index of its generator in `heap`, and the variable `defaultGenerator`, `none` for the
nil pointer.  The read-write mutex plays no role in a sequential run. -/
structure PackageState where
  heap : List Snowflake
  defaultGenerator : Option Nat
  deriving Repr

/-- The state at program start: nothing allocated, `defaultGenerator` nil. -/
def PackageState.start : PackageState := { heap := [], defaultGenerator := none }

/-- Every non-nil pointer held in `defaultGenerator` points to an allocated generator. -/
def PackageState.wellFormed (st : PackageState) : Prop :=
  ∀ a, st.defaultGenerator = some a → a < st.heap.length

/-- The message of the panic raised by the package-level generation functions. -/
def notInitializedMessage : String :=
  "idgen: default generator not initialized. Call SetDefaultMachineID(processID, workerID) first"

/-- Go `SetDefaultMachineID`: the returned error (`none` for nil) and the state left.  A
successful `NewSnowflake` allocates the generator at the next free address. -/
def SetDefaultMachineID (processID workerID : Int) (st : PackageState) :
    Option SnowflakeError × PackageState :=
  match NewSnowflake processID workerID with
  | .error err => (some err, st)
  | .ok generator =>
    (none, { heap := st.heap ++ [generator], defaultGenerator := some st.heap.length })

/-- Go `SetDefaultGenerator`. -/
def SetDefaultGenerator (generator : Option Nat) (st : PackageState) : PackageState :=
  { st with defaultGenerator := generator }

/-- Go `GetDefaultGenerator`. -/
def GetDefaultGenerator (st : PackageState) : Option Nat :=
  st.defaultGenerator

/-- Go `GenerateSnowflake`.  `Generate` works on the generator the pointer refers to, so the
state it leaves is written back at that address. -/
def GenerateSnowflake (st : PackageState) (clock : Clock) :
    Outcome (Int × PackageState × Clock) :=
  match st.defaultGenerator with
  | none => .panics notInitializedMessage
  | some a =>
    match st.heap[a]? with
    | none => .panics nilDereferenceMessage
    | some gen =>
      match Generate gen clock with
      | none => .blocks
      | some (id, gen1, rest) => .returns (id, { st with heap := st.heap.set a gen1 }, rest)

/-- Go `GenerateSnowflakeBatch`. -/
def GenerateSnowflakeBatch (st : PackageState) (count : Int) (clock : Clock) :
    Outcome (List Int × PackageState × Clock) :=
  match st.defaultGenerator with
  | none => .panics notInitializedMessage
  | some a =>
    match st.heap[a]? with
    | none => .panics nilDereferenceMessage
    | some gen =>
      match GenerateBatch gen count clock with
      | .returns (ids, gen1, rest) =>
        .returns (ids, { st with heap := st.heap.set a gen1 }, rest)
      | .panics message => .panics message
      | .blocks => .blocks

/-! ## Deprecated constructors and `ExtractTime` -/

/-- Go `NewSnowflakeWithEpoch`. -/
def NewSnowflakeWithEpoch (processID workerID epoch : Int) : Except SnowflakeError Snowflake :=
  NewWithEpoch processID workerID epoch

/-- Go `a / b` on `int64`: the quotient truncated towards zero. -/
def quo64 (a b : Int) : Int := wrap64 (Int.tdiv a b)

/-- Go `a % b` on `int64`: the remainder of the truncated division. -/
def rem64 (a b : Int) : Int := wrap64 (Int.tmod a b)

/-- Go `a * b` on `int64`. -/
def mul64 (a b : Int) : Int := wrap64 (a * b)

/-- The instant `time.Unix(sec, nsec)` of the Go standard library, `sec` seconds and `nsec`
nanoseconds after the Unix epoch, counted in nanoseconds; `nsec` may lie outside
`[0, 10^9)`.  `UTC()` changes the location of a `time.Time`, not its instant. -/
def timeUnix (sec nsec : Int) : Int := sec * 1000000000 + nsec

/-- Go `(*Snowflake).ExtractTime`, as the instant it denotes. -/
def ExtractTime (s : Snowflake) (id : Int) : Int :=
  let timestamp := ExtractTimestamp s id
  timeUnix (quo64 timestamp 1000) (mul64 (rem64 timestamp 1000) 1000000)

/-! ## Generators not yet implemented (`errors.go` and the stub files) -/

/-- The error values declared in `errors.go`. -/
inductive NotImplementedError where
  | ErrNotImplemented
  | ErrCUIDNotImplemented
  | ErrULIDNotImplemented
  | ErrNanoIDNotImplemented
  | ErrShortIDNotImplemented
  | ErrKSUIDNotImplemented
  | ErrXIDNotImplemented
  | ErrSonyflakeNotImplemented
  deriving DecidableEq, Repr

/-- The text given to `errors.New` for each error of `errors.go`. -/
def NotImplementedError.message : NotImplementedError → String
  | .ErrNotImplemented => "feature not implemented"
  | .ErrCUIDNotImplemented => "CUID generation not implemented yet"
  | .ErrULIDNotImplemented => "ULID generation not implemented yet"
  | .ErrNanoIDNotImplemented => "NanoID generation not implemented yet"
  | .ErrShortIDNotImplemented => "ShortID generation not implemented yet"
  | .ErrKSUIDNotImplemented => "KSUID generation not implemented yet"
  | .ErrXIDNotImplemented => "xid generation not implemented yet"
  | .ErrSonyflakeNotImplemented => "sonyflake generation not implemented yet"

/-- Go `GenerateCUID`: the returned string and error. -/
def GenerateCUID : String × Option NotImplementedError :=
  ("", some .ErrCUIDNotImplemented)

/-- Go `GenerateCUIDBatch`: the returned slice (`none` for nil) and error. -/
def GenerateCUIDBatch (count : Int) : Option (List String) × Option NotImplementedError :=
  if count ≤ 0 then (none, some .ErrCUIDNotImplemented)
  else (none, some .ErrCUIDNotImplemented)

/-- Go `GenerateKSUID`. -/
def GenerateKSUID : String × Option NotImplementedError :=
  ("", some .ErrKSUIDNotImplemented)

/-- Go `GenerateKSUIDBatch`. -/
def GenerateKSUIDBatch (count : Int) : Option (List String) × Option NotImplementedError :=
  if count ≤ 0 then (none, some .ErrKSUIDNotImplemented)
  else (none, some .ErrKSUIDNotImplemented)

/-- Go `GenerateNanoID`. -/
def GenerateNanoID : String × Option NotImplementedError :=
  ("", some .ErrNanoIDNotImplemented)

/-- Go `GenerateNanoIDCustom`. -/
def GenerateNanoIDCustom (_alphabet : String) (_size : Int) :
    String × Option NotImplementedError :=
  ("", some .ErrNanoIDNotImplemented)

/-- Go `GenerateNanoIDBatch`. -/
def GenerateNanoIDBatch (count : Int) : Option (List String) × Option NotImplementedError :=
  if count ≤ 0 then (none, some .ErrNanoIDNotImplemented)
  else (none, some .ErrNanoIDNotImplemented)

/-- Go `GenerateShortID`. -/
def GenerateShortID : String × Option NotImplementedError :=
  ("", some .ErrShortIDNotImplemented)

/-- Go `GenerateShortIDBatch`. -/
def GenerateShortIDBatch (count : Int) : Option (List String) × Option NotImplementedError :=
  if count ≤ 0 then (none, some .ErrShortIDNotImplemented)
  else (none, some .ErrShortIDNotImplemented)

/-- Go `GenerateULID`. -/
def GenerateULID : String × Option NotImplementedError :=
  ("", some .ErrULIDNotImplemented)

/-- Go `GenerateULIDBatch`. -/
def GenerateULIDBatch (count : Int) : Option (List String) × Option NotImplementedError :=
  if count ≤ 0 then (none, some .ErrULIDNotImplemented)
  else (none, some .ErrULIDNotImplemented)

/-- Go `GenerateXID`. -/
def GenerateXID : String × Option NotImplementedError :=
  ("", some .ErrXIDNotImplemented)

/-- Go `GenerateXIDBatch`. -/
def GenerateXIDBatch (count : Int) : Option (List String) × Option NotImplementedError :=
  if count ≤ 0 then (none, some .ErrXIDNotImplemented)
  else (none, some .ErrXIDNotImplemented)

/-- Go `GenerateSonyflake`. -/
def GenerateSonyflake : String × Option NotImplementedError :=
  ("", some .ErrSonyflakeNotImplemented)

/-- Go `GenerateSonyflakeBatch`. -/
def GenerateSonyflakeBatch (count : Int) : Option (List String) × Option NotImplementedError :=
  if count ≤ 0 then (none, some .ErrSonyflakeNotImplemented)
  else (none, some .ErrSonyflakeNotImplemented)

/-! ## UUIDs (`pkg/idgen/uuid.go`) -/

/-- Go `type UUID [16]byte`: the bytes in order, each a natural number below 256. -/
abbrev UUID := List Nat

/-- The list holds sixteen bytes. -/
def isUUID (u : UUID) : Prop := u.length = 16 ∧ ∀ b ∈ u, b < 256

instance (u : UUID) : Decidable (isUUID u) := by
  unfold isUUID; exact inferInstance

/-- The Go slice expression `b[lo:hi]`. -/
def sliceBytes (b : List Nat) (lo hi : Nat) : List Nat := (b.drop lo).take (hi - lo)

/-- The digits of `encoding/hex`. -/
def hextableString : String := "0123456789abcdef"

/-- The table `hextable` of `encoding/hex`. -/
def hextable : List Char := hextableString.toList

/-- The hexadecimal digit `hextable[n]`. -/
def hexDigit (n : Nat) : Char := hextable.getD n '0'

/-- The bytes `hex.Encode` of the Go standard library writes for `src`: two lowercase
hexadecimal digits per byte, the high four bits first. -/
def hexEncode : List Nat → List Char
  | [] => []
  | b :: rest => hexDigit (b >>> 4) :: hexDigit (b &&& 0x0f) :: hexEncode rest

/-- Go `UUID.String`.  The five `hex.Encode` calls and the four hyphens fill the 36 bytes
of `buf` from left to right, each segment exactly. -/
def UUID_String (u : UUID) : String :=
  String.mk (hexEncode (sliceBytes u 0 4) ++ '-' :: hexEncode (sliceBytes u 4 6)
    ++ '-' :: hexEncode (sliceBytes u 6 8) ++ '-' :: hexEncode (sliceBytes u 8 10)
    ++ '-' :: hexEncode (sliceBytes u 10 16))

/-- The errors built with `fmt.Errorf` in `uuid.go`. -/
inductive UUIDError where
  | randomBytes
  | countNotPositive
  | atIndex (i : Nat)
  deriving DecidableEq, Repr

/-- The zero value of `UUID`. -/
def zeroUUID : UUID := List.replicate 16 0

/-- Go `NewUUIDv4`.  `random` is what `rand.Read(uuid[:])` delivers: `some r` for sixteen
random bytes `r`, `none` for a failure, in which case the bytes of the returned UUID are
not specified and are taken to be zero. -/
def NewUUIDv4 (random : Option (List Nat)) : UUID × Option UUIDError :=
  match random with
  | none => (zeroUUID, some .randomBytes)
  | some r =>
    let uuid := r
    let uuid := uuid.set 6 ((uuid.getD 6 0 &&& 0x0f) ||| 0x40)
    let uuid := uuid.set 8 ((uuid.getD 8 0 &&& 0x3f) ||| 0x80)
    (uuid, none)

/-- The fields of the Go struct `UUIDv7Generator`, the mutex left out; `sequence` is a
`uint16`. -/
structure UUIDv7Generator where
  lastTimestamp : Int
  sequence : Nat
  deriving DecidableEq, Repr

/-- The zero value `&UUIDv7Generator{}` of `globalUUIDv7Generator`. -/
def UUIDv7Generator.zero : UUIDv7Generator := { lastTimestamp := 0, sequence := 0 }

/-- The eight bytes `binary.BigEndian.PutUint64` of the Go standard library writes for a
`uint64`, the most significant byte first. -/
def putUint64 (v : Nat) : List Nat :=
  [v / 2 ^ 56 % 256, v / 2 ^ 48 % 256, v / 2 ^ 40 % 256, v / 2 ^ 32 % 256,
   v / 2 ^ 24 % 256, v / 2 ^ 16 % 256, v / 2 ^ 8 % 256, v % 256]

/-- The `uint64` that `binary.BigEndian.Uint64` of the Go standard library reads from bytes,
the most significant byte first. -/
def bigEndianUint64 (b : List Nat) : Nat := b.foldl (fun acc x => acc * 256 + x) 0

/-- The clock and sequence part of `UUIDv7Generator.Generate` (lines 113-128 of `uuid.go`):
the timestamp adopted, the sequence and the clock readings left. -/
def uuidv7Advance (g : UUIDv7Generator) (clock : Clock) : Option (Int × Nat × Clock) :=
  match currentTimestamp clock with
  | none => none
  | some (now, clock1) =>
    if now ≤ g.lastTimestamp then
      let sequence := (g.sequence + 1) % 2 ^ 16
      if sequence > 0x0FFF then
        -- sleep one millisecond, then read the clock once more
        match currentTimestamp clock1 with
        | none => none
        | some (now2, clock2) => some (now2, 0, clock2)
      else some (now, sequence, clock1)
    else some (now, 0, clock1)

/-- The timestamp bytes of `UUIDv7Generator.Generate` (line 131 of `uuid.go`):
`uint64(now) << 16` written big-endian into `uuid[0:8]`, the other bytes zero. -/
def uuidv7TimestampBytes (now : Int) : UUID :=
  putUint64 (toU64 now * 2 ^ 16 % 2 ^ 64) ++ List.replicate 8 0

/-- The version, sequence, random and variant bytes of `UUIDv7Generator.Generate` (lines
140-151 of `uuid.go`), written over the timestamp bytes. -/
def uuidv7Fill (uuid : UUID) (sequence : Nat) (randomBytes : List Nat) : UUID :=
  let uuid := uuid.set 6 (0x70 ||| ((sequence >>> 8 &&& 0x0F) % 256))
  let uuid := uuid.set 7 ((sequence &&& 0xFF) % 256)
  let uuid := uuid.take 8 ++ sliceBytes randomBytes 0 8
  uuid.set 8 ((uuid.getD 8 0 &&& 0x3f) ||| 0x80)

/-- Go `(*UUIDv7Generator).Generate`: the UUID and error returned, the state left and the
clock readings not yet consumed.  `random` is what `rand.Read(randomBytes)` delivers for
the ten bytes asked: `some r`, or `none` for a failure. -/
def UUIDv7Generator.Generate (g : UUIDv7Generator) (clock : Clock)
    (random : Option (List Nat)) :
    Option ((UUID × Option UUIDError) × UUIDv7Generator × Clock) :=
  match uuidv7Advance g clock with
  | none => none
  | some (now, sequence, rest) =>
    let g1 : UUIDv7Generator := { lastTimestamp := now, sequence := sequence }
    let uuid := uuidv7TimestampBytes now
    match random with
    | none => some ((uuid, some .randomBytes), g1, rest)
    | some randomBytes => some ((uuidv7Fill uuid sequence randomBytes, none), g1, rest)

/-- Go `ExtractTimestampFromUUIDv7`. -/
def ExtractTimestampFromUUIDv7 (uuid : UUID) : Int :=
  toI64 (bigEndianUint64 ([0, 0] ++ sliceBytes uuid 0 6))

/-! ## Traces of successive calls -/

/-- The states left by the successive `Generate` calls of `generateCalls`, one for each call
that returns. -/
def generateStates : Nat → Snowflake → Clock → List Snowflake
  | 0, _, _ => []
  | n + 1, s, clock =>
    match Generate s clock with
    | none => []
    | some (_, s1, clock1) => s1 :: generateStates n s1 clock1

/-- The recovery assumption behind the regression branch of `Generate`: in each of the next
`n` calls, when the first clock reading is below `lastTimestamp`, the reading taken after
the sleep is not. -/
def rereadsCatchUp : Nat → Snowflake → Clock → Prop
  | 0, _, _ => True
  | n + 1, s, clock =>
    (match clock with
     | now :: now2 :: _ => now < s.lastTimestamp → s.lastTimestamp ≤ now2
     | _ => True) ∧
    (match Generate s clock with
     | none => True
     | some (_, s1, clock1) => rereadsCatchUp n s1 clock1)

/-- Successive `UUIDv7Generator.Generate` calls on one generator: the UUIDs of the calls
(at most `n`) that return without error, call number `i + k` receiving the output
`random (i + k)` of the random source. -/
def uuidv7Calls :
    Nat → Nat → UUIDv7Generator → Clock → (Nat → Option (List Nat)) → List UUID
  | 0, _, _, _, _ => []
  | n + 1, i, g, clock, random =>
    match UUIDv7Generator.Generate g clock (random i) with
    | none => []
    | some ((uuid, none), g1, rest) => uuid :: uuidv7Calls n (i + 1) g1 rest random
    | some ((_, some _), g1, rest) => uuidv7Calls n (i + 1) g1 rest random

/-- The timing assumption behind the overflow branch of `UUIDv7Generator.Generate`: in each
of the next `n` calls, when the sequence overflows, the clock reading taken after the
one-millisecond sleep is above `lastTimestamp`. -/
def overflowSleepAdvances : Nat → UUIDv7Generator → Clock → Prop
  | 0, _, _ => True
  | n + 1, g, clock =>
    match clock, uuidv7Advance g clock with
    | now :: _, some (now1, sequence1, rest) =>
      ((now ≤ g.lastTimestamp ∧ (g.sequence + 1) % 2 ^ 16 > 0x0FFF) → g.lastTimestamp < now1) ∧
      overflowSleepAdvances n { lastTimestamp := now1, sequence := sequence1 } rest
    | _, _ => True

/-- The 48-bit timestamp and the twelve bits after the version nibble of a version 7 UUID,
read as one number. -/
def uuidv7Key (u : UUID) : Int :=
  ExtractTimestampFromUUIDv7 u * 4096
    + (((u.getD 6 0 &&& 0x0f) * 256 + u.getD 7 0 : Nat) : Int)

/-! ## UUID strings in batches -/

/-- The empty string. -/
def emptyString : String := ""

/-- Go `GenerateUUIDv4`. -/
def GenerateUUIDv4 (random : Option (List Nat)) : String × Option UUIDError :=
  match NewUUIDv4 random with
  | (_, some err) => (emptyString, some err)
  | (uuid, none) => (UUID_String uuid, none)

/-- The loop of `GenerateUUIDv4Batch`, with `remaining = count - i` iterations still to run;
iteration `i` receives the output `random i` of the random source. -/
def uuidv4BatchLoop :
    Nat → Nat → List String → (Nat → Option (List Nat)) →
    Option (List String) × Option UUIDError
  | 0, _, uuids, _ => (some uuids, none)
  | remaining + 1, i, uuids, random =>
    match GenerateUUIDv4 (random i) with
    | (_, some _) => (none, some (.atIndex i))
    | (uuid, none) => uuidv4BatchLoop remaining (i + 1) (uuids.set i uuid) random

/-- Go `GenerateUUIDv4Batch`: the slice (`none` for nil) and the error.
`make([]string, count)` panics at run time when the `16 * count` bytes of the slice (a
string header is two 64-bit words) exceed the allocation limit; an allocation within the
limit is taken to succeed. -/
def GenerateUUIDv4Batch (count : Int) (random : Nat → Option (List Nat)) :
    Outcome (Option (List String) × Option UUIDError) :=
  if count ≤ 0 then .returns (none, some .countNotPositive)
  else if makesliceLenOutOfRange 16 count then .panics makesliceMessage
  else .returns
    (uuidv4BatchLoop count.toNat 0 (List.replicate count.toNat emptyString) random)

/-- Go `NewUUIDv7`, `g` being the state of `globalUUIDv7Generator`. -/
def NewUUIDv7 (g : UUIDv7Generator) (clock : Clock) (random : Option (List Nat)) :
    Option ((UUID × Option UUIDError) × UUIDv7Generator × Clock) :=
  UUIDv7Generator.Generate g clock random

/-- Go `GenerateUUIDv7`. -/
def GenerateUUIDv7 (g : UUIDv7Generator) (clock : Clock) (random : Option (List Nat)) :
    Option ((String × Option UUIDError) × UUIDv7Generator × Clock) :=
  match NewUUIDv7 g clock random with
  | none => none
  | some ((_, some err), g1, rest) => some ((emptyString, some err), g1, rest)
  | some ((uuid, none), g1, rest) => some ((UUID_String uuid, none), g1, rest)

/-- The loop of `GenerateUUIDv7Batch`, with `remaining = count - i` iterations still to
run. -/
def uuidv7BatchLoop :
    Nat → Nat → List String → UUIDv7Generator → Clock → (Nat → Option (List Nat)) →
    Option ((Option (List String) × Option UUIDError) × UUIDv7Generator × Clock)
  | 0, _, uuids, g, clock, _ => some ((some uuids, none), g, clock)
  | remaining + 1, i, uuids, g, clock, random =>
    match GenerateUUIDv7 g clock (random i) with
    | none => none
    | some ((_, some _), g1, rest) => some ((none, some (.atIndex i)), g1, rest)
    | some ((uuid, none), g1, rest) =>
      uuidv7BatchLoop remaining (i + 1) (uuids.set i uuid) g1 rest random

/-- Go `GenerateUUIDv7Batch`: the slice and the error, the state of
`globalUUIDv7Generator` and the clock readings left.  `make([]string, count)` panics as in
`GenerateUUIDv4Batch`; the call blocks when the clock readings run out. -/
def GenerateUUIDv7Batch (count : Int) (g : UUIDv7Generator) (clock : Clock)
    (random : Nat → Option (List Nat)) :
    Outcome ((Option (List String) × Option UUIDError) × UUIDv7Generator × Clock) :=
  if count ≤ 0 then .returns ((none, some .countNotPositive), g, clock)
  else if makesliceLenOutOfRange 16 count then .panics makesliceMessage
  else
    match uuidv7BatchLoop count.toNat 0 (List.replicate count.toNat emptyString) g clock
        random with
    | none => .blocks
    | some r => .returns r

/-! ## Lemmas on 64-bit arithmetic -/

theorem toU64_lt (x : Int) : toU64 x < 2 ^ 64 := by
  unfold toU64; omega

theorem toI64_range (n : Nat) : -2 ^ 63 ≤ toI64 n ∧ toI64 n < 2 ^ 63 := by
  unfold toI64; split <;> omega

theorem toU64_toI64 (n : Nat) : toU64 (toI64 n) = n % 2 ^ 64 := by
  unfold toU64 toI64; split <;> omega

theorem wrap64_toI64 (n : Nat) : wrap64 (toI64 n) = toI64 n := by
  unfold wrap64 toU64 toI64; split <;> omega

theorem wrap64_of_isInt64 (x : Int) (h : isInt64 x) : wrap64 x = x := by
  unfold isInt64 at h; unfold wrap64 toU64 toI64; split <;> omega

theorem toU64_of_nonneg (x : Int) (h0 : 0 ≤ x) (h1 : x < 2 ^ 64) : toU64 x = x.toNat := by
  unfold toU64; omega

theorem or_eq_add_of_low (x y k : Nat) (hx : x % 2 ^ k = 0) (hy : y < 2 ^ k) :
    x ||| y = x + y := by
  obtain ⟨a, rfl⟩ := Nat.dvd_of_mod_eq_zero hx
  exact (Nat.mul_add_lt_is_or hy a).symm

theorem maxProcessID_eq : maxProcessID = 31 := by decide
theorem maxWorkerID_eq : maxWorkerID = 31 := by decide
theorem maxSequence_eq : maxSequence = 4095 := by decide
theorem timestampShift_eq : timestampShift = 22 := by decide
theorem processIDShift_eq : processIDShift = 17 := by decide
theorem workerIDShift_eq : workerIDShift = 12 := by decide

theorem toU64_or64 (a b : Int) : toU64 (or64 a b) = toU64 a ||| toU64 b := by
  unfold or64
  rw [toU64_toI64]
  exact Nat.mod_eq_of_lt (Nat.or_lt_two_pow (toU64_lt a) (toU64_lt b))

theorem toU64_shl64 (a : Int) (k : Nat) : toU64 (shl64 a k) = (toU64 a * 2 ^ k) % 2 ^ 64 := by
  unfold shl64
  rw [toU64_toI64, Nat.shiftLeft_eq]

theorem toU64_wrap64 (x : Int) : toU64 (wrap64 x) = toU64 x := by
  unfold wrap64
  rw [toU64_toI64]
  exact Nat.mod_eq_of_lt (toU64_lt x)

/-- The bit pattern of a packed identifier is the sum of its four fields. -/
theorem toU64_packID (e p w t q : Int) (hp : 0 ≤ p ∧ p ≤ 31) (hw : 0 ≤ w ∧ w ≤ 31)
    (hq : 0 ≤ q ∧ q ≤ 4095) :
    toU64 (packID e p w t q)
      = (toU64 (t - e) * 2 ^ 22) % 2 ^ 64 + p.toNat * 2 ^ 17 + w.toNat * 2 ^ 12 + q.toNat := by
  have hP : toU64 p = p.toNat := toU64_of_nonneg p hp.1 (by omega)
  have hW : toU64 w = w.toNat := toU64_of_nonneg w hw.1 (by omega)
  have hQ : toU64 q = q.toNat := toU64_of_nonneg q hq.1 (by omega)
  have hu := toU64_lt (t - e)
  unfold packID
  rw [toU64_or64, toU64_or64, toU64_or64, toU64_shl64, toU64_shl64, toU64_shl64,
    timestampShift_eq, processIDShift_eq, workerIDShift_eq, hP, hW, hQ]
  unfold sub64
  rw [toU64_wrap64]
  generalize toU64 (t - e) = u at hu ⊢
  rw [Nat.mod_eq_of_lt (by omega : p.toNat * 2 ^ 17 < 2 ^ 64),
    Nat.mod_eq_of_lt (by omega : w.toNat * 2 ^ 12 < 2 ^ 64),
    or_eq_add_of_low (u * 2 ^ 22 % 2 ^ 64) (p.toNat * 2 ^ 17) 22 (by omega) (by omega),
    or_eq_add_of_low (u * 2 ^ 22 % 2 ^ 64 + p.toNat * 2 ^ 17) (w.toNat * 2 ^ 12) 17
      (by omega) (by omega),
    or_eq_add_of_low (u * 2 ^ 22 % 2 ^ 64 + p.toNat * 2 ^ 17 + w.toNat * 2 ^ 12) q.toNat 12
      (by omega) (by omega)]

/-- A packed identifier is an `int64`. -/
theorem wrap64_packID (e p w t q : Int) : wrap64 (packID e p w t q) = packID e p w t q := by
  unfold packID or64; exact wrap64_toI64 _

theorem and64_maxSequence (x : Int) : and64 x maxSequence = ((toU64 x % 4096 : Nat) : Int) := by
  unfold and64
  rw [maxSequence_eq, toU64_of_nonneg 4095 (by omega) (by omega)]
  have h : toU64 x &&& (4095 : Int).toNat = toU64 x % 2 ^ 12 :=
    Nat.and_pow_two_sub_one_eq_mod (toU64 x) 12
  rw [h]
  unfold toI64
  split <;> omega

theorem and64_mask31 (x : Int) : and64 x 31 = ((toU64 x % 32 : Nat) : Int) := by
  unfold and64
  rw [toU64_of_nonneg 31 (by omega) (by omega)]
  have h : toU64 x &&& (31 : Int).toNat = toU64 x % 2 ^ 5 :=
    Nat.and_pow_two_sub_one_eq_mod (toU64 x) 5
  rw [h]
  unfold toI64
  split <;> omega

/-! ## Lemmas on the generator -/

/-- A successful `waitNextMillis` returns a reading above `lastTimestamp`, taken from the
readings it consumed. -/
theorem waitNextMillis_some (l : Int) (clock : Clock) (t : Int) (rest : Clock)
    (h : waitNextMillis l clock = some (t, rest)) :
    l < t ∧ ∃ pre, clock = pre ++ rest ∧ t ∈ pre := by
  induction clock with
  | nil => simp [waitNextMillis] at h
  | cons r c ih =>
    unfold waitNextMillis at h
    split at h
    · obtain ⟨h1, pre, h2, h3⟩ := ih h
      exact ⟨h1, r :: pre, by simp [h2], List.mem_cons_of_mem _ h3⟩
    · simp only [Option.some.injEq, Prod.mk.injEq] at h
      obtain ⟨rfl, rfl⟩ := h
      exact ⟨by omega, [r], by simp, by simp⟩

/-- The paths of a returning `Generate` call: the first reading `now`, the reading `ts`
kept after the clock-regression check, and the branch taken on it. -/
theorem Generate_cases (s : Snowflake) (clock : Clock) (id : Int) (s1 : Snowflake)
    (rest : Clock) (h : Generate s clock = some (id, s1, rest)) :
    ∃ now c1 ts c2, clock = now :: c1 ∧
      ((now < s.lastTimestamp ∧ c1 = ts :: c2) ∨
        (¬ now < s.lastTimestamp ∧ ts = now ∧ c2 = c1)) ∧
      ((ts = s.lastTimestamp ∧ and64 (add64 s.sequence 1) maxSequence = 0 ∧
          waitNextMillis s.lastTimestamp c2 = some (s1.lastTimestamp, rest) ∧
          s1.sequence = 0) ∨
        (ts = s.lastTimestamp ∧ and64 (add64 s.sequence 1) maxSequence ≠ 0 ∧
          s1.lastTimestamp = ts ∧ s1.sequence = and64 (add64 s.sequence 1) maxSequence ∧
          rest = c2) ∨
        (ts ≠ s.lastTimestamp ∧ s1.lastTimestamp = ts ∧ s1.sequence = 0 ∧ rest = c2)) ∧
      s1.epoch = s.epoch ∧ s1.processID = s.processID ∧ s1.workerID = s.workerID ∧
      id = packID s.epoch s.processID s.workerID s1.lastTimestamp s1.sequence := by
  unfold Generate at h
  cases clock with
  | nil => simp [currentTimestamp] at h
  | cons now c1 =>
    simp only [currentTimestamp] at h
    by_cases hlt : now < s.lastTimestamp
    · cases c1 with
      | nil => simp [hlt, currentTimestamp] at h
      | cons ts c2 =>
        simp only [hlt, if_true, currentTimestamp] at h
        refine ⟨now, ts :: c2, ts, c2, rfl, Or.inl ⟨hlt, rfl⟩, ?_⟩
        by_cases heq : ts = s.lastTimestamp
        · by_cases hz : and64 (add64 s.sequence 1) maxSequence = 0
          · simp only [heq, hz, if_true] at h
            cases hw : waitNextMillis s.lastTimestamp c2 with
            | none => simp [hw] at h
            | some r =>
              obtain ⟨t, c3⟩ := r
              simp only [hw, Option.some.injEq, Prod.mk.injEq] at h
              obtain ⟨h1, h2, h3⟩ := h
              subst h2 h3
              exact ⟨Or.inl ⟨heq, hz, rfl, rfl⟩, rfl, rfl, rfl, h1.symm⟩
          · simp only [heq, hz, if_true, if_false, Option.some.injEq, Prod.mk.injEq] at h
            obtain ⟨h1, h2, h3⟩ := h
            subst h2 h3
            exact ⟨Or.inr (Or.inl ⟨heq, hz, heq.symm, rfl, rfl⟩), rfl, rfl, rfl, h1.symm⟩
        · simp only [heq, if_false, Option.some.injEq, Prod.mk.injEq] at h
          obtain ⟨h1, h2, h3⟩ := h
          subst h2 h3
          exact ⟨Or.inr (Or.inr ⟨heq, rfl, rfl, rfl⟩), rfl, rfl, rfl, h1.symm⟩
    · simp only [hlt, if_false] at h
      refine ⟨now, c1, now, c1, rfl, Or.inr ⟨hlt, rfl, rfl⟩, ?_⟩
      by_cases heq : now = s.lastTimestamp
      · by_cases hz : and64 (add64 s.sequence 1) maxSequence = 0
        · simp only [heq, hz, if_true] at h
          cases hw : waitNextMillis s.lastTimestamp c1 with
          | none => simp [hw] at h
          | some r =>
            obtain ⟨t, c3⟩ := r
            simp only [hw, Option.some.injEq, Prod.mk.injEq] at h
            obtain ⟨h1, h2, h3⟩ := h
            subst h2 h3
            exact ⟨Or.inl ⟨heq, hz, rfl, rfl⟩, rfl, rfl, rfl, h1.symm⟩
        · simp only [heq, hz, if_true, if_false, Option.some.injEq, Prod.mk.injEq] at h
          obtain ⟨h1, h2, h3⟩ := h
          subst h2 h3
          exact ⟨Or.inr (Or.inl ⟨heq, hz, heq.symm, rfl, rfl⟩), rfl, rfl, rfl, h1.symm⟩
      · simp only [heq, if_false, Option.some.injEq, Prod.mk.injEq] at h
        obtain ⟨h1, h2, h3⟩ := h
        subst h2 h3
        exact ⟨Or.inr (Or.inr ⟨heq, rfl, rfl, rfl⟩), rfl, rfl, rfl, h1.symm⟩

/-- What every returning `Generate` call does, whatever the state and the clock. -/
theorem Generate_some (s : Snowflake) (clock : Clock) (id : Int) (s1 : Snowflake)
    (rest : Clock) (h : Generate s clock = some (id, s1, rest)) :
    s1.epoch = s.epoch ∧ s1.processID = s.processID ∧ s1.workerID = s.workerID ∧
    (0 ≤ s1.sequence ∧ s1.sequence ≤ 4095) ∧
    id = packID s.epoch s.processID s.workerID s1.lastTimestamp s1.sequence ∧
    ∃ pre, clock = pre ++ rest ∧ s1.lastTimestamp ∈ pre := by
  have hseq := and64_maxSequence (add64 s.sequence 1)
  obtain ⟨now, c1, ts, c2, hc, hre, hbr, he, hp, hw, hid⟩ := Generate_cases s clock id s1 rest h
  refine ⟨he, hp, hw, ?_, hid, ?_⟩
  · rcases hbr with ⟨_, _, _, h0⟩ | ⟨_, _, _, h1, _⟩ | ⟨_, _, h0, _⟩
    · omega
    · omega
    · omega
  · have hpre : ∃ pre0, clock = pre0 ++ c2 ∧ ts ∈ pre0 := by
      rcases hre with ⟨_, h1⟩ | ⟨_, h1, h2⟩
      · exact ⟨[now, ts], by simp [hc, h1], by simp⟩
      · exact ⟨[now], by simp [hc, h2], by simp [h1]⟩
    obtain ⟨pre0, hpre0, hts⟩ := hpre
    rcases hbr with ⟨_, _, hwait, _⟩ | ⟨_, _, h1, _, h2⟩ | ⟨_, h1, _, h2⟩
    · obtain ⟨_, pre1, hc2, hmem⟩ := waitNextMillis_some _ _ _ _ hwait
      exact ⟨pre0 ++ pre1, by rw [hpre0, hc2, List.append_assoc],
        List.mem_append.mpr (Or.inr hmem)⟩
    · exact ⟨pre0, by rw [hpre0, h2], by rw [h1]; exact hts⟩
    · exact ⟨pre0, by rw [hpre0, h2], by rw [h1]; exact hts⟩

/-- A packed identifier is an `int64`. -/
theorem packID_isInt64 (e p w t q : Int) : isInt64 (packID e p w t q) := by
  unfold packID or64; exact toI64_range _

/-- With in-range slots and sequence, bits 17..21 of a packed identifier are the process
slot, whatever the timestamp and the epoch. -/
theorem extractProcessID_packID (g : Snowflake) (e p w t q : Int) (hp : 0 ≤ p ∧ p ≤ 31)
    (hw : 0 ≤ w ∧ w ≤ 31) (hq : 0 ≤ q ∧ q ≤ 4095) :
    ExtractProcessID g (packID e p w t q) = p := by
  have hU := toU64_packID e p w t q hp hw hq
  have hI := packID_isInt64 e p w t q
  unfold ExtractProcessID shr64
  rw [wrap64_packID, processIDShift_eq, maxProcessID_eq, and64_mask31]
  generalize packID e p w t q = id at hU hI
  generalize toU64 (t - e) = u at hU
  unfold isInt64 at hI
  unfold toU64 at hU ⊢
  omega

/-- With in-range slots and sequence, bits 12..16 of a packed identifier are the worker
slot. -/
theorem extractWorkerID_packID (g : Snowflake) (e p w t q : Int) (hp : 0 ≤ p ∧ p ≤ 31)
    (hw : 0 ≤ w ∧ w ≤ 31) (hq : 0 ≤ q ∧ q ≤ 4095) :
    ExtractWorkerID g (packID e p w t q) = w := by
  have hU := toU64_packID e p w t q hp hw hq
  have hI := packID_isInt64 e p w t q
  unfold ExtractWorkerID shr64
  rw [wrap64_packID, workerIDShift_eq, maxWorkerID_eq, and64_mask31]
  generalize packID e p w t q = id at hU hI
  generalize toU64 (t - e) = u at hU
  unfold isInt64 at hI
  unfold toU64 at hU ⊢
  omega

/-- With in-range slots and sequence, the low 12 bits of a packed identifier are the
sequence. -/
theorem extractSequence_packID (g : Snowflake) (e p w t q : Int) (hp : 0 ≤ p ∧ p ≤ 31)
    (hw : 0 ≤ w ∧ w ≤ 31) (hq : 0 ≤ q ∧ q ≤ 4095) :
    ExtractSequence g (packID e p w t q) = q := by
  have hU := toU64_packID e p w t q hp hw hq
  unfold ExtractSequence
  rw [and64_maxSequence]
  generalize packID e p w t q = id at hU
  generalize toU64 (t - e) = u at hU
  omega

/-- When the timestamp delta fits the 41-bit field the packed identifier is the sum of
its four shifted fields. -/
theorem packID_eq_sum (e p w t q : Int) (hp : 0 ≤ p ∧ p ≤ 31) (hw : 0 ≤ w ∧ w ≤ 31)
    (hq : 0 ≤ q ∧ q ≤ 4095) (ht : 0 ≤ t - e ∧ t - e < 2 ^ 41) :
    packID e p w t q = (t - e) * 2 ^ 22 + p * 2 ^ 17 + w * 2 ^ 12 + q := by
  have hU := toU64_packID e p w t q hp hw hq
  have hI := packID_isInt64 e p w t q
  generalize packID e p w t q = id at hU hI
  unfold isInt64 at hI
  unfold toU64 at hU
  omega

/-- Decoding the timestamp of a packed identifier gives the timestamp back when the
delta to the epoch fits 42 signed bits. -/
theorem extractTimestamp_packID (g : Snowflake) (p w t q : Int) (hp : 0 ≤ p ∧ p ≤ 31)
    (hw : 0 ≤ w ∧ w ≤ 31) (hq : 0 ≤ q ∧ q ≤ 4095) (hT : isInt64 t)
    (ht : -2 ^ 41 ≤ t - g.epoch ∧ t - g.epoch < 2 ^ 41) :
    ExtractTimestamp g (packID g.epoch p w t q) = t := by
  have hU := toU64_packID g.epoch p w t q hp hw hq
  have hI := packID_isInt64 g.epoch p w t q
  unfold ExtractTimestamp shr64 add64
  rw [wrap64_packID, timestampShift_eq]
  generalize packID g.epoch p w t q = id at hU hI
  generalize g.epoch = e at hU ht
  have hdiv : id / 2 ^ 22 = t - e := by
    unfold isInt64 at hI
    unfold toU64 at hU
    omega
  rw [hdiv, show t - e + e = t by ring]
  exact wrap64_of_isInt64 t hT

/-- A successful construction has in-range slots and the initial state. -/
theorem NewWithEpoch_ok (p w e : Int) (g : Snowflake) (h : NewWithEpoch p w e = .ok g) :
    (0 ≤ p ∧ p ≤ 31) ∧ (0 ≤ w ∧ w ≤ 31) ∧
    g = { epoch := e, processID := p, workerID := w, sequence := 0, lastTimestamp := 0 } := by
  unfold NewWithEpoch at h
  rw [maxProcessID_eq, maxWorkerID_eq] at h
  split at h
  · simp at h
  · split at h
    · simp at h
    · simp only [Except.ok.injEq] at h
      exact ⟨by omega, by omega, h.symm⟩

/-! ## Construction -/

/-- C9: `NewWithEpoch p w e` fails with `ErrInvalidProcessID` exactly when `p` is outside
`0..31`, fails with `ErrInvalidWorkerID` exactly when `p` is inside and `w` is outside
`0..31`, and returns a generator exactly when both are inside; the two errors are distinct
values, and the epoch `e` plays no part in the outcome. -/
theorem NewWithEpoch_outcome (p w e : Int) :
    (NewWithEpoch p w e = .error .ErrInvalidProcessID ↔ (p < 0 ∨ p > 31)) ∧
    (NewWithEpoch p w e = .error .ErrInvalidWorkerID ↔
      ((0 ≤ p ∧ p ≤ 31) ∧ (w < 0 ∨ w > 31))) ∧
    ((∃ g, NewWithEpoch p w e = .ok g) ↔ ((0 ≤ p ∧ p ≤ 31) ∧ (0 ≤ w ∧ w ≤ 31))) ∧
    SnowflakeError.ErrInvalidProcessID ≠ SnowflakeError.ErrInvalidWorkerID := by
  unfold NewWithEpoch
  rw [maxProcessID_eq, maxWorkerID_eq]
  by_cases hp : p < 0 ∨ p > 31
  · rw [if_pos hp]
    refine ⟨⟨fun _ => hp, fun _ => rfl⟩, ⟨?_, ?_⟩, ⟨?_, ?_⟩, by decide⟩
    · intro h; cases h
    · intro h; omega
    · rintro ⟨g, h⟩; cases h
    · intro h; omega
  · rw [if_neg hp]
    by_cases hw : w < 0 ∨ w > 31
    · rw [if_pos hw]
      refine ⟨⟨?_, ?_⟩, ⟨fun _ => ⟨by omega, hw⟩, fun _ => rfl⟩, ⟨?_, ?_⟩, by decide⟩
      · intro h; cases h
      · intro h; exact absurd h hp
      · rintro ⟨g, h⟩; cases h
      · intro h; omega
    · rw [if_neg hw]
      refine ⟨⟨?_, ?_⟩, ⟨?_, ?_⟩, ⟨fun _ => by omega, fun _ => ⟨_, rfl⟩⟩, by decide⟩
      · intro h; cases h
      · intro h; exact absurd h hp
      · intro h; cases h
      · intro h; exact absurd h.2 hw

/-- C10: for slots `p` and `w` in `0..31` and every epoch `e`, `NewWithEpoch p w e` returns
a generator whose accessors give back `p`, `w` and `e`, with `sequence = 0` and
`lastTimestamp = 0`. -/
theorem NewWithEpoch_initial_state (p w e : Int) (hp : 0 ≤ p ∧ p ≤ 31)
    (hw : 0 ≤ w ∧ w ≤ 31) :
    ∃ g, NewWithEpoch p w e = .ok g ∧ ProcessID g = p ∧ WorkerID g = w ∧ Epoch g = e ∧
      g.sequence = 0 ∧ g.lastTimestamp = 0 := by
  refine ⟨{ epoch := e, processID := p, workerID := w, sequence := 0, lastTimestamp := 0 },
    ?_, rfl, rfl, rfl, rfl, rfl⟩
  unfold NewWithEpoch
  rw [maxProcessID_eq, maxWorkerID_eq]
  rw [if_neg (by omega), if_neg (by omega)]

/-- Witness of C10 at slots 5 and 12 with the default epoch. -/
theorem NewWithEpoch_initial_state_witness :
    ∃ g, NewWithEpoch 5 12 DefaultEpoch = .ok g ∧ ProcessID g = 5 ∧ WorkerID g = 12 ∧
      Epoch g = DefaultEpoch ∧ g.sequence = 0 ∧ g.lastTimestamp = 0 :=
  NewWithEpoch_initial_state 5 12 DefaultEpoch (by decide) (by decide)

/-! ## Decoding what `Generate` returns -/

/-- C5: for a generator constructed with slots `p` and `w`, in any state of its counters
and for any clock, an identifier returned by `Generate` decodes to process slot `p`, worker
slot `w` and the sequence counter left by the call. -/
theorem Generate_decodes_slots_and_sequence (p w e : Int) (g : Snowflake)
    (hnew : NewWithEpoch p w e = .ok g) (seq last : Int) (clock : Clock) (id : Int)
    (g1 : Snowflake) (rest : Clock)
    (h : Generate { g with sequence := seq, lastTimestamp := last } clock
      = some (id, g1, rest)) :
    ExtractProcessID g1 id = p ∧ ExtractWorkerID g1 id = w ∧
    ExtractSequence g1 id = g1.sequence := by
  obtain ⟨hp, hw, rfl⟩ := NewWithEpoch_ok p w e g hnew
  obtain ⟨_, _, _, hq, hid, _⟩ := Generate_some _ _ _ _ _ h
  subst hid
  exact ⟨extractProcessID_packID _ _ _ _ _ _ hp hw hq,
    extractWorkerID_packID _ _ _ _ _ _ hp hw hq,
    extractSequence_packID _ _ _ _ _ _ hp hw hq⟩

/-- Witness of C5: slots 5 and 12, default epoch, one clock reading. -/
theorem Generate_decodes_slots_and_sequence_witness :
    ExtractProcessID ⟨DefaultEpoch, 5, 12, 0, 1735689600001⟩ 4898816 = 5 ∧
    ExtractWorkerID ⟨DefaultEpoch, 5, 12, 0, 1735689600001⟩ 4898816 = 12 ∧
    ExtractSequence ⟨DefaultEpoch, 5, 12, 0, 1735689600001⟩ 4898816 = 0 :=
  Generate_decodes_slots_and_sequence 5 12 DefaultEpoch ⟨DefaultEpoch, 5, 12, 0, 0⟩
    rfl 0 0 [1735689600001] 4898816 ⟨DefaultEpoch, 5, 12, 0, 1735689600001⟩ [] rfl

/-- C3: two generators constructed with different `(processID, workerID)` pairs, with any
epochs, in any state of their counters and on any clocks, never return the same
identifier from `Generate`. -/
theorem Generate_disjoint_across_slots (p1 w1 e1 p2 w2 e2 : Int) (g1 g2 : Snowflake)
    (hnew1 : NewWithEpoch p1 w1 e1 = .ok g1) (hnew2 : NewWithEpoch p2 w2 e2 = .ok g2)
    (hne : (p1, w1) ≠ (p2, w2))
    (seq1 last1 seq2 last2 : Int) (clock1 clock2 : Clock) (id1 id2 : Int)
    (r1 r2 : Snowflake × Clock)
    (h1 : Generate { g1 with sequence := seq1, lastTimestamp := last1 } clock1
      = some (id1, r1))
    (h2 : Generate { g2 with sequence := seq2, lastTimestamp := last2 } clock2
      = some (id2, r2)) :
    id1 ≠ id2 := by
  obtain ⟨hp1, hw1, rfl⟩ := NewWithEpoch_ok p1 w1 e1 g1 hnew1
  obtain ⟨hp2, hw2, rfl⟩ := NewWithEpoch_ok p2 w2 e2 g2 hnew2
  obtain ⟨_, _, _, hq1, hid1, _⟩ := Generate_some _ _ _ _ _ h1
  obtain ⟨_, _, _, hq2, hid2, _⟩ := Generate_some _ _ _ _ _ h2
  intro heq
  apply hne
  have a1 := extractProcessID_packID r1.1 e1 p1 w1 r1.1.lastTimestamp r1.1.sequence hp1 hw1 hq1
  have a2 := extractProcessID_packID r1.1 e2 p2 w2 r2.1.lastTimestamp r2.1.sequence hp2 hw2 hq2
  have b1 := extractWorkerID_packID r1.1 e1 p1 w1 r1.1.lastTimestamp r1.1.sequence hp1 hw1 hq1
  have b2 := extractWorkerID_packID r1.1 e2 p2 w2 r2.1.lastTimestamp r2.1.sequence hp2 hw2 hq2
  simp only at hid1 hid2
  rw [← hid1] at a1 b1
  rw [← hid2, ← heq] at a2 b2
  rw [← a1, ← b1, a2, b2]

/-- Witness of C3: slots `(5, 12)` and `(5, 13)` reading the same millisecond. -/
theorem Generate_disjoint_across_slots_witness : (4898816 : Int) ≠ 4902912 :=
  Generate_disjoint_across_slots 5 12 DefaultEpoch 5 13 DefaultEpoch
    ⟨DefaultEpoch, 5, 12, 0, 0⟩ ⟨DefaultEpoch, 5, 13, 0, 0⟩ rfl rfl
    (by decide) 0 0 0 0 [1735689600001] [1735689600001] 4898816 4902912
    (⟨DefaultEpoch, 5, 12, 0, 1735689600001⟩, []) (⟨DefaultEpoch, 5, 13, 0, 1735689600001⟩, [])
    rfl rfl

/-- C8: `Generate` returns `((T - epoch) << 22) | (processID << 17) | (workerID << 12) | s`
in 64-bit arithmetic, `T` and `s` being `lastTimestamp` and `sequence` after the call; when
`0 ≤ T - epoch < 2^41` the fields do not overlap and the identifier is
`(T - epoch) * 2^22 + processID * 2^17 + workerID * 2^12 + s`. -/
theorem Generate_packs_fields (p w e : Int) (g : Snowflake)
    (hnew : NewWithEpoch p w e = .ok g) (seq last : Int) (clock : Clock) (id : Int)
    (g1 : Snowflake) (rest : Clock)
    (h : Generate { g with sequence := seq, lastTimestamp := last } clock
      = some (id, g1, rest)) :
    id = or64 (or64 (or64 (shl64 (sub64 g1.lastTimestamp e) 22) (shl64 p 17)) (shl64 w 12))
      g1.sequence ∧
    (0 ≤ g1.lastTimestamp - e ∧ g1.lastTimestamp - e < 2 ^ 41 →
      id = (g1.lastTimestamp - e) * 2 ^ 22 + p * 2 ^ 17 + w * 2 ^ 12 + g1.sequence) := by
  obtain ⟨hp, hw, rfl⟩ := NewWithEpoch_ok p w e g hnew
  obtain ⟨_, _, _, hq, hid, _⟩ := Generate_some _ _ _ _ _ h
  simp only at hid
  refine ⟨hid, fun ht => ?_⟩
  rw [hid]
  exact packID_eq_sum e p w g1.lastTimestamp g1.sequence hp hw hq ht

/-- Witness of C8: slots 5 and 12, default epoch, one millisecond after the epoch. -/
theorem Generate_packs_fields_witness :
    (4898816 : Int)
      = or64 (or64 (or64 (shl64 (sub64 1735689600001 DefaultEpoch) 22) (shl64 5 17))
          (shl64 12 12)) 0 ∧
    (4898816 : Int) = (1735689600001 - DefaultEpoch) * 2 ^ 22 + 5 * 2 ^ 17 + 12 * 2 ^ 12 + 0 :=
  have h := Generate_packs_fields 5 12 DefaultEpoch ⟨DefaultEpoch, 5, 12, 0, 0⟩ rfl 0 0
    [1735689600001] 4898816 ⟨DefaultEpoch, 5, 12, 0, 1735689600001⟩ [] rfl
  ⟨h.1, h.2 ⟨by decide, by decide⟩⟩

/-- C4, counterexample: with the default epoch and a clock that reads one second before
the epoch, `Generate` returns a negative identifier. -/
theorem Generate_negative_before_epoch :
    New 5 12 = .ok ⟨DefaultEpoch, 5, 12, 0, 0⟩ ∧
    Generate ⟨DefaultEpoch, 5, 12, 0, 0⟩ [1735689599000]
      = some (-4193599488, ⟨DefaultEpoch, 5, 12, 0, 1735689599000⟩, []) ∧
    ¬ (0 < (-4193599488 : Int)) :=
  ⟨rfl, rfl, by decide⟩

/-- C4, amended: an identifier returned by `Generate` is positive (and below `2^63`) when
the timestamp `T` adopted by the call satisfies `epoch < T < epoch + 2^41`. -/
theorem Generate_positive_within_capacity (p w e : Int) (g : Snowflake)
    (hnew : NewWithEpoch p w e = .ok g) (seq last : Int) (clock : Clock) (id : Int)
    (g1 : Snowflake) (rest : Clock)
    (h : Generate { g with sequence := seq, lastTimestamp := last } clock
      = some (id, g1, rest))
    (ht : e < g1.lastTimestamp ∧ g1.lastTimestamp < e + 2 ^ 41) :
    0 < id ∧ id < 2 ^ 63 := by
  obtain ⟨hp, hw, rfl⟩ := NewWithEpoch_ok p w e g hnew
  obtain ⟨_, _, _, hq, hid, _⟩ := Generate_some _ _ _ _ _ h
  simp only at hid
  rw [hid, packID_eq_sum e p w g1.lastTimestamp g1.sequence hp hw hq ⟨by omega, by omega⟩]
  omega

/-- Witness of the amended C4. -/
theorem Generate_positive_within_capacity_witness :
    0 < (4898816 : Int) ∧ (4898816 : Int) < 2 ^ 63 :=
  Generate_positive_within_capacity 5 12 DefaultEpoch ⟨DefaultEpoch, 5, 12, 0, 0⟩ rfl 0 0
    [1735689600001] 4898816 ⟨DefaultEpoch, 5, 12, 0, 1735689600001⟩ [] rfl
    ⟨by decide, by decide⟩

/-- C6, counterexample: with the default epoch and a clock reading `2^41` ms after it, the
timestamp decoded from the returned identifier is not the adopted `lastTimestamp`. -/
theorem ExtractTimestamp_wraps_past_capacity :
    New 5 12 = .ok ⟨DefaultEpoch, 5, 12, 0, 0⟩ ∧
    Generate ⟨DefaultEpoch, 5, 12, 0, 0⟩ [3934712855552]
      = some (-9223372036854071296, ⟨DefaultEpoch, 5, 12, 0, 3934712855552⟩, []) ∧
    ExtractTimestamp ⟨DefaultEpoch, 5, 12, 0, 3934712855552⟩ (-9223372036854071296)
      = -463333655552 ∧
    (-463333655552 : Int) ≠ 3934712855552 :=
  ⟨rfl, rfl, rfl, by decide⟩

/-- C6, amended: the timestamp `T` adopted by a returning `Generate` call (the generator's
`lastTimestamp` after the call) is one of the clock readings the call consumed; and when
the clock readings are `int64` values and `-2^41 ≤ T - epoch < 2^41`, `ExtractTimestamp`
of the returned identifier is `T`. -/
theorem Generate_decodes_timestamp (p w e : Int) (g : Snowflake)
    (hnew : NewWithEpoch p w e = .ok g) (seq last : Int) (clock : Clock) (id : Int)
    (g1 : Snowflake) (rest : Clock)
    (h : Generate { g with sequence := seq, lastTimestamp := last } clock
      = some (id, g1, rest)) :
    (∃ taken, clock = taken ++ rest ∧ g1.lastTimestamp ∈ taken) ∧
    ((∀ r ∈ clock, isInt64 r) →
      (-2 ^ 41 ≤ g1.lastTimestamp - e ∧ g1.lastTimestamp - e < 2 ^ 41) →
      ExtractTimestamp g1 id = g1.lastTimestamp) := by
  obtain ⟨hp, hw, rfl⟩ := NewWithEpoch_ok p w e g hnew
  obtain ⟨he, _, _, hq, hid, pre, hpre, hmem⟩ := Generate_some _ _ _ _ _ h
  simp only at hid he
  refine ⟨⟨pre, hpre, hmem⟩, fun hclock ht => ?_⟩
  have hT : isInt64 g1.lastTimestamp :=
    hclock _ (by rw [hpre]; exact List.mem_append.mpr (Or.inl hmem))
  rw [hid, ← he]
  exact extractTimestamp_packID g1 p w g1.lastTimestamp g1.sequence hp hw hq hT
    (by rw [he]; exact ht)

/-- Witness of the amended C6: slots 5 and 12, default epoch, one clock reading. -/
theorem Generate_decodes_timestamp_witness :
    (∃ taken, [(1735689600001 : Int)] = taken ++ [] ∧ (1735689600001 : Int) ∈ taken) ∧
    ExtractTimestamp ⟨DefaultEpoch, 5, 12, 0, 1735689600001⟩ 4898816 = 1735689600001 :=
  have h := Generate_decodes_timestamp 5 12 DefaultEpoch ⟨DefaultEpoch, 5, 12, 0, 0⟩ rfl 0 0
    [1735689600001] 4898816 ⟨DefaultEpoch, 5, 12, 0, 1735689600001⟩ [] rfl
  ⟨h.1, h.2 (by decide) ⟨by decide, by decide⟩⟩

/-! ## Round trip -/

theorem toU64_wrap64_sub (y e : Int) : toU64 (wrap64 (y + e) - e) = toU64 y := by
  unfold wrap64 toI64 toU64
  split <;> omega

/-- Bits 17..21 of `id`, read from its bit pattern. -/
theorem toU64_shr17_mod32 (id : Int) :
    toU64 (id / 2 ^ 17) % 32 = toU64 id / 2 ^ 17 % 32 := by
  unfold toU64
  omega

/-- Bits 12..16 of `id`, read from its bit pattern. -/
theorem toU64_shr12_mod32 (id : Int) :
    toU64 (id / 2 ^ 12) % 32 = toU64 id / 2 ^ 12 % 32 := by
  unfold toU64
  omega

/-- Bits 22..63 of `id`, read from its bit pattern. -/
theorem toU64_shr22_shl22 (id : Int) :
    toU64 (id / 2 ^ 22) * 2 ^ 22 % 2 ^ 64 = toU64 id / 2 ^ 22 * 2 ^ 22 := by
  unfold toU64
  omega

/-- C7: for every `int64` value `id` and every generator `g`, decoding the four fields and
packing them again with `g`'s epoch gives `id` back, in 64-bit arithmetic. -/
theorem decode_then_encode (g : Snowflake) (id : Int) (hid : isInt64 id) :
    or64 (or64 (or64 (shl64 (sub64 (ExtractTimestamp g id) g.epoch) 22)
        (shl64 (ExtractProcessID g id) 17))
        (shl64 (ExtractWorkerID g id) 12))
      (ExtractSequence g id) = id := by
  show packID g.epoch (ExtractProcessID g id) (ExtractWorkerID g id) (ExtractTimestamp g id)
    (ExtractSequence g id) = id
  have hP : ExtractProcessID g id = ((toU64 (id / 2 ^ 17) % 32 : Nat) : Int) := by
    unfold ExtractProcessID shr64
    rw [wrap64_of_isInt64 id hid, processIDShift_eq, maxProcessID_eq, and64_mask31]
  have hW : ExtractWorkerID g id = ((toU64 (id / 2 ^ 12) % 32 : Nat) : Int) := by
    unfold ExtractWorkerID shr64
    rw [wrap64_of_isInt64 id hid, workerIDShift_eq, maxWorkerID_eq, and64_mask31]
  have hS : ExtractSequence g id = ((toU64 id % 4096 : Nat) : Int) := by
    unfold ExtractSequence
    rw [and64_maxSequence]
  have hT : toU64 (ExtractTimestamp g id - g.epoch) = toU64 (id / 2 ^ 22) := by
    unfold ExtractTimestamp shr64 add64
    rw [wrap64_of_isInt64 id hid, timestampShift_eq, toU64_wrap64_sub]
  have hU := toU64_packID g.epoch (ExtractProcessID g id) (ExtractWorkerID g id)
    (ExtractTimestamp g id) (ExtractSequence g id) (by rw [hP]; omega) (by rw [hW]; omega)
    (by rw [hS]; omega)
  rw [hT] at hU
  have hL := wrap64_packID g.epoch (ExtractProcessID g id) (ExtractWorkerID g id)
    (ExtractTimestamp g id) (ExtractSequence g id)
  have hR := wrap64_of_isInt64 id hid
  have hU1 : toU64 (packID g.epoch (ExtractProcessID g id) (ExtractWorkerID g id)
      (ExtractTimestamp g id) (ExtractSequence g id)) = toU64 id := by
    rw [hU, hP, hW, hS, toU64_shr22_shl22, toU64_shr17_mod32, toU64_shr12_mod32]
    generalize toU64 id = n
    omega
  unfold wrap64 at hL hR
  rw [← hL, hU1, hR]

/-- Witness of C7 at a negative identifier. -/
theorem decode_then_encode_witness :
    or64 (or64 (or64 (shl64 (sub64 (ExtractTimestamp ⟨DefaultEpoch, 5, 12, 0, 0⟩ (-4193599488))
        DefaultEpoch) 22)
        (shl64 (ExtractProcessID ⟨DefaultEpoch, 5, 12, 0, 0⟩ (-4193599488)) 17))
        (shl64 (ExtractWorkerID ⟨DefaultEpoch, 5, 12, 0, 0⟩ (-4193599488)) 12))
      (ExtractSequence ⟨DefaultEpoch, 5, 12, 0, 0⟩ (-4193599488)) = -4193599488 :=
  decode_then_encode ⟨DefaultEpoch, 5, 12, 0, 0⟩ (-4193599488) (by decide)

/-! ## Successive calls -/

theorem and64_succ_sequence (q : Int) (hq : 0 ≤ q ∧ q ≤ 4095) :
    and64 (add64 q 1) maxSequence = (q + 1) % 4096 := by
  rw [and64_maxSequence]
  unfold add64
  rw [toU64_wrap64]
  unfold toU64
  omega

/-- When no reading of the clock is below `lastTimestamp`, a returning `Generate` call
either adopts a later millisecond with sequence 0 or stays in the millisecond and adds one
to the sequence. -/
theorem Generate_advances (s : Snowflake) (clock : Clock) (id : Int) (s1 : Snowflake)
    (rest : Clock) (h : Generate s clock = some (id, s1, rest))
    (hq : 0 ≤ s.sequence ∧ s.sequence ≤ 4095)
    (hge : ∀ r ∈ clock, s.lastTimestamp ≤ r) :
    (s.lastTimestamp < s1.lastTimestamp ∧ s1.sequence = 0) ∨
    (s1.lastTimestamp = s.lastTimestamp ∧ s1.sequence = s.sequence + 1) := by
  obtain ⟨now, c1, ts, c2, hc, hre, hbr, _⟩ := Generate_cases s clock id s1 rest h
  have hnow : s.lastTimestamp ≤ now := hge now (by rw [hc]; exact List.mem_cons_self _ _)
  rcases hre with ⟨hlt, _⟩ | ⟨_, hts, _⟩
  · omega
  · rcases hbr with ⟨_, _, hwait, h0⟩ | ⟨h1, hnz, h2, h3, _⟩ | ⟨hne, h1, h0, _⟩
    · exact Or.inl ⟨(waitNextMillis_some _ _ _ _ hwait).1, h0⟩
    · rw [and64_succ_sequence s.sequence hq] at hnz h3
      exact Or.inr ⟨by omega, by omega⟩
    · exact Or.inl ⟨by omega, h0⟩

/-- After a returning `Generate` call on a non-decreasing clock, the readings left are
non-decreasing, none of them is below the adopted timestamp, and the adopted timestamp and
the readings left all come from the clock. -/
theorem Generate_clock_left (s : Snowflake) (clock : Clock) (id : Int) (s1 : Snowflake)
    (rest : Clock) (h : Generate s clock = some (id, s1, rest))
    (hsorted : clock.Pairwise (· ≤ ·)) :
    rest.Pairwise (· ≤ ·) ∧ (∀ r ∈ rest, s1.lastTimestamp ≤ r) ∧
    (∀ r ∈ rest, r ∈ clock) ∧ s1.lastTimestamp ∈ clock := by
  obtain ⟨_, _, _, _, _, pre, hpre, hmem⟩ := Generate_some s clock id s1 rest h
  subst hpre
  obtain ⟨_, h2, h3⟩ := List.pairwise_append.mp hsorted
  exact ⟨h2, fun r hr => h3 _ hmem _ hr, fun r hr => List.mem_append.mpr (Or.inr hr),
    List.mem_append.mpr (Or.inl hmem)⟩

/-- On a non-decreasing clock that never reads below `lastTimestamp` and stays within the
41-bit capacity, the identifiers of successive calls form a strictly increasing chain above
the value packed from the current state. -/
theorem generateCalls_chain (n : Nat) : ∀ (s : Snowflake) (clock : Clock),
    (0 ≤ s.processID ∧ s.processID ≤ 31) → (0 ≤ s.workerID ∧ s.workerID ≤ 31) →
    (0 ≤ s.sequence ∧ s.sequence ≤ 4095) →
    clock.Pairwise (· ≤ ·) →
    (∀ r ∈ clock, s.lastTimestamp ≤ r) →
    (∀ r ∈ clock, 0 ≤ r - s.epoch ∧ r - s.epoch < 2 ^ 41) →
    List.Chain (· < ·)
      ((s.lastTimestamp - s.epoch) * 2 ^ 22 + s.processID * 2 ^ 17 + s.workerID * 2 ^ 12
        + s.sequence)
      (generateCalls n s clock).1 := by
  induction n with
  | zero => intro s clock _ _ _ _ _ _; exact List.Chain.nil
  | succ n ih =>
    intro s clock hp hw hq hsorted hge hrange
    unfold generateCalls
    cases hG : Generate s clock with
    | none => exact List.Chain.nil
    | some r =>
      obtain ⟨id, s1, rest⟩ := r
      obtain ⟨he, hp1, hw1, hq1, hid, _⟩ := Generate_some s clock id s1 rest hG
      obtain ⟨hs1, hge1, hsub, hmem⟩ := Generate_clock_left s clock id s1 rest hG hsorted
      have hadv := Generate_advances s clock id s1 rest hG hq hge
      have hr1 := hrange _ hmem
      have hsum := packID_eq_sum s.epoch s.processID s.workerID s1.lastTimestamp s1.sequence
        hp hw hq1 hr1
      have hchain := ih s1 rest (by rw [hp1]; exact hp) (by rw [hw1]; exact hw) hq1 hs1 hge1
        (fun r hr => by rw [he]; exact hrange r (hsub r hr))
      rw [he, hp1, hw1, ← hsum, ← hid] at hchain
      refine List.Chain.cons ?_ hchain
      rw [hid, hsum]
      rcases hadv with ⟨h1, h2⟩ | ⟨h1, h2⟩
      · omega
      · omega

/-- On a non-decreasing clock within the 41-bit capacity, from any state with in-range
slots, every identifier returned is above all those returned before it. -/
theorem generateCalls_increasing (n : Nat) (s : Snowflake) (clock : Clock)
    (hp : 0 ≤ s.processID ∧ s.processID ≤ 31) (hw : 0 ≤ s.workerID ∧ s.workerID ≤ 31)
    (hsorted : clock.Pairwise (· ≤ ·))
    (hrange : ∀ r ∈ clock, 0 ≤ r - s.epoch ∧ r - s.epoch < 2 ^ 41) :
    (generateCalls n s clock).1.Pairwise (· < ·) := by
  cases n with
  | zero => exact List.Pairwise.nil
  | succ n =>
    unfold generateCalls
    cases hG : Generate s clock with
    | none => exact List.Pairwise.nil
    | some r =>
      obtain ⟨id, s1, rest⟩ := r
      obtain ⟨he, hp1, hw1, hq1, hid, _⟩ := Generate_some s clock id s1 rest hG
      obtain ⟨hs1, hge1, hsub, hmem⟩ := Generate_clock_left s clock id s1 rest hG hsorted
      have hsum := packID_eq_sum s.epoch s.processID s.workerID s1.lastTimestamp s1.sequence
        hp hw hq1 (hrange _ hmem)
      have hchain := generateCalls_chain n s1 rest (by rw [hp1]; exact hp)
        (by rw [hw1]; exact hw) hq1 hs1 hge1
        (fun r hr => by rw [he]; exact hrange r (hsub r hr))
      rw [he, hp1, hw1, ← hsum, ← hid] at hchain
      exact List.chain_iff_pairwise.mp hchain

/-- C1, counterexample: with the default epoch, a clock that reads one millisecond after
the epoch and then `2^42` milliseconds later makes two successive `Generate` calls return
the same identifier. -/
theorem Generate_repeats_after_timestamp_wrap :
    New 5 12 = .ok ⟨DefaultEpoch, 5, 12, 0, 0⟩ ∧
    (generateCalls 2 ⟨DefaultEpoch, 5, 12, 0, 0⟩ [1735689600001, 6133736111105]).1
      = [4898816, 4898816] ∧
    ¬ ([4898816, 4898816] : List Int).Nodup :=
  ⟨rfl, rfl, by decide⟩

/-- The same loss of uniqueness on a regressing clock: the clock reads `…100`, then `…050`
twice, then `…100` again, and the third identifier equals the first. -/
theorem Generate_repeats_after_regression :
    (generateCalls 3 ⟨DefaultEpoch, 5, 12, 0, 0⟩
      [1735689600100, 1735689600050, 1735689600050, 1735689600100]).1
      = [420134912, 210419712, 420134912] :=
  rfl

/-- When the reading taken after a regression is not below `lastTimestamp`, a returning
`Generate` call either adopts a later millisecond with sequence 0 or stays in the
millisecond and adds one to the sequence. -/
theorem Generate_advances_caught_up (s : Snowflake) (clock : Clock) (id : Int)
    (s1 : Snowflake) (rest : Clock) (h : Generate s clock = some (id, s1, rest))
    (hq : 0 ≤ s.sequence ∧ s.sequence ≤ 4095)
    (hcatch : ∀ now now2 c, clock = now :: now2 :: c →
      now < s.lastTimestamp → s.lastTimestamp ≤ now2) :
    (s.lastTimestamp < s1.lastTimestamp ∧ s1.sequence = 0) ∨
    (s1.lastTimestamp = s.lastTimestamp ∧ s1.sequence = s.sequence + 1) := by
  obtain ⟨now, c1, ts, c2, hc, hre, hbr, _⟩ := Generate_cases s clock id s1 rest h
  have hts : s.lastTimestamp ≤ ts := by
    rcases hre with ⟨hlt, h1⟩ | ⟨hge, h1, _⟩
    · exact hcatch now ts c2 (by rw [hc, h1]) hlt
    · omega
  rcases hbr with ⟨_, _, hwait, h0⟩ | ⟨h1, hnz, h2, h3, _⟩ | ⟨hne, h1, h0, _⟩
  · exact Or.inl ⟨(waitNextMillis_some _ _ _ _ hwait).1, h0⟩
  · rw [and64_succ_sequence s.sequence hq] at hnz h3
    exact Or.inr ⟨by omega, by omega⟩
  · exact Or.inl ⟨by omega, h0⟩

/-- When every regression is recovered by the re-read and the adopted timestamps stay within
the 41-bit capacity, the identifiers of successive calls form a strictly increasing chain
above the value packed from the current state. -/
theorem generateCalls_chain_caught_up (n : Nat) : ∀ (s : Snowflake) (clock : Clock),
    (0 ≤ s.processID ∧ s.processID ≤ 31) → (0 ≤ s.workerID ∧ s.workerID ≤ 31) →
    (0 ≤ s.sequence ∧ s.sequence ≤ 4095) →
    rereadsCatchUp n s clock →
    (∀ s1 ∈ generateStates n s clock,
      0 ≤ s1.lastTimestamp - s.epoch ∧ s1.lastTimestamp - s.epoch < 2 ^ 41) →
    List.Chain (· < ·)
      ((s.lastTimestamp - s.epoch) * 2 ^ 22 + s.processID * 2 ^ 17 + s.workerID * 2 ^ 12
        + s.sequence)
      (generateCalls n s clock).1 := by
  induction n with
  | zero => intro s clock _ _ _ _ _; exact List.Chain.nil
  | succ n ih =>
    intro s clock hp hw hq hcatch hrange
    unfold generateCalls
    unfold generateStates at hrange
    unfold rereadsCatchUp at hcatch
    cases hG : Generate s clock with
    | none => exact List.Chain.nil
    | some r =>
      obtain ⟨id, s1, rest⟩ := r
      simp only [hG] at hrange hcatch
      obtain ⟨he, hp1, hw1, hq1, hid, _⟩ := Generate_some s clock id s1 rest hG
      have hadv := Generate_advances_caught_up s clock id s1 rest hG hq
        (fun now now2 c hc => by subst hc; exact hcatch.1)
      have hr1 := hrange s1 (List.mem_cons_self _ _)
      have hsum := packID_eq_sum s.epoch s.processID s.workerID s1.lastTimestamp s1.sequence
        hp hw hq1 hr1
      have hchain := ih s1 rest (by rw [hp1]; exact hp) (by rw [hw1]; exact hw) hq1 hcatch.2
        (fun r hr => by rw [he]; exact hrange r (List.mem_cons_of_mem _ hr))
      rw [he, hp1, hw1, ← hsum, ← hid] at hchain
      refine List.Chain.cons ?_ hchain
      rw [hid, hsum]
      rcases hadv with ⟨h1, h2⟩ | ⟨h1, h2⟩
      · omega
      · omega

/-- C1, amended: for a generator obtained from `NewWithEpoch`, when every clock reading
taken after a reading below `lastTimestamp` is not below `lastTimestamp`, and every
timestamp `T` adopted by a call satisfies `0 ≤ T - epoch < 2^41`, the identifiers returned by
any number of successive `Generate` calls are pairwise distinct. -/
theorem Generate_unique_when_rereads_catch_up (p w e : Int) (g : Snowflake)
    (hnew : NewWithEpoch p w e = .ok g) (clock : Clock) (n : Nat)
    (hcatch : rereadsCatchUp n g clock)
    (hadopted : ∀ s ∈ generateStates n g clock,
      0 ≤ s.lastTimestamp - e ∧ s.lastTimestamp - e < 2 ^ 41) :
    (generateCalls n g clock).1.Nodup := by
  obtain ⟨hp, hw, rfl⟩ := NewWithEpoch_ok p w e g hnew
  have hchain := generateCalls_chain_caught_up n ⟨e, p, w, 0, 0⟩ clock hp hw
    ⟨le_refl (0 : Int), by show (0 : Int) ≤ 4095; decide⟩ hcatch hadopted
  exact (List.chain_iff_pairwise.mp hchain).tail.imp (fun h => ne_of_lt h)

/-- Witness of the amended C1: three calls; the second reads a clock that went back by 50
milliseconds and has caught up after the sleep. -/
theorem Generate_unique_when_rereads_catch_up_witness :
    (generateCalls 3 ⟨DefaultEpoch, 5, 12, 0, 0⟩
      [1735689600100, 1735689600050, 1735689600100, 1735689600101]).1.Nodup :=
  Generate_unique_when_rereads_catch_up 5 12 DefaultEpoch ⟨DefaultEpoch, 5, 12, 0, 0⟩ rfl
    [1735689600100, 1735689600050, 1735689600100, 1735689600101] 3
    (by
      simp [rereadsCatchUp,
        show Generate ⟨DefaultEpoch, 5, 12, 0, 0⟩
            [1735689600100, 1735689600050, 1735689600100, 1735689600101]
          = some (420134912, ⟨DefaultEpoch, 5, 12, 0, 1735689600100⟩,
              [1735689600050, 1735689600100, 1735689600101]) from rfl,
        show Generate ⟨DefaultEpoch, 5, 12, 0, 1735689600100⟩
            [1735689600050, 1735689600100, 1735689600101]
          = some (420134913, ⟨DefaultEpoch, 5, 12, 1, 1735689600100⟩, [1735689600101])
          from rfl,
        show Generate ⟨DefaultEpoch, 5, 12, 1, 1735689600100⟩ [1735689600101]
          = some (424329216, ⟨DefaultEpoch, 5, 12, 0, 1735689600101⟩, []) from rfl])
    (by decide)

/-- C2, the code at the failing input: the clock reads `…100`, then `…050` twice (it
regressed and is still behind after the sleep); the second `Generate` call adopts `…050`
and returns an identifier whose decoded timestamp is below that of the first. -/
theorem Generate_adopts_regressed_clock :
    New 5 12 = .ok ⟨DefaultEpoch, 5, 12, 0, 0⟩ ∧
    generateCalls 2 ⟨DefaultEpoch, 5, 12, 0, 0⟩ [1735689600100, 1735689600050, 1735689600050]
      = ([420134912, 210419712], ⟨DefaultEpoch, 5, 12, 0, 1735689600050⟩, []) ∧
    ExtractTimestamp ⟨DefaultEpoch, 5, 12, 0, 1735689600050⟩ 420134912 = 1735689600100 ∧
    ExtractTimestamp ⟨DefaultEpoch, 5, 12, 0, 1735689600050⟩ 210419712 = 1735689600050 :=
  ⟨rfl, rfl, rfl, rfl⟩

/-! ## Batch generation and the state invariant -/

/-- The loop of `GenerateBatch`, started at index `done.length` on a slice whose first
entries `done` are written and whose other entries are still zero, does what the
sequential calls do and writes their identifiers after `done`. -/
theorem generateBatchLoop_eq (k : Nat) : ∀ (done : List Int) (s : Snowflake) (clock : Clock),
    generateBatchLoop k done.length (done ++ List.replicate k 0) s clock
      = match sequentialGenerate k s clock with
        | none => .blocks
        | some (ids, s1, rest) => .returns (done ++ ids, s1, rest) := by
  induction k with
  | zero =>
    intro done s clock
    simp [generateBatchLoop, sequentialGenerate]
  | succ k ih =>
    intro done s clock
    unfold generateBatchLoop sequentialGenerate
    cases hG : Generate s clock with
    | none => rfl
    | some r =>
      obtain ⟨id, s1, clock1⟩ := r
      have hset : (done ++ List.replicate (k + 1) 0).set done.length id
          = (done ++ [id]) ++ List.replicate k 0 := by
        rw [List.set_append_right _ _ (Nat.le_refl _), Nat.sub_self, List.replicate_succ,
          List.set_cons_zero, List.append_assoc, List.singleton_append]
      have hlen : done.length + 1 = (done ++ [id]).length := by simp
      simp only [hset, hlen]
      rw [ih (done ++ [id]) s1 clock1]
      cases sequentialGenerate k s1 clock1 with
      | none => rfl
      | some r2 =>
        obtain ⟨ids, s2, clock2⟩ := r2
        simp

/-- The slice of `make([]T, len)` is allocated exactly when the length is not negative and
its size in bytes is within `maxAlloc`. -/
theorem makesliceLenOutOfRange_iff (elemSize len : Int) :
    makesliceLenOutOfRange elemSize len ↔ (len < 0 ∨ maxAlloc < elemSize * len) := by
  unfold makesliceLenOutOfRange maxAlloc
  constructor
  · rintro (h | h | h)
    · exact Or.inl h
    · exact Or.inr (by omega)
    · exact Or.inr (by omega)
  · rintro (h | h)
    · exact Or.inl h
    · exact Or.inr (Or.inr (by omega))

/-- `GenerateBatch` with a non-negative count within the allocation limit is the sequential
specification. -/
theorem GenerateBatch_eq (s : Snowflake) (count : Int) (clock : Clock) (hc : 0 ≤ count)
    (halloc : 8 * count ≤ maxAlloc) :
    GenerateBatch s count clock
      = match sequentialGenerate count.toNat s clock with
        | none => .blocks
        | some r => .returns r := by
  unfold GenerateBatch
  rw [if_neg (by rw [makesliceLenOutOfRange_iff]; omega)]
  have h := generateBatchLoop_eq count.toNat [] s clock
  simp only [List.length_nil, List.nil_append] at h
  rw [h]
  cases sequentialGenerate count.toNat s clock with
  | none => rfl
  | some r => rfl

/-- What `count` returning sequential calls leave: `count` identifiers, the construction
parameters untouched, the sequence in `0..4095` if it was. -/
theorem sequentialGenerate_some (n : Nat) : ∀ (s : Snowflake) (clock : Clock) (ids : List Int)
    (s1 : Snowflake) (rest : Clock), sequentialGenerate n s clock = some (ids, s1, rest) →
    ids.length = n ∧ s1.epoch = s.epoch ∧ s1.processID = s.processID ∧
    s1.workerID = s.workerID ∧
    ((0 ≤ s.sequence ∧ s.sequence ≤ 4095) → (0 ≤ s1.sequence ∧ s1.sequence ≤ 4095)) := by
  induction n with
  | zero =>
    intro s clock ids s1 rest h
    simp only [sequentialGenerate, Option.some.injEq, Prod.mk.injEq] at h
    obtain ⟨rfl, rfl, _⟩ := h
    exact ⟨rfl, rfl, rfl, rfl, fun hq => hq⟩
  | succ n ih =>
    intro s clock ids s2 rest h
    unfold sequentialGenerate at h
    cases hG : Generate s clock with
    | none => simp [hG] at h
    | some r =>
      obtain ⟨id, s1, clock1⟩ := r
      simp only [hG] at h
      cases hS : sequentialGenerate n s1 clock1 with
      | none => simp [hS] at h
      | some r2 =>
        obtain ⟨ids1, s3, clock2⟩ := r2
        simp only [hS, Option.some.injEq, Prod.mk.injEq] at h
        obtain ⟨rfl, rfl, rfl⟩ := h
        obtain ⟨he, hp, hw, hq, _⟩ := Generate_some s clock id s1 clock1 hG
        obtain ⟨hl, he1, hp1, hw1, hq1⟩ := ih s1 clock1 ids1 s3 clock2 hS
        exact ⟨by simp [hl], he1.trans he, hp1.trans hp, hw1.trans hw, fun _ => hq1 hq⟩

/-- A returning `GenerateBatch` call had a non-negative count within the allocation limit
and returns what the sequential specification returns. -/
theorem GenerateBatch_returns (s : Snowflake) (count : Int) (clock : Clock) (ids : List Int)
    (s1 : Snowflake) (rest : Clock)
    (h : GenerateBatch s count clock = .returns (ids, s1, rest)) :
    (0 ≤ count ∧ 8 * count ≤ maxAlloc) ∧
    sequentialGenerate count.toNat s clock = some (ids, s1, rest) := by
  by_cases hc : 0 ≤ count ∧ 8 * count ≤ maxAlloc
  · refine ⟨hc, ?_⟩
    rw [GenerateBatch_eq s count clock hc.1 hc.2] at h
    cases hS : sequentialGenerate count.toNat s clock with
    | none => rw [hS] at h; cases h
    | some r =>
      rw [hS] at h
      simp only [Outcome.returns.injEq] at h
      rw [h]
  · unfold GenerateBatch at h
    rw [if_pos (by rw [makesliceLenOutOfRange_iff]; omega)] at h
    cases h

/-- The invariant of every reachable generator state. -/
theorem Reachable_invariant (p w e : Int) (s : Snowflake) (h : Reachable p w e s) :
    s.epoch = e ∧ s.processID = p ∧ s.workerID = w ∧ (0 ≤ p ∧ p ≤ 31) ∧ (0 ≤ w ∧ w ≤ 31) ∧
    (0 ≤ s.sequence ∧ s.sequence ≤ 4095) := by
  induction h with
  | construct hnew =>
    obtain ⟨hp, hw, rfl⟩ := NewWithEpoch_ok p w e _ hnew
    exact ⟨rfl, rfl, rfl, hp, hw, le_refl (0 : Int), by show (0 : Int) ≤ 4095; decide⟩
  | generate _ hG ih =>
    obtain ⟨he, hp, hw, hq, _⟩ := Generate_some _ _ _ _ _ hG
    obtain ⟨ie, ip, iw, rp, rw, _⟩ := ih
    exact ⟨he.trans ie, hp.trans ip, hw.trans iw, rp, rw, hq⟩
  | generateBatch _ hB ih =>
    obtain ⟨_, hS⟩ := GenerateBatch_returns _ _ _ _ _ _ hB
    obtain ⟨_, he, hp, hw, hq⟩ := sequentialGenerate_some _ _ _ _ _ _ hS
    obtain ⟨ie, ip, iw, rp, rw, iq⟩ := ih
    exact ⟨he.trans ie, hp.trans ip, hw.trans iw, rp, rw, hq iq⟩

/-- The identifiers of returning sequential calls are those of the trace `generateCalls`. -/
theorem sequentialGenerate_eq_generateCalls (n : Nat) : ∀ (s : Snowflake) (clock : Clock)
    (r : List Int × Snowflake × Clock), sequentialGenerate n s clock = some r →
    generateCalls n s clock = r := by
  induction n with
  | zero =>
    intro s clock r h
    simp only [sequentialGenerate, Option.some.injEq] at h
    rw [← h]; rfl
  | succ n ih =>
    intro s clock r h
    unfold sequentialGenerate at h
    unfold generateCalls
    cases hG : Generate s clock with
    | none => simp [hG] at h
    | some r1 =>
      obtain ⟨id, s1, clock1⟩ := r1
      simp only [hG] at h
      cases hS : sequentialGenerate n s1 clock1 with
      | none => simp [hS] at h
      | some r2 =>
        obtain ⟨ids1, s3, clock2⟩ := r2
        simp only [hS, Option.some.injEq] at h
        have hC := ih s1 clock1 _ hS
        simp only [hC]
        exact h

/-- `waitNextMillis` stops at the first reading above `lastTimestamp`. -/
theorem waitNextMillis_stops (l : Int) (polled : List Int) (t : Int) (rest : Clock)
    (hpolled : ∀ r ∈ polled, r ≤ l) (ht : l < t) :
    waitNextMillis l (polled ++ t :: rest) = some (t, rest) := by
  induction polled with
  | nil =>
    simp only [List.nil_append, waitNextMillis]
    rw [if_neg (by omega)]
  | cons r c ih =>
    simp only [List.cons_append, waitNextMillis]
    rw [if_pos (hpolled r (List.mem_cons_self _ _))]
    exact ih (fun x hx => hpolled x (List.mem_cons_of_mem _ hx))

/-- `waitNextMillis` returns when some reading is above `lastTimestamp`. -/
theorem waitNextMillis_returns (l : Int) (clock : Clock) (h : ∃ t ∈ clock, l < t) :
    ∃ t rest, waitNextMillis l clock = some (t, rest) := by
  induction clock with
  | nil => obtain ⟨t, ht, _⟩ := h; cases ht
  | cons r c ih =>
    unfold waitNextMillis
    by_cases hr : r ≤ l
    · rw [if_pos hr]
      obtain ⟨t, ht, hlt⟩ := h
      rcases List.mem_cons.mp ht with rfl | hmem
      · omega
      · exact ih ⟨t, hmem, hlt⟩
    · rw [if_neg hr]
      exact ⟨r, c, rfl⟩

/-! ## The branches of `Generate` -/

/-- C11: in a state reachable from construction, a `Generate` call whose first reading
`now` is above `lastTimestamp` returns and leaves `sequence = 0`, `lastTimestamp = now`;
one whose first reading equals `lastTimestamp` while `sequence < 4095` returns and leaves
`sequence` one higher and `lastTimestamp` unchanged. -/
theorem Generate_new_or_same_millisecond (p w e : Int) (s : Snowflake)
    (hs : Reachable p w e s) (now : Int) (clock1 : Clock) :
    (s.lastTimestamp < now →
      Generate s (now :: clock1)
        = some (packID s.epoch s.processID s.workerID now 0,
            { s with sequence := 0, lastTimestamp := now }, clock1)) ∧
    (now = s.lastTimestamp → s.sequence < 4095 →
      Generate s (now :: clock1)
        = some (packID s.epoch s.processID s.workerID s.lastTimestamp (s.sequence + 1),
            { s with sequence := s.sequence + 1 }, clock1)) := by
  obtain ⟨_, _, _, _, _, hq⟩ := Reachable_invariant p w e s hs
  constructor
  · intro hlt
    simp only [Generate, currentTimestamp, if_neg (not_lt.mpr (le_of_lt hlt)),
      if_neg (ne_of_gt hlt)]
  · intro heq hseq
    subst heq
    have hnext : and64 (add64 s.sequence 1) maxSequence = s.sequence + 1 := by
      rw [and64_succ_sequence s.sequence hq]
      omega
    have hnz : ¬ (s.sequence + 1 = 0) := by omega
    simp only [Generate, currentTimestamp, lt_irrefl, if_false, if_true, hnext, hnz]

/-- Witness of C11: the state left by a first call at `…001`, then a reading `…002` (later
millisecond) and a reading `…001` (same millisecond). -/
theorem Generate_new_or_same_millisecond_witness :
    Generate ⟨DefaultEpoch, 5, 12, 0, 1735689600001⟩ [1735689600002]
      = some (packID DefaultEpoch 5 12 1735689600002 0,
          ⟨DefaultEpoch, 5, 12, 0, 1735689600002⟩, []) ∧
    Generate ⟨DefaultEpoch, 5, 12, 0, 1735689600001⟩ [1735689600001]
      = some (packID DefaultEpoch 5 12 1735689600001 (0 + 1),
          ⟨DefaultEpoch, 5, 12, 0 + 1, 1735689600001⟩, []) :=
  have hs : Reachable 5 12 DefaultEpoch ⟨DefaultEpoch, 5, 12, 0, 1735689600001⟩ :=
    @Reachable.generate 5 12 DefaultEpoch ⟨DefaultEpoch, 5, 12, 0, 0⟩
      ⟨DefaultEpoch, 5, 12, 0, 1735689600001⟩ [1735689600001] [] 4898816
      (@Reachable.construct 5 12 DefaultEpoch ⟨DefaultEpoch, 5, 12, 0, 0⟩ rfl) rfl
  ⟨(Generate_new_or_same_millisecond 5 12 DefaultEpoch _ hs 1735689600002 []).1
      (by decide),
    (Generate_new_or_same_millisecond 5 12 DefaultEpoch _ hs 1735689600001 []).2 rfl
      (by decide)⟩

/-- C12: when the first reading equals `lastTimestamp` while `sequence = 4095`, the
sequence wraps to 0, `waitNextMillis` reads the clock until a reading `t` above
`lastTimestamp`, and `Generate` returns the identifier packed from `t` and sequence 0,
leaving `lastTimestamp = t` and `sequence = 0`. -/
theorem Generate_sequence_exhausted (p w e : Int) (g : Snowflake)
    (hnew : NewWithEpoch p w e = .ok g) (last : Int) (polled : List Int) (t : Int)
    (rest : Clock) (hpolled : ∀ r ∈ polled, r ≤ last) (ht : last < t) :
    and64 (add64 4095 1) maxSequence = 0 ∧
    waitNextMillis last (polled ++ t :: rest) = some (t, rest) ∧
    Generate { g with sequence := 4095, lastTimestamp := last } (last :: (polled ++ t :: rest))
      = some (packID e p w t 0, { g with sequence := 0, lastTimestamp := t }, rest) ∧
    ExtractSequence g (packID e p w t 0) = 0 := by
  obtain ⟨hp, hw, rfl⟩ := NewWithEpoch_ok p w e g hnew
  have hwrap : and64 (add64 4095 1) maxSequence = 0 := by
    rw [and64_succ_sequence 4095 ⟨by decide, by decide⟩]
    decide
  have hwait := waitNextMillis_stops last polled t rest hpolled ht
  refine ⟨hwrap, hwait, ?_, extractSequence_packID _ e p w t 0 hp hw ⟨by decide, by decide⟩⟩
  simp only [Generate, currentTimestamp, lt_irrefl, if_false, if_true, hwrap, hwait]

/-- Witness of C12: the clock stays at `…001` for two polls and then reads `…002`. -/
theorem Generate_sequence_exhausted_witness :
    and64 (add64 4095 1) maxSequence = 0 ∧
    waitNextMillis 1735689600001 ([1735689600001, 1735689600000] ++ 1735689600002 :: [7])
      = some (1735689600002, [7]) ∧
    Generate ⟨DefaultEpoch, 5, 12, 4095, 1735689600001⟩
        (1735689600001 :: ([1735689600001, 1735689600000] ++ 1735689600002 :: [7]))
      = some (packID DefaultEpoch 5 12 1735689600002 0,
          ⟨DefaultEpoch, 5, 12, 0, 1735689600002⟩, [7]) ∧
    ExtractSequence ⟨DefaultEpoch, 5, 12, 0, 0⟩ (packID DefaultEpoch 5 12 1735689600002 0) = 0 :=
  Generate_sequence_exhausted 5 12 DefaultEpoch ⟨DefaultEpoch, 5, 12, 0, 0⟩ rfl 1735689600001
    [1735689600001, 1735689600000] 1735689600002 [7] (by decide) (by decide)

/-- C13: a generator constructed by `NewWithEpoch p w e` as `g`, after any number of
returning `Generate` and `GenerateBatch` calls under any clocks, still has the epoch,
process slot and worker slot of `g`, both slots in `0..31`, and its sequence in `0..4095`. -/
theorem generator_state_invariant (p w e : Int) (g : Snowflake)
    (hnew : NewWithEpoch p w e = .ok g) (s : Snowflake) (hs : Reachable p w e s) :
    (s.epoch = g.epoch ∧ s.processID = g.processID ∧ s.workerID = g.workerID) ∧
    (Epoch s = e ∧ ProcessID s = p ∧ WorkerID s = w) ∧
    (0 ≤ s.processID ∧ s.processID ≤ 31) ∧ (0 ≤ s.workerID ∧ s.workerID ≤ 31) ∧
    (0 ≤ s.sequence ∧ s.sequence ≤ 4095) := by
  obtain ⟨_, _, rfl⟩ := NewWithEpoch_ok p w e g hnew
  obtain ⟨he, hp, hw, rp, rw, hq⟩ := Reachable_invariant p w e s hs
  refine ⟨⟨he, hp, hw⟩, ⟨he, hp, hw⟩, ?_, ?_, hq⟩
  · rw [hp]; exact rp
  · rw [hw]; exact rw

/-- Witness of C13: the state left by a batch of three identifiers. -/
theorem generator_state_invariant_witness :
    ((⟨DefaultEpoch, 5, 12, 0, 1735689600002⟩ : Snowflake).epoch
        = (⟨DefaultEpoch, 5, 12, 0, 0⟩ : Snowflake).epoch ∧
      (⟨DefaultEpoch, 5, 12, 0, 1735689600002⟩ : Snowflake).processID
        = (⟨DefaultEpoch, 5, 12, 0, 0⟩ : Snowflake).processID ∧
      (⟨DefaultEpoch, 5, 12, 0, 1735689600002⟩ : Snowflake).workerID
        = (⟨DefaultEpoch, 5, 12, 0, 0⟩ : Snowflake).workerID) ∧
    (Epoch ⟨DefaultEpoch, 5, 12, 0, 1735689600002⟩ = DefaultEpoch ∧
      ProcessID ⟨DefaultEpoch, 5, 12, 0, 1735689600002⟩ = 5 ∧
      WorkerID ⟨DefaultEpoch, 5, 12, 0, 1735689600002⟩ = 12) ∧
    (0 ≤ (⟨DefaultEpoch, 5, 12, 0, 1735689600002⟩ : Snowflake).processID ∧
      (⟨DefaultEpoch, 5, 12, 0, 1735689600002⟩ : Snowflake).processID ≤ 31) ∧
    (0 ≤ (⟨DefaultEpoch, 5, 12, 0, 1735689600002⟩ : Snowflake).workerID ∧
      (⟨DefaultEpoch, 5, 12, 0, 1735689600002⟩ : Snowflake).workerID ≤ 31) ∧
    (0 ≤ (⟨DefaultEpoch, 5, 12, 0, 1735689600002⟩ : Snowflake).sequence ∧
      (⟨DefaultEpoch, 5, 12, 0, 1735689600002⟩ : Snowflake).sequence ≤ 4095) :=
  generator_state_invariant 5 12 DefaultEpoch ⟨DefaultEpoch, 5, 12, 0, 0⟩ rfl
    ⟨DefaultEpoch, 5, 12, 0, 1735689600002⟩
    (@Reachable.generateBatch 5 12 DefaultEpoch ⟨DefaultEpoch, 5, 12, 0, 0⟩
      ⟨DefaultEpoch, 5, 12, 0, 1735689600002⟩ 3
      [1735689600001, 1735689600001, 1735689600002] [] [4898816, 4898817, 9093120]
      (@Reachable.construct 5 12 DefaultEpoch ⟨DefaultEpoch, 5, 12, 0, 0⟩ rfl) rfl)

/-- C14, counterexample: `GenerateBatch(1 << 62)` aborts in `make` with a run-time panic,
the 2^65 bytes of the slice being more than the runtime allocates; no identifier is
generated. -/
theorem GenerateBatch_panics_above_allocation_limit :
    GenerateBatch ⟨DefaultEpoch, 5, 12, 0, 0⟩ 4611686018427387904 [1735689600001]
      = .panics makesliceMessage ∧
    (4611686018427387904 : Int) = 2 ^ 62 ∧ (0 : Int) ≤ 4611686018427387904 :=
  ⟨rfl, by decide, by decide⟩

/-- C14, amended: for `count ≥ 0`, when the `8 * count` bytes of the slice are within the
allocation limit `maxAlloc`, `GenerateBatch` returns exactly when `count` sequential
`Generate` calls from the same state and clock all return; it then returns their
identifiers in order, a slice of length `count` that is the trace of those calls, with the
state and the clock they leave.  Above the limit it panics in `make`. -/
theorem GenerateBatch_refines_sequentialGenerate (s : Snowflake) (count : Int) (clock : Clock)
    (hc : 0 ≤ count) :
    (8 * count ≤ maxAlloc →
      (GenerateBatch s count clock
        = match sequentialGenerate count.toNat s clock with
          | none => .blocks
          | some r => .returns r) ∧
      (∀ ids s1 rest, GenerateBatch s count clock = .returns (ids, s1, rest) →
        (ids.length : Int) = count ∧ generateCalls count.toNat s clock = (ids, s1, rest))) ∧
    (maxAlloc < 8 * count → GenerateBatch s count clock = .panics makesliceMessage) := by
  refine ⟨fun halloc => ⟨GenerateBatch_eq s count clock hc halloc, ?_⟩, fun hbig => ?_⟩
  · intro ids s1 rest h
    obtain ⟨_, hS⟩ := GenerateBatch_returns s count clock ids s1 rest h
    obtain ⟨hlen, _⟩ := sequentialGenerate_some _ _ _ _ _ _ hS
    refine ⟨?_, sequentialGenerate_eq_generateCalls _ _ _ _ hS⟩
    rw [hlen]
    omega
  · unfold GenerateBatch
    rw [if_pos (by rw [makesliceLenOutOfRange_iff]; exact Or.inr hbig)]

/-- Witness of the amended C14: a batch of three on a clock that stays one millisecond for
two calls. -/
theorem GenerateBatch_refines_sequentialGenerate_witness :
    GenerateBatch ⟨DefaultEpoch, 5, 12, 0, 0⟩ 3 [1735689600001, 1735689600001, 1735689600002]
      = .returns ([4898816, 4898817, 9093120], ⟨DefaultEpoch, 5, 12, 0, 1735689600002⟩, []) ∧
    ((([4898816, 4898817, 9093120] : List Int).length : Int) = 3 ∧
      generateCalls 3 ⟨DefaultEpoch, 5, 12, 0, 0⟩
          [1735689600001, 1735689600001, 1735689600002]
        = ([4898816, 4898817, 9093120], ⟨DefaultEpoch, 5, 12, 0, 1735689600002⟩, [])) :=
  have h := (GenerateBatch_refines_sequentialGenerate ⟨DefaultEpoch, 5, 12, 0, 0⟩ 3
    [1735689600001, 1735689600001, 1735689600002] (by decide)).1 (by decide)
  ⟨h.1, h.2 _ _ _ h.1⟩

/-- C15, the code at the failing input: `GenerateBatch(-1)` aborts in `make` with a
run-time panic, whatever the state and the clock; `GenerateBatch(0)` returns the empty slice
and leaves the state and the clock untouched. -/
theorem GenerateBatch_negative_count_panics :
    GenerateBatch ⟨DefaultEpoch, 5, 12, 0, 0⟩ (-1) [1735689600001] = .panics makesliceMessage ∧
    GenerateBatch ⟨DefaultEpoch, 5, 12, 0, 0⟩ 0 [1735689600001]
      = .returns ([], ⟨DefaultEpoch, 5, 12, 0, 0⟩, [1735689600001]) :=
  ⟨rfl, rfl⟩

/-- C16: `Generate` has two outcomes only, an identifier or still waiting for the clock, and
it returns an identifier from every state, clock regression and exhausted sequence
included, as soon as the clock, after the two readings `Generate` itself may take, has a
reading above `lastTimestamp`; the loop of `waitNextMillis` stops at the first such
reading. -/
theorem Generate_returns (s : Snowflake) (clock : Clock)
    (h : ∃ t ∈ clock.drop 2, s.lastTimestamp < t) :
    (∃ id s1 rest, Generate s clock = some (id, s1, rest)) ∧
    (∀ (l : Int) (polled : List Int) (t : Int) (rest : Clock),
      (∀ r ∈ polled, r ≤ l) → l < t →
      waitNextMillis l (polled ++ t :: rest) = some (t, rest)) := by
  refine ⟨?_, fun l polled t rest hp ht => waitNextMillis_stops l polled t rest hp ht⟩
  obtain ⟨t, hmem, hlt⟩ := h
  cases clock with
  | nil => simp at hmem
  | cons now c1 =>
    cases c1 with
    | nil => simp at hmem
    | cons b c2 =>
      simp only [List.drop_succ_cons, List.drop_zero] at hmem
      have hw2 := waitNextMillis_returns s.lastTimestamp c2 ⟨t, hmem, hlt⟩
      have hw1 := waitNextMillis_returns s.lastTimestamp (b :: c2)
        ⟨t, List.mem_cons_of_mem _ hmem, hlt⟩
      obtain ⟨t2, r2, e2⟩ := hw2
      obtain ⟨t1, r1, e1⟩ := hw1
      unfold Generate
      simp only [currentTimestamp]
      by_cases hreg : now < s.lastTimestamp
      · simp only [hreg, if_true]
        by_cases heq : b = s.lastTimestamp
        · by_cases hz : and64 (add64 s.sequence 1) maxSequence = 0
          · simp only [heq, hz, if_true, e2]
            exact ⟨_, _, _, rfl⟩
          · simp only [heq, hz, if_true, if_false]
            exact ⟨_, _, _, rfl⟩
        · simp only [heq, if_false]
          exact ⟨_, _, _, rfl⟩
      · simp only [hreg, if_false]
        by_cases heq : now = s.lastTimestamp
        · by_cases hz : and64 (add64 s.sequence 1) maxSequence = 0
          · simp only [heq, hz, if_true, e1]
            exact ⟨_, _, _, rfl⟩
          · simp only [heq, hz, if_true, if_false]
            exact ⟨_, _, _, rfl⟩
        · simp only [heq, if_false]
          exact ⟨_, _, _, rfl⟩

/-- Witness of C16: the clock has regressed, the re-read equals `lastTimestamp`, the
sequence is exhausted, and the third reading is above `lastTimestamp`. -/
theorem Generate_returns_witness :
    (∃ id s1 rest, Generate ⟨DefaultEpoch, 5, 12, 4095, 1735689600001⟩
        [1735689600000, 1735689600001, 1735689600002] = some (id, s1, rest)) ∧
    (∀ (l : Int) (polled : List Int) (t : Int) (rest : Clock),
      (∀ r ∈ polled, r ≤ l) → l < t →
      waitNextMillis l (polled ++ t :: rest) = some (t, rest)) :=
  Generate_returns ⟨DefaultEpoch, 5, 12, 4095, 1735689600001⟩
    [1735689600000, 1735689600001, 1735689600002] ⟨1735689600002, by decide, by decide⟩

/-! ## The package-level default generator -/

/-- In-range slots make `NewWithEpoch` return the initial state. -/
theorem NewWithEpoch_eq_ok (p w e : Int) (hp : 0 ≤ p ∧ p ≤ 31) (hw : 0 ≤ w ∧ w ≤ 31) :
    NewWithEpoch p w e
      = .ok { epoch := e, processID := p, workerID := w, sequence := 0, lastTimestamp := 0 } := by
  unfold NewWithEpoch
  rw [maxProcessID_eq, maxWorkerID_eq, if_neg (by omega), if_neg (by omega)]

/-- C17: with a well-formed package state, `GenerateSnowflake` panics exactly when no
generator is installed, which is the case at program start and after
`SetDefaultGenerator(nil)`; `GenerateSnowflakeBatch` then panics for every count; with a
generator installed both do what `Generate` and `GenerateBatch` do on that generator. -/
theorem GenerateSnowflake_panics_iff_none_installed (st : PackageState) (clock : Clock)
    (hwf : st.wellFormed) :
    ((∃ message, GenerateSnowflake st clock = .panics message)
      ↔ GetDefaultGenerator st = none) ∧
    (GetDefaultGenerator st = none →
      GenerateSnowflake st clock = .panics notInitializedMessage ∧
      ∀ count, GenerateSnowflakeBatch st count clock = .panics notInitializedMessage) ∧
    GenerateSnowflake PackageState.start clock = .panics notInitializedMessage ∧
    GenerateSnowflake (SetDefaultGenerator none st) clock = .panics notInitializedMessage ∧
    (∀ a gen, GetDefaultGenerator st = some a → st.heap[a]? = some gen →
      (GenerateSnowflake st clock
        = match Generate gen clock with
          | none => .blocks
          | some (id, gen1, rest) =>
            .returns (id, { st with heap := st.heap.set a gen1 }, rest)) ∧
      ∀ count, GenerateSnowflakeBatch st count clock
        = match GenerateBatch gen count clock with
          | .returns (ids, gen1, rest) =>
            .returns (ids, { st with heap := st.heap.set a gen1 }, rest)
          | .panics message => .panics message
          | .blocks => .blocks) := by
  unfold GetDefaultGenerator
  refine ⟨?_, ?_, rfl, rfl, ?_⟩
  · constructor
    · rintro ⟨message, h⟩
      cases hd : st.defaultGenerator with
      | none => rfl
      | some a =>
        have hlt := hwf a hd
        have hget : st.heap[a]? = some st.heap[a] := List.getElem?_eq_getElem hlt
        unfold GenerateSnowflake at h
        simp only [hd, hget] at h
        cases hG : Generate st.heap[a] clock with
        | none => simp only [hG] at h; cases h
        | some r => simp only [hG] at h; cases h
    · intro hd
      exact ⟨notInitializedMessage, by unfold GenerateSnowflake; simp only [hd]⟩
  · intro hd
    refine ⟨by unfold GenerateSnowflake; simp only [hd], fun count => ?_⟩
    unfold GenerateSnowflakeBatch
    simp only [hd]
  · intro a gen hd hget
    refine ⟨by unfold GenerateSnowflake; simp only [hd, hget], fun count => ?_⟩
    unfold GenerateSnowflakeBatch
    simp only [hd, hget]

/-- Witness of C17: the state after `SetDefaultMachineID(3, 7)` at program start. -/
theorem GenerateSnowflake_panics_iff_none_installed_witness :
    GenerateSnowflake ⟨[⟨DefaultEpoch, 3, 7, 0, 0⟩], some 0⟩ [1735689600001]
      = .returns (4616192, ⟨[⟨DefaultEpoch, 3, 7, 0, 1735689600001⟩], some 0⟩, []) ∧
    GenerateSnowflakeBatch ⟨[⟨DefaultEpoch, 3, 7, 0, 0⟩], some 0⟩ (-1) [1735689600001]
      = .panics makesliceMessage :=
  have h := (GenerateSnowflake_panics_iff_none_installed
    ⟨[⟨DefaultEpoch, 3, 7, 0, 0⟩], some 0⟩ [1735689600001]
    (fun a ha => by cases ha; decide)).2.2.2.2 0 ⟨DefaultEpoch, 3, 7, 0, 0⟩ rfl rfl
  ⟨h.1, h.2 (-1)⟩

/-- C18: `SetDefaultMachineID(p, w)` returns nil exactly when `p` and `w` both lie in
`0..31` and otherwise the error of `New(p, w)`; on success `defaultGenerator` points to a
generator allocated by that call, at an address no earlier generator has, whatever was
installed before, and that generator has slots `p` and `w`, the default epoch,
`sequence = 0` and `lastTimestamp = 0`; generators allocated earlier are untouched. -/
theorem SetDefaultMachineID_installs_fresh_generator (p w : Int) (st : PackageState) :
    ((SetDefaultMachineID p w st).1 = none ↔ ((0 ≤ p ∧ p ≤ 31) ∧ (0 ≤ w ∧ w ≤ 31))) ∧
    (∀ err, (SetDefaultMachineID p w st).1 = some err ↔ New p w = .error err) ∧
    ((SetDefaultMachineID p w st).1 = none →
      ∃ a gen, GetDefaultGenerator (SetDefaultMachineID p w st).2 = some a ∧
        (SetDefaultMachineID p w st).2.heap[a]? = some gen ∧
        st.heap.length ≤ a ∧
        (st.wellFormed →
          GetDefaultGenerator (SetDefaultMachineID p w st).2 ≠ GetDefaultGenerator st) ∧
        (∀ b, b < st.heap.length → (SetDefaultMachineID p w st).2.heap[b]? = st.heap[b]?) ∧
        ProcessID gen = p ∧ WorkerID gen = w ∧ Epoch gen = DefaultEpoch ∧
        gen.sequence = 0 ∧ gen.lastTimestamp = 0) := by
  by_cases hr : (0 ≤ p ∧ p ≤ 31) ∧ (0 ≤ w ∧ w ≤ 31)
  · have hN := NewWithEpoch_eq_ok p w DefaultEpoch hr.1 hr.2
    have hS : SetDefaultMachineID p w st
        = (none, { heap := st.heap ++ [⟨DefaultEpoch, p, w, 0, 0⟩],
                   defaultGenerator := some st.heap.length }) := by
      unfold SetDefaultMachineID NewSnowflake New
      rw [hN]
    rw [hS]
    refine ⟨⟨fun _ => hr, fun _ => rfl⟩, ?_, fun _ => ?_⟩
    · intro err
      unfold New
      rw [hN]
      constructor
      · intro h; cases h
      · intro h; cases h
    · refine ⟨st.heap.length, ⟨DefaultEpoch, p, w, 0, 0⟩, rfl,
        List.getElem?_concat_length _ _, Nat.le_refl _, ?_, ?_, rfl, rfl, rfl, rfl, rfl⟩
      · intro hwf heq
        unfold GetDefaultGenerator at heq
        have := hwf st.heap.length heq.symm
        omega
      · intro b hb
        exact List.getElem?_append_left hb
  · have hE : ∃ err, NewWithEpoch p w DefaultEpoch = .error err := by
      cases hN : NewWithEpoch p w DefaultEpoch with
      | error err => exact ⟨err, rfl⟩
      | ok g =>
        obtain ⟨hp, hw, _⟩ := NewWithEpoch_ok p w DefaultEpoch g hN
        exact absurd ⟨hp, hw⟩ hr
    obtain ⟨err0, hN⟩ := hE
    have hS : SetDefaultMachineID p w st = (some err0, st) := by
      unfold SetDefaultMachineID NewSnowflake New
      rw [hN]
    rw [hS]
    refine ⟨⟨fun h => (by cases h), fun h => absurd h hr⟩, ?_, fun h => (by cases h)⟩
    intro err
    unfold New
    rw [hN]
    constructor
    · intro h
      simp only [Option.some.injEq] at h
      rw [h]
    · intro h
      simp only [Except.error.injEq] at h
      rw [h]

/-- Witness of C18: `SetDefaultMachineID(3, 7)` while a generator is installed. -/
theorem SetDefaultMachineID_installs_fresh_generator_witness :
    ∃ a gen,
      GetDefaultGenerator (SetDefaultMachineID 3 7 ⟨[⟨DefaultEpoch, 5, 12, 0, 0⟩], some 0⟩).2
        = some a ∧
      (SetDefaultMachineID 3 7 ⟨[⟨DefaultEpoch, 5, 12, 0, 0⟩], some 0⟩).2.heap[a]? = some gen ∧
      1 ≤ a ∧ ProcessID gen = 3 ∧ WorkerID gen = 7 ∧ Epoch gen = DefaultEpoch ∧
      gen.sequence = 0 ∧ gen.lastTimestamp = 0 :=
  have h := (SetDefaultMachineID_installs_fresh_generator 3 7
    ⟨[⟨DefaultEpoch, 5, 12, 0, 0⟩], some 0⟩).2.2 rfl
  match h with
  | ⟨a, gen, h1, h2, h3, _, _, h6⟩ => ⟨a, gen, h1, h2, h3, h6⟩

/-- C19: `GetDefaultGenerator` returns the pointer last installed: the argument of the last
`SetDefaultGenerator` (nil included), the generators themselves untouched by the install;
nil at program start; a later install overrides an earlier one, whichever of
`SetDefaultGenerator` and `SetDefaultMachineID` made it; returning generation calls leave
the installed pointer as it is. -/
theorem GetDefaultGenerator_after_install (g : Option Nat) (st : PackageState) :
    (GetDefaultGenerator (SetDefaultGenerator g st) = g ∧
      (SetDefaultGenerator g st).heap = st.heap) ∧
    GetDefaultGenerator PackageState.start = none ∧
    (∀ g1, GetDefaultGenerator (SetDefaultGenerator g (SetDefaultGenerator g1 st)) = g) ∧
    (∀ p w, GetDefaultGenerator (SetDefaultGenerator g (SetDefaultMachineID p w st).2) = g) ∧
    (∀ p w, (SetDefaultMachineID p w (SetDefaultGenerator g st)).1 = none →
      GetDefaultGenerator (SetDefaultMachineID p w (SetDefaultGenerator g st)).2
        = some st.heap.length) ∧
    (∀ clock id st1 rest,
      GenerateSnowflake (SetDefaultGenerator g st) clock = .returns (id, st1, rest) →
      GetDefaultGenerator st1 = g) ∧
    (∀ count clock ids st1 rest,
      GenerateSnowflakeBatch (SetDefaultGenerator g st) count clock
        = .returns (ids, st1, rest) →
      GetDefaultGenerator st1 = g) := by
  refine ⟨⟨rfl, rfl⟩, rfl, fun _ => rfl, fun _ _ => rfl, ?_, ?_, ?_⟩
  · intro p w h
    unfold SetDefaultMachineID at h ⊢
    cases hN : NewSnowflake p w with
    | error err => rw [hN] at h; cases h
    | ok gen => rfl
  · intro clock id st1 rest h
    unfold GenerateSnowflake at h
    cases g with
    | none => cases h
    | some a =>
      simp only [SetDefaultGenerator] at h
      cases hget : st.heap[a]? with
      | none => simp only [hget] at h; cases h
      | some gen =>
        simp only [hget] at h
        cases hG : Generate gen clock with
        | none => simp only [hG] at h; cases h
        | some r =>
          simp only [hG, Outcome.returns.injEq, Prod.mk.injEq] at h
          rw [← h.2.1]
          rfl
  · intro count clock ids st1 rest h
    unfold GenerateSnowflakeBatch at h
    cases g with
    | none => cases h
    | some a =>
      simp only [SetDefaultGenerator] at h
      cases hget : st.heap[a]? with
      | none => simp only [hget] at h; cases h
      | some gen =>
        simp only [hget] at h
        cases hB : GenerateBatch gen count clock with
        | panics message => simp only [hB] at h; cases h
        | blocks => simp only [hB] at h; cases h
        | returns r =>
          simp only [hB, Outcome.returns.injEq, Prod.mk.injEq] at h
          rw [← h.2.1]
          rfl

/-- Witness of C19: a generator is installed over nil and one identifier is generated. -/
theorem GetDefaultGenerator_after_install_witness :
    GetDefaultGenerator (SetDefaultGenerator (some 0) ⟨[⟨DefaultEpoch, 15, 20, 0, 0⟩], none⟩)
      = some 0 ∧
    GetDefaultGenerator PackageState.start = none ∧
    GetDefaultGenerator ⟨[⟨DefaultEpoch, 15, 20, 0, 1735689600001⟩], some 0⟩ = some 0 :=
  have h := GetDefaultGenerator_after_install (some 0)
    ⟨[⟨DefaultEpoch, 15, 20, 0, 0⟩], none⟩
  ⟨h.1.1, h.2.1,
    h.2.2.2.2.2.1 [1735689600001] 6242304
      ⟨[⟨DefaultEpoch, 15, 20, 0, 1735689600001⟩], some 0⟩ [] rfl⟩

/-! ## Constructors, masks and epochs -/

/-- C21: `New p w` is `NewWithEpoch p w DefaultEpoch` with `DefaultEpoch = 1735689600000`,
so it returns the same error or the same initial state; the deprecated `NewSnowflake` and
`NewSnowflakeWithEpoch` return what `New` and `NewWithEpoch` return. -/
theorem New_and_deprecated_constructors (p w e : Int) :
    New p w = NewWithEpoch p w DefaultEpoch ∧ DefaultEpoch = 1735689600000 ∧
    New p w = NewWithEpoch p w 1735689600000 ∧
    NewSnowflake p w = New p w ∧
    NewSnowflakeWithEpoch p w e = NewWithEpoch p w e := by
  refine ⟨?_, ?_, ?_, ?_, ?_⟩
  · unfold New; rfl
  · unfold DefaultEpoch; rfl
  · unfold New DefaultEpoch; rfl
  · unfold NewSnowflake; rfl
  · unfold NewSnowflakeWithEpoch; rfl

/-- C22: for every integer `id`, negative ones included, the decoded process slot and
worker slot lie in `0..31` and the decoded sequence in `0..4095`; the masks
`-1 ^ (-1 << 5)` and `-1 ^ (-1 << 12)` are 31 and 4095. -/
theorem Extract_fields_in_range (g : Snowflake) (id : Int) :
    (0 ≤ ExtractProcessID g id ∧ ExtractProcessID g id ≤ 31) ∧
    (0 ≤ ExtractWorkerID g id ∧ ExtractWorkerID g id ≤ 31) ∧
    (0 ≤ ExtractSequence g id ∧ ExtractSequence g id ≤ 4095) ∧
    (maxProcessID = Int.xor (-1) ((-1 : Int) <<< (5 : Int)) ∧ maxProcessID = 31) ∧
    (maxWorkerID = Int.xor (-1) ((-1 : Int) <<< (5 : Int)) ∧ maxWorkerID = 31) ∧
    (maxSequence = Int.xor (-1) ((-1 : Int) <<< (12 : Int)) ∧ maxSequence = 4095) := by
  refine ⟨?_, ?_, ?_, ⟨rfl, maxProcessID_eq⟩, ⟨rfl, maxWorkerID_eq⟩, ⟨rfl, maxSequence_eq⟩⟩
  · unfold ExtractProcessID
    rw [maxProcessID_eq, and64_mask31]
    omega
  · unfold ExtractWorkerID
    rw [maxWorkerID_eq, and64_mask31]
    omega
  · unfold ExtractSequence
    rw [and64_maxSequence]
    omega

/-- Reduction to `int64` forgets multiples of `2^64` only. -/
theorem emod_eq_of_wrap64_eq (a b : Int) (h : wrap64 a = wrap64 b) :
    a % 2 ^ 64 = b % 2 ^ 64 := by
  have h1 := congrArg toU64 h
  rw [toU64_wrap64, toU64_wrap64] at h1
  unfold toU64 at h1
  omega

/-- Subtraction of reduced values is the reduced subtraction. -/
theorem sub64_wrap64 (a b : Int) : sub64 (wrap64 a) (wrap64 b) = wrap64 (a - b) := by
  have ha : toU64 (wrap64 a) = toU64 a := toU64_wrap64 a
  have hb : toU64 (wrap64 b) = toU64 b := toU64_wrap64 b
  have hr1 := toI64_range (toU64 a)
  have hr2 := toI64_range (toU64 b)
  have hu : toU64 (wrap64 a - wrap64 b) = toU64 (a - b) := by
    unfold toU64 at ha hb ⊢
    unfold wrap64 at ha hb ⊢
    generalize toI64 (toU64 a) = x at ha hr1 ⊢
    generalize toI64 (toU64 b) = y at hb hr2 ⊢
    omega
  unfold sub64
  unfold wrap64 at hu ⊢
  rw [hu]

/-- C23: for every `id` and two generators with `int64` epochs, the timestamps they decode
differ by the difference of the epochs in 64-bit arithmetic, so they differ exactly when
the epochs differ; the decoded process slot, worker slot and sequence do not depend on the
generator. -/
theorem ExtractTimestamp_depends_on_epoch (g1 g2 : Snowflake) (id : Int)
    (h1 : isInt64 g1.epoch) (h2 : isInt64 g2.epoch) :
    sub64 (ExtractTimestamp g2 id) (ExtractTimestamp g1 id) = sub64 g2.epoch g1.epoch ∧
    (ExtractTimestamp g1 id ≠ ExtractTimestamp g2 id ↔ g1.epoch ≠ g2.epoch) ∧
    ExtractProcessID g1 id = ExtractProcessID g2 id ∧
    ExtractWorkerID g1 id = ExtractWorkerID g2 id ∧
    ExtractSequence g1 id = ExtractSequence g2 id := by
  refine ⟨?_, ?_, rfl, rfl, rfl⟩
  · unfold ExtractTimestamp add64
    rw [sub64_wrap64]
    unfold sub64
    congr 1
    ring
  · unfold ExtractTimestamp add64
    generalize shr64 id timestampShift = x
    constructor
    · intro hne heq
      exact hne (by rw [heq])
    · intro hne heq
      apply hne
      have hm := emod_eq_of_wrap64_eq _ _ heq
      unfold isInt64 at h1 h2
      omega

/-- Witness of C23: the default epoch against the Unix epoch. -/
theorem ExtractTimestamp_depends_on_epoch_witness :
    sub64 (ExtractTimestamp ⟨0, 5, 12, 0, 0⟩ 4898816)
        (ExtractTimestamp ⟨DefaultEpoch, 5, 12, 0, 0⟩ 4898816)
      = sub64 (0 : Int) DefaultEpoch ∧
    (ExtractTimestamp ⟨DefaultEpoch, 5, 12, 0, 0⟩ 4898816
        ≠ ExtractTimestamp ⟨0, 5, 12, 0, 0⟩ 4898816 ↔ DefaultEpoch ≠ (0 : Int)) ∧
    ExtractProcessID ⟨DefaultEpoch, 5, 12, 0, 0⟩ 4898816
      = ExtractProcessID ⟨0, 5, 12, 0, 0⟩ 4898816 ∧
    ExtractWorkerID ⟨DefaultEpoch, 5, 12, 0, 0⟩ 4898816
      = ExtractWorkerID ⟨0, 5, 12, 0, 0⟩ 4898816 ∧
    ExtractSequence ⟨DefaultEpoch, 5, 12, 0, 0⟩ 4898816
      = ExtractSequence ⟨0, 5, 12, 0, 0⟩ 4898816 :=
  ExtractTimestamp_depends_on_epoch ⟨DefaultEpoch, 5, 12, 0, 0⟩ ⟨0, 5, 12, 0, 0⟩ 4898816
    (by decide) (by decide)

/-! ## `ExtractTime` -/

/-- Truncated division by 1000 in terms of the rounding-down division. -/
theorem tdiv_1000 (t : Int) :
    Int.tdiv t 1000 = if 0 ≤ t then t / 1000 else -((-t) / 1000) := by
  split
  · exact Int.tdiv_eq_ediv (by assumption) (by decide)
  · have h := Int.neg_tdiv (-t) 1000
    rw [Int.neg_neg] at h
    rw [h, Int.tdiv_eq_ediv (by omega) (by decide)]

/-- The remainder of the truncated division by 1000. -/
theorem tmod_1000 (t : Int) : Int.tmod t 1000 = t - 1000 * Int.tdiv t 1000 := by
  have h := Int.tmod_add_tdiv t 1000
  omega

/-- C24: with `t = ExtractTimestamp id`, `ExtractTime id` passes to `time.Unix` the seconds
`t / 1000` and the nanoseconds `(t % 1000) * 1000000` of the truncating division, computed
without overflow, and the instant they denote is `t` milliseconds after the Unix epoch, for
negative `t` too. -/
theorem ExtractTime_is_timestamp_milliseconds (s : Snowflake) (id : Int) :
    quo64 (ExtractTimestamp s id) 1000 = Int.tdiv (ExtractTimestamp s id) 1000 ∧
    mul64 (rem64 (ExtractTimestamp s id) 1000) 1000000
      = Int.tmod (ExtractTimestamp s id) 1000 * 1000000 ∧
    Int.tdiv (ExtractTimestamp s id) 1000 * 10 ^ 9
        + Int.tmod (ExtractTimestamp s id) 1000 * 10 ^ 6
      = ExtractTimestamp s id * 10 ^ 6 ∧
    ExtractTime s id = ExtractTimestamp s id * 1000000 := by
  have hr : isInt64 (ExtractTimestamp s id) := by
    unfold ExtractTimestamp add64 wrap64
    exact toI64_range _
  unfold ExtractTime timeUnix
  simp only
  generalize ExtractTimestamp s id = t at hr ⊢
  have hq := tdiv_1000 t
  have hm := tmod_1000 t
  unfold isInt64 at hr
  have hqr : isInt64 (Int.tdiv t 1000) := by
    unfold isInt64
    rw [hq]
    split <;> omega
  have hmr : -1000 < Int.tmod t 1000 ∧ Int.tmod t 1000 < 1000 := by
    rw [hm, hq]
    split <;> omega
  have e1 : quo64 t 1000 = Int.tdiv t 1000 := by
    unfold quo64
    exact wrap64_of_isInt64 _ hqr
  have e2 : rem64 t 1000 = Int.tmod t 1000 := by
    unfold rem64
    exact wrap64_of_isInt64 _ (by unfold isInt64; omega)
  have e3 : mul64 (rem64 t 1000) 1000000 = Int.tmod t 1000 * 1000000 := by
    rw [e2]
    unfold mul64
    exact wrap64_of_isInt64 _ (by unfold isInt64; omega)
  refine ⟨e1, e3, ?_, ?_⟩
  · rw [hm]; ring
  · rw [e1, e3, hm]; ring

/-! ## Generators not yet implemented -/

/-- C25: every generator not yet implemented returns the empty string with its own error,
every batch variant returns a nil slice with the same error for every count, and the
seven errors are pairwise distinct, with pairwise distinct texts, and distinct from
`ErrNotImplemented`. -/
theorem not_implemented_errors (count : Int) (alphabet : String) (size : Int) :
    (GenerateCUID = ("", some .ErrCUIDNotImplemented) ∧
      GenerateKSUID = ("", some .ErrKSUIDNotImplemented) ∧
      GenerateNanoID = ("", some .ErrNanoIDNotImplemented) ∧
      GenerateNanoIDCustom alphabet size = ("", some .ErrNanoIDNotImplemented) ∧
      GenerateShortID = ("", some .ErrShortIDNotImplemented) ∧
      GenerateULID = ("", some .ErrULIDNotImplemented) ∧
      GenerateXID = ("", some .ErrXIDNotImplemented) ∧
      GenerateSonyflake = ("", some .ErrSonyflakeNotImplemented)) ∧
    (GenerateCUIDBatch count = (none, some .ErrCUIDNotImplemented) ∧
      GenerateKSUIDBatch count = (none, some .ErrKSUIDNotImplemented) ∧
      GenerateNanoIDBatch count = (none, some .ErrNanoIDNotImplemented) ∧
      GenerateShortIDBatch count = (none, some .ErrShortIDNotImplemented) ∧
      GenerateULIDBatch count = (none, some .ErrULIDNotImplemented) ∧
      GenerateXIDBatch count = (none, some .ErrXIDNotImplemented) ∧
      GenerateSonyflakeBatch count = (none, some .ErrSonyflakeNotImplemented)) ∧
    ([NotImplementedError.ErrNotImplemented, .ErrCUIDNotImplemented, .ErrKSUIDNotImplemented,
      .ErrNanoIDNotImplemented, .ErrShortIDNotImplemented, .ErrULIDNotImplemented,
      .ErrXIDNotImplemented, .ErrSonyflakeNotImplemented].Nodup) ∧
    ([NotImplementedError.ErrNotImplemented, .ErrCUIDNotImplemented, .ErrKSUIDNotImplemented,
      .ErrNanoIDNotImplemented, .ErrShortIDNotImplemented, .ErrULIDNotImplemented,
      .ErrXIDNotImplemented, .ErrSonyflakeNotImplemented].map
        NotImplementedError.message).Nodup := by
  refine ⟨⟨rfl, rfl, rfl, rfl, rfl, rfl, rfl, rfl⟩, ⟨?_, ?_, ?_, ?_, ?_, ?_, ?_⟩, by decide,
    by decide⟩
  · unfold GenerateCUIDBatch; split <;> rfl
  · unfold GenerateKSUIDBatch; split <;> rfl
  · unfold GenerateNanoIDBatch; split <;> rfl
  · unfold GenerateShortIDBatch; split <;> rfl
  · unfold GenerateULIDBatch; split <;> rfl
  · unfold GenerateXIDBatch; split <;> rfl
  · unfold GenerateSonyflakeBatch; split <;> rfl

/-! ## UUID strings -/

/-- A UUID is a list of exactly sixteen entries. -/
theorem exists_bytes_of_isUUID (u : UUID) (h : isUUID u) :
    ∃ b0 b1 b2 b3 b4 b5 b6 b7 b8 b9 b10 b11 b12 b13 b14 b15 : Nat,
      u = [b0, b1, b2, b3, b4, b5, b6, b7, b8, b9, b10, b11, b12, b13, b14, b15] := by
  obtain ⟨hlen, _⟩ := h
  rcases u with _ | ⟨b0, _ | ⟨b1, _ | ⟨b2, _ | ⟨b3, _ | ⟨b4, _ | ⟨b5, _ | ⟨b6, _ | ⟨b7, _ | ⟨b8, _ | ⟨b9, _ | ⟨b10, _ | ⟨b11, _ | ⟨b12, _ | ⟨b13, _ | ⟨b14, _ | ⟨b15, _ | ⟨b16, t⟩⟩⟩⟩⟩⟩⟩⟩⟩⟩⟩⟩⟩⟩⟩⟩⟩
  all_goals first
    | (simp only [List.length_cons, List.length_nil] at hlen; omega)
    | exact ⟨_, _, _, _, _, _, _, _, _, _, _, _, _, _, _, _, rfl⟩

/-- The high four bits of a byte. -/
theorem shiftRight_four (b : Nat) : b >>> 4 = b / 16 := by
  rw [Nat.shiftRight_eq_div_pow]

/-- The low four bits of a byte. -/
theorem and_fifteen (b : Nat) : b &&& 0x0f = b % 16 :=
  Nat.and_pow_two_sub_one_eq_mod b 4

/-- Every table entry is a lowercase hexadecimal digit. -/
theorem hexDigit_mem (n : Nat) (h : n < 16) : hexDigit n ∈ hextable := by
  interval_cases n <;> decide

/-- No hexadecimal digit is the hyphen. -/
theorem hexDigit_ne_hyphen (n : Nat) : (hexDigit n != '-') = true := by
  by_cases h : n < 16
  · interval_cases n <;> decide
  · have hd : hexDigit n = '0' := by
      unfold hexDigit
      exact List.getD_eq_default _ _ (by
        have : hextable.length = 16 := by decide
        omega)
    rw [hd]
    decide

/-- Distinct table indices give distinct digits. -/
theorem hexDigit_injective (m n : Nat) (hm : m < 16) (hn : n < 16)
    (h : hexDigit m = hexDigit n) : m = n := by
  have key : ∀ k, k < 16 → hextable.indexOf (hexDigit k) = k := by
    intro k hk
    interval_cases k <;> decide
  rw [← key m hm, ← key n hn, h]

/-- A byte is determined by its two hexadecimal digits. -/
theorem byte_eq_of_digits (a b : Nat) (ha : a < 256) (hb : b < 256)
    (h1 : hexDigit (a >>> 4) = hexDigit (b >>> 4))
    (h2 : hexDigit (a &&& 0x0f) = hexDigit (b &&& 0x0f)) : a = b := by
  rw [shiftRight_four, shiftRight_four] at h1
  rw [and_fifteen, and_fifteen] at h2
  have e1 := hexDigit_injective _ _ (by omega) (by omega) h1
  have e2 := hexDigit_injective _ _ (by omega) (by omega) h2
  omega

/-- Byte lists with the same hexadecimal encoding are equal. -/
theorem hexEncode_injective (l1 : List Nat) : ∀ (l2 : List Nat),
    (∀ b ∈ l1, b < 256) → (∀ b ∈ l2, b < 256) → hexEncode l1 = hexEncode l2 → l1 = l2 := by
  induction l1 with
  | nil =>
    intro l2 _ _ h
    cases l2 with
    | nil => rfl
    | cons b t => simp [hexEncode] at h
  | cons a t ih =>
    intro l2 h1 h2 h
    cases l2 with
    | nil => simp [hexEncode] at h
    | cons b t2 =>
      simp only [hexEncode, List.cons.injEq] at h
      obtain ⟨e1, e2, e3⟩ := h
      have hab := byte_eq_of_digits a b (h1 a (List.mem_cons_self _ _))
        (h2 b (List.mem_cons_self _ _)) e1 e2
      have ht := ih t2 (fun x hx => h1 x (List.mem_cons_of_mem _ hx))
        (fun x hx => h2 x (List.mem_cons_of_mem _ hx)) e3
      rw [hab, ht]

/-- Every character of a hexadecimal encoding is a hexadecimal digit. -/
theorem mem_hextable_of_mem_hexEncode (l : List Nat) (hl : ∀ b ∈ l, b < 256) :
    ∀ c ∈ hexEncode l, c ∈ hextable := by
  induction l with
  | nil => intro c hc; simp [hexEncode] at hc
  | cons a t ih =>
    intro c hc
    have ha := hl a (List.mem_cons_self _ _)
    simp only [hexEncode, List.mem_cons] at hc
    rcases hc with rfl | rfl | hc
    · exact hexDigit_mem _ (by rw [shiftRight_four]; omega)
    · exact hexDigit_mem _ (by rw [and_fifteen]; omega)
    · exact ih (fun x hx => hl x (List.mem_cons_of_mem _ hx)) c hc

/-- Removing the hyphens from a hexadecimal encoding changes nothing. -/
theorem filter_hexEncode (l : List Nat) :
    (hexEncode l).filter (fun c => c != '-') = hexEncode l := by
  induction l with
  | nil => rfl
  | cons a t ih =>
    simp only [hexEncode, List.filter_cons, hexDigit_ne_hyphen, if_true, ih]

/-- The string of a UUID without its hyphens is the hexadecimal encoding of its bytes. -/
theorem UUID_String_filter (u : UUID) (h : isUUID u) :
    (UUID_String u).data.filter (fun c => c != '-') = hexEncode u := by
  obtain ⟨b0, b1, b2, b3, b4, b5, b6, b7, b8, b9, b10, b11, b12, b13, b14, b15, rfl⟩ := exists_bytes_of_isUUID u h
  have hd : (('-' : Char) != '-') = false := by decide
  simp only [UUID_String, sliceBytes, List.drop, List.take, hexEncode, List.cons_append,
    List.nil_append, List.filter_cons, hexDigit_ne_hyphen, hd, if_true, Bool.false_eq_true,
    if_false, List.filter_nil]

/-- The characters of the string of a UUID at indices 14 and 19 are the high digits of
bytes 6 and 8. -/
theorem UUID_String_version_variant (u : UUID) (h : isUUID u) :
    (UUID_String u).data[14]? = some (hexDigit (u.getD 6 0 >>> 4)) ∧
    (UUID_String u).data[19]? = some (hexDigit (u.getD 8 0 >>> 4)) := by
  obtain ⟨b0, b1, b2, b3, b4, b5, b6, b7, b8, b9, b10, b11, b12, b13, b14, b15, rfl⟩ := exists_bytes_of_isUUID u h
  exact ⟨rfl, rfl⟩

/-- C26: for every sixteen-byte UUID `u`, `UUID_String u` has length 36, has a hyphen at
indices 8, 13, 18 and 23 and a lowercase hexadecimal digit at every other index; without
the hyphens it is the hexadecimal encoding of `u`, two digits per byte in order, the high
digit first; and two UUIDs with the same string are equal. -/
theorem UUID_String_format (u : UUID) (h : isUUID u) :
    (UUID_String u).length = 36 ∧
    (∀ i ∈ [8, 13, 18, 23], (UUID_String u).data[i]? = some '-') ∧
    (∀ i, i < 36 → i ∉ [8, 13, 18, 23] →
      ∃ c, (UUID_String u).data[i]? = some c ∧ c ∈ hextable) ∧
    (UUID_String u).data.filter (fun c => c != '-') = hexEncode u ∧
    (∀ k, k < 16 →
      (hexEncode u)[2 * k]? = some (hexDigit (u.getD k 0 / 16)) ∧
      (hexEncode u)[2 * k + 1]? = some (hexDigit (u.getD k 0 % 16))) ∧
    (∀ v, isUUID v → UUID_String u = UUID_String v → u = v) := by
  have hfilter := UUID_String_filter u h
  refine ⟨?_, ?_, ?_, hfilter, ?_, ?_⟩
  · obtain ⟨b0, b1, b2, b3, b4, b5, b6, b7, b8, b9, b10, b11, b12, b13, b14, b15, rfl⟩ := exists_bytes_of_isUUID u h
    rfl
  · obtain ⟨b0, b1, b2, b3, b4, b5, b6, b7, b8, b9, b10, b11, b12, b13, b14, b15, rfl⟩ := exists_bytes_of_isUUID u h
    intro i hi
    simp only [List.mem_cons, List.mem_singleton, List.not_mem_nil, or_false] at hi
    rcases hi with rfl | rfl | rfl | rfl <;> rfl
  · obtain ⟨b0, b1, b2, b3, b4, b5, b6, b7, b8, b9, b10, b11, b12, b13, b14, b15, rfl⟩ := exists_bytes_of_isUUID u h
    have h0 : b0 < 256 := h.2 b0 (by simp)
    have h1 : b1 < 256 := h.2 b1 (by simp)
    have h2 : b2 < 256 := h.2 b2 (by simp)
    have h3 : b3 < 256 := h.2 b3 (by simp)
    have h4 : b4 < 256 := h.2 b4 (by simp)
    have h5 : b5 < 256 := h.2 b5 (by simp)
    have h6 : b6 < 256 := h.2 b6 (by simp)
    have h7 : b7 < 256 := h.2 b7 (by simp)
    have h8 : b8 < 256 := h.2 b8 (by simp)
    have h9 : b9 < 256 := h.2 b9 (by simp)
    have h10 : b10 < 256 := h.2 b10 (by simp)
    have h11 : b11 < 256 := h.2 b11 (by simp)
    have h12 : b12 < 256 := h.2 b12 (by simp)
    have h13 : b13 < 256 := h.2 b13 (by simp)
    have h14 : b14 < 256 := h.2 b14 (by simp)
    have h15 : b15 < 256 := h.2 b15 (by simp)
    intro i hi hni
    interval_cases i
    all_goals first
      | exact absurd (by decide) hni
      | (refine ⟨_, rfl, hexDigit_mem _ ?_⟩
         first
           | (rw [shiftRight_four]; omega)
           | (rw [and_fifteen]; omega))
  · obtain ⟨b0, b1, b2, b3, b4, b5, b6, b7, b8, b9, b10, b11, b12, b13, b14, b15, rfl⟩ := exists_bytes_of_isUUID u h
    intro k hk
    interval_cases k
    all_goals
      simp only [hexEncode, List.getD_cons_zero, List.getD_cons_succ, ← shiftRight_four,
        ← and_fifteen]
      exact ⟨rfl, rfl⟩
  · intro v hv heq
    have hv1 := UUID_String_filter v hv
    rw [heq, hv1] at hfilter
    exact (hexEncode_injective v u hv.2 h.2 hfilter).symm

/-- Witness of C26: the UUID `550e8400-e29b-41d4-a716-446655440000`. -/
theorem UUID_String_format_witness :
    (UUID_String [0x55, 0x0e, 0x84, 0x00, 0xe2, 0x9b, 0x41, 0xd4, 0xa7, 0x16, 0x44, 0x66,
      0x55, 0x44, 0x00, 0x00]).length = 36 ∧
    (UUID_String [0x55, 0x0e, 0x84, 0x00, 0xe2, 0x9b, 0x41, 0xd4, 0xa7, 0x16, 0x44, 0x66,
      0x55, 0x44, 0x00, 0x00]).data[8]? = some '-' :=
  have h := UUID_String_format [0x55, 0x0e, 0x84, 0x00, 0xe2, 0x9b, 0x41, 0xd4, 0xa7, 0x16,
    0x44, 0x66, 0x55, 0x44, 0x00, 0x00] (by decide)
  ⟨h.1, h.2.1 8 (by decide)⟩

/-! ## Version and variant bytes -/

/-- The byte `(b & 0x0f) | 0x40` has high digit 4 and the low four bits of `b`. -/
theorem version4_byte (b : Nat) :
    ((b &&& 0x0f) ||| 0x40) >>> 4 = 4 ∧ ((b &&& 0x0f) ||| 0x40) &&& 0x0f = b &&& 0x0f ∧
    (b &&& 0x0f) ||| 0x40 < 256 := by
  have e : (b &&& 0x0f) ||| 0x40 = 64 + b % 16 := by
    rw [and_fifteen, Nat.or_comm]
    exact or_eq_add_of_low 64 (b % 16) 6 (by decide) (by omega)
  rw [e, shiftRight_four, and_fifteen, and_fifteen]
  omega

/-- The byte `(b & 0x3f) | 0x80` has top bits `10`, high digit 8 to 11, and the low six
bits of `b`. -/
theorem variant_byte (b : Nat) :
    ((b &&& 0x3f) ||| 0x80) >>> 6 = 2 ∧
    (8 ≤ ((b &&& 0x3f) ||| 0x80) >>> 4 ∧ ((b &&& 0x3f) ||| 0x80) >>> 4 ≤ 11) ∧
    ((b &&& 0x3f) ||| 0x80) &&& 0x3f = b &&& 0x3f ∧ (b &&& 0x3f) ||| 0x80 < 256 := by
  have m : ∀ x : Nat, x &&& 0x3f = x % 64 := fun x => Nat.and_pow_two_sub_one_eq_mod x 6
  have e : (b &&& 0x3f) ||| 0x80 = 128 + b % 64 := by
    rw [m, Nat.or_comm]
    exact or_eq_add_of_low 128 (b % 64) 7 (by decide) (by omega)
  rw [e, shiftRight_four, m, m, Nat.shiftRight_eq_div_pow]
  omega

/-- The byte `0x70 | byte((q >> 8) & 0x0F)` has high digit 7 and low four bits
`q / 256 % 16`. -/
theorem version7_byte (q : Nat) :
    (0x70 ||| ((q >>> 8 &&& 0x0F) % 256)) >>> 4 = 7 ∧
    (0x70 ||| ((q >>> 8 &&& 0x0F) % 256)) &&& 0x0f = q / 256 % 16 ∧
    0x70 ||| ((q >>> 8 &&& 0x0F) % 256) < 256 := by
  have e : 0x70 ||| ((q >>> 8 &&& 0x0F) % 256) = 112 + q / 256 % 16 := by
    rw [and_fifteen, Nat.shiftRight_eq_div_pow,
      Nat.mod_eq_of_lt (by omega : q / 2 ^ 8 % 16 < 256)]
    exact or_eq_add_of_low 112 (q / 2 ^ 8 % 16) 4 (by decide) (by omega)
  rw [e, shiftRight_four, and_fifteen]
  omega

/-- The hexadecimal digit of a value from 8 to 11 is one of `8`, `9`, `a`, `b`. -/
theorem hexDigit_variant (n : Nat) (h : 8 ≤ n ∧ n ≤ 11) :
    ∃ c ∈ ['8', '9', 'a', 'b'], hexDigit n = c := by
  obtain ⟨h1, h2⟩ := h
  interval_cases n
  · exact ⟨'8', by decide, rfl⟩
  · exact ⟨'9', by decide, rfl⟩
  · exact ⟨'a', by decide, rfl⟩
  · exact ⟨'b', by decide, rfl⟩

/-- C27: for sixteen random bytes `r`, `NewUUIDv4` returns no error and a UUID `u` with
`u[6] = (r[6] & 0x0f) | 0x40`, `u[8] = (r[8] & 0x3f) | 0x80` and `u[i] = r[i]` elsewhere:
the version digit is 4, the variant bits are `10`, the low four bits of byte 6 and the low
six bits of byte 8 are those of `r`, and the string of `u` has `4` at index 14 and one of
`8`, `9`, `a`, `b` at index 19. -/
theorem NewUUIDv4_version_and_variant (r : List Nat) (hr : isUUID r) :
    (NewUUIDv4 (some r)).2 = none ∧ isUUID (NewUUIDv4 (some r)).1 ∧
    (NewUUIDv4 (some r)).1[6]? = some ((r.getD 6 0 &&& 0x0f) ||| 0x40) ∧
    (NewUUIDv4 (some r)).1[8]? = some ((r.getD 8 0 &&& 0x3f) ||| 0x80) ∧
    (∀ i, i ≠ 6 → i ≠ 8 → (NewUUIDv4 (some r)).1[i]? = r[i]?) ∧
    ((NewUUIDv4 (some r)).1.getD 6 0 >>> 4 = 4 ∧
      (NewUUIDv4 (some r)).1.getD 6 0 &&& 0x0f = r.getD 6 0 &&& 0x0f) ∧
    ((NewUUIDv4 (some r)).1.getD 8 0 >>> 6 = 2 ∧
      (NewUUIDv4 (some r)).1.getD 8 0 &&& 0x3f = r.getD 8 0 &&& 0x3f) ∧
    (UUID_String (NewUUIDv4 (some r)).1).data[14]? = some '4' ∧
    (∃ c ∈ ['8', '9', 'a', 'b'], (UUID_String (NewUUIDv4 (some r)).1).data[19]? = some c) := by
  have hother : ∀ i, i ≠ 6 → i ≠ 8 → (NewUUIDv4 (some r)).1[i]? = r[i]? := by
    intro i h6 h8
    simp only [NewUUIDv4]
    rw [List.getElem?_set_ne (Ne.symm h8), List.getElem?_set_ne (Ne.symm h6)]
  have hbound := hr.2
  obtain ⟨b0, b1, b2, b3, b4, b5, b6, b7, b8, b9, b10, b11, b12, b13, b14, b15, rfl⟩ := exists_bytes_of_isUUID r hr
  have h6 := version4_byte b6
  have h8 := variant_byte b8
  have hu : isUUID (NewUUIDv4 (some [b0, b1, b2, b3, b4, b5, b6, b7, b8, b9, b10, b11, b12,
      b13, b14, b15])).1 := by
    refine ⟨rfl, ?_⟩
    intro b hb
    simp only [NewUUIDv4, List.set_cons_succ, List.set_cons_zero, List.getD_cons_succ,
      List.getD_cons_zero, List.mem_cons, List.mem_singleton, List.not_mem_nil, or_false]
      at hb
    rcases hb with rfl | rfl | rfl | rfl | rfl | rfl | rfl | rfl | rfl | rfl | rfl | rfl |
      rfl | rfl | rfl | rfl
    all_goals first
      | exact h6.2.2
      | exact h8.2.2.2
      | exact hbound _ (by simp)
  have hs := UUID_String_version_variant _ hu
  refine ⟨rfl, hu, rfl, rfl, hother, ⟨h6.1, h6.2.1⟩, ⟨h8.1, h8.2.2.1⟩, ?_, ?_⟩
  · rw [hs.1]
    have e : (NewUUIDv4 (some [b0, b1, b2, b3, b4, b5, b6, b7, b8, b9, b10, b11, b12, b13,
        b14, b15])).1.getD 6 0 = (b6 &&& 0x0f) ||| 0x40 := rfl
    rw [e, h6.1]
    rfl
  · rw [hs.2]
    have e : (NewUUIDv4 (some [b0, b1, b2, b3, b4, b5, b6, b7, b8, b9, b10, b11, b12, b13,
        b14, b15])).1.getD 8 0 = (b8 &&& 0x3f) ||| 0x80 := rfl
    rw [e]
    obtain ⟨c, hc, hd⟩ := hexDigit_variant _ h8.2.1
    exact ⟨c, hc, by rw [hd]⟩

/-- Witness of C27: sixteen bytes `0xff`. -/
theorem NewUUIDv4_version_and_variant_witness :
    UUID_String (NewUUIDv4 (some [255, 255, 255, 255, 255, 255, 255, 255, 255, 255, 255,
      255, 255, 255, 255, 255])).1 = UUID_String [255, 255, 255, 255, 255, 255, 79, 255, 191,
      255, 255, 255, 255, 255, 255, 255] ∧
    (UUID_String (NewUUIDv4 (some [255, 255, 255, 255, 255, 255, 255, 255, 255, 255, 255,
      255, 255, 255, 255, 255])).1).data[14]? = some '4' :=
  ⟨rfl, (NewUUIDv4_version_and_variant [255, 255, 255, 255, 255, 255, 255, 255, 255, 255,
    255, 255, 255, 255, 255, 255] (by decide)).2.2.2.2.2.2.2.1⟩

/-! ## UUID version 7 -/

/-- Ten random bytes are a list of exactly ten entries. -/
theorem exists_ten_bytes (randomBytes : List Nat) (h : randomBytes.length = 10) :
    ∃ b0 b1 b2 b3 b4 b5 b6 b7 b8 b9 : Nat,
      randomBytes = [b0, b1, b2, b3, b4, b5, b6, b7, b8, b9] := by
  rcases randomBytes with _ | ⟨b0, _ | ⟨b1, _ | ⟨b2, _ | ⟨b3, _ | ⟨b4, _ | ⟨b5, _ | ⟨b6, _ | ⟨b7, _ | ⟨b8, _ | ⟨b9, _ | ⟨b10, t⟩⟩⟩⟩⟩⟩⟩⟩⟩⟩⟩
  all_goals first
    | (simp only [List.length_cons, List.length_nil] at h; omega)
    | exact ⟨_, _, _, _, _, _, _, _, _, _, rfl⟩

/-- The readings consumed by the clock part of `UUIDv7Generator.Generate` contain the
timestamp it adopts. -/
theorem uuidv7Advance_some (g : UUIDv7Generator) (clock : Clock) (now : Int) (sequence : Nat)
    (rest : Clock) (h : uuidv7Advance g clock = some (now, sequence, rest)) :
    (∃ taken, clock = taken ++ rest ∧ now ∈ taken) ∧ sequence ≤ 0x0FFF := by
  unfold uuidv7Advance at h
  cases clock with
  | nil => simp [currentTimestamp] at h
  | cons t c1 =>
    simp only [currentTimestamp] at h
    by_cases hle : t ≤ g.lastTimestamp
    · by_cases hov : (g.sequence + 1) % 2 ^ 16 > 0x0FFF
      · simp only [hle, hov, if_true] at h
        cases c1 with
        | nil => simp at h
        | cons t2 c2 =>
          simp only [Option.some.injEq, Prod.mk.injEq] at h
          obtain ⟨rfl, rfl, rfl⟩ := h
          exact ⟨⟨[t, t2], by simp, by simp⟩, by decide⟩
      · simp only [hle, hov, if_true, if_false, Option.some.injEq, Prod.mk.injEq] at h
        obtain ⟨rfl, rfl, rfl⟩ := h
        exact ⟨⟨[t], by simp, by simp⟩, by omega⟩
    · simp only [hle, if_false, Option.some.injEq, Prod.mk.injEq] at h
      obtain ⟨rfl, rfl, rfl⟩ := h
      exact ⟨⟨[t], by simp, by simp⟩, by decide⟩

/-- The parts of a returning `UUIDv7Generator.Generate` call. -/
theorem UUIDv7_Generate_some (g : UUIDv7Generator) (clock : Clock) (random : Option (List Nat))
    (r : UUID × Option UUIDError) (g1 : UUIDv7Generator) (rest : Clock)
    (h : UUIDv7Generator.Generate g clock random = some (r, g1, rest)) :
    uuidv7Advance g clock = some (g1.lastTimestamp, g1.sequence, rest) ∧
    r = match random with
        | none => (uuidv7TimestampBytes g1.lastTimestamp, some .randomBytes)
        | some randomBytes =>
          (uuidv7Fill (uuidv7TimestampBytes g1.lastTimestamp) g1.sequence randomBytes, none) := by
  unfold UUIDv7Generator.Generate at h
  cases hadv : uuidv7Advance g clock with
  | none => simp [hadv] at h
  | some a =>
    obtain ⟨now, sequence, rest1⟩ := a
    simp only [hadv] at h
    cases random with
    | none =>
      simp only [Option.some.injEq, Prod.mk.injEq] at h
      obtain ⟨rfl, rfl, rfl⟩ := h
      exact ⟨rfl, rfl⟩
    | some randomBytes =>
      simp only [Option.some.injEq, Prod.mk.injEq] at h
      obtain ⟨rfl, rfl, rfl⟩ := h
      exact ⟨rfl, rfl⟩

/-- The sixteen bytes `UUIDv7Generator.Generate` builds from a timestamp, a sequence and
ten random bytes. -/
theorem uuidv7Fill_bytes (now : Int) (sequence : Nat) (b0 b1 b2 b3 b4 b5 b6 b7 b8 b9 : Nat) :
    uuidv7Fill (uuidv7TimestampBytes now) sequence [b0, b1, b2, b3, b4, b5, b6, b7, b8, b9]
      = [toU64 now * 2 ^ 16 % 2 ^ 64 / 2 ^ 56 % 256, toU64 now * 2 ^ 16 % 2 ^ 64 / 2 ^ 48 % 256,
         toU64 now * 2 ^ 16 % 2 ^ 64 / 2 ^ 40 % 256, toU64 now * 2 ^ 16 % 2 ^ 64 / 2 ^ 32 % 256,
         toU64 now * 2 ^ 16 % 2 ^ 64 / 2 ^ 24 % 256, toU64 now * 2 ^ 16 % 2 ^ 64 / 2 ^ 16 % 256,
         0x70 ||| ((sequence >>> 8 &&& 0x0F) % 256), (sequence &&& 0xFF) % 256,
         (b0 &&& 0x3f) ||| 0x80, b1, b2, b3, b4, b5, b6, b7] :=
  rfl

/-- Writing the version, sequence, random and variant bytes leaves bytes 0 to 5 alone. -/
theorem sliceBytes_uuidv7Fill (now : Int) (sequence : Nat) (randomBytes : List Nat) :
    sliceBytes (uuidv7Fill (uuidv7TimestampBytes now) sequence randomBytes) 0 6
      = sliceBytes (uuidv7TimestampBytes now) 0 6 :=
  rfl

/-- The 48-bit timestamp read back from the timestamp bytes. -/
theorem extract_uuidv7TimestampBytes (now : Int) (h : 0 ≤ now ∧ now < 2 ^ 48) :
    toI64 (bigEndianUint64 ([0, 0] ++ sliceBytes (uuidv7TimestampBytes now) 0 6)) = now := by
  have hn : toU64 now = now.toNat := toU64_of_nonneg now h.1 (by omega)
  have hb : bigEndianUint64 ([0, 0] ++ sliceBytes (uuidv7TimestampBytes now) 0 6)
      = now.toNat := by
    show bigEndianUint64 [0, 0, toU64 now * 2 ^ 16 % 2 ^ 64 / 2 ^ 56 % 256,
      toU64 now * 2 ^ 16 % 2 ^ 64 / 2 ^ 48 % 256, toU64 now * 2 ^ 16 % 2 ^ 64 / 2 ^ 40 % 256,
      toU64 now * 2 ^ 16 % 2 ^ 64 / 2 ^ 32 % 256, toU64 now * 2 ^ 16 % 2 ^ 64 / 2 ^ 24 % 256,
      toU64 now * 2 ^ 16 % 2 ^ 64 / 2 ^ 16 % 256] = now.toNat
    rw [hn]
    have hlt : now.toNat < 2 ^ 48 := by omega
    generalize now.toNat = n at hlt
    simp only [bigEndianUint64, List.foldl]
    omega
  rw [hb]
  unfold toI64
  split <;> omega

/-- C28: for every generator state, every clock and every ten random bytes, a returning
`UUIDv7Generator.Generate` call reports no error and returns a sixteen-byte UUID whose
version digit `u[6] >> 4` is 7 and whose variant bits `u[8] >> 6` are `10`, so that its
string has `7` at index 14 and one of `8`, `9`, `a`, `b` at index 19. -/
theorem UUIDv7_version_and_variant (g : UUIDv7Generator) (clock : Clock)
    (randomBytes : List Nat) (hrand : randomBytes.length = 10 ∧ ∀ b ∈ randomBytes, b < 256)
    (r : UUID × Option UUIDError) (g1 : UUIDv7Generator) (rest : Clock)
    (h : UUIDv7Generator.Generate g clock (some randomBytes) = some (r, g1, rest)) :
    r.2 = none ∧ isUUID r.1 ∧ r.1.getD 6 0 >>> 4 = 7 ∧ r.1.getD 8 0 >>> 6 = 2 ∧
    (UUID_String r.1).data[14]? = some '7' ∧
    (∃ c ∈ ['8', '9', 'a', 'b'], (UUID_String r.1).data[19]? = some c) := by
  obtain ⟨_, hr⟩ := UUIDv7_Generate_some g clock _ r g1 rest h
  simp only at hr
  obtain ⟨hlen, hbound⟩ := hrand
  obtain ⟨b0, b1, b2, b3, b4, b5, b6, b7, b8, b9, rfl⟩ := exists_ten_bytes randomBytes hlen
  rw [uuidv7Fill_bytes] at hr
  subst hr
  have h6 := version7_byte g1.sequence
  have h8 := variant_byte b0
  have hu : isUUID [toU64 g1.lastTimestamp * 2 ^ 16 % 2 ^ 64 / 2 ^ 56 % 256,
      toU64 g1.lastTimestamp * 2 ^ 16 % 2 ^ 64 / 2 ^ 48 % 256,
      toU64 g1.lastTimestamp * 2 ^ 16 % 2 ^ 64 / 2 ^ 40 % 256,
      toU64 g1.lastTimestamp * 2 ^ 16 % 2 ^ 64 / 2 ^ 32 % 256,
      toU64 g1.lastTimestamp * 2 ^ 16 % 2 ^ 64 / 2 ^ 24 % 256,
      toU64 g1.lastTimestamp * 2 ^ 16 % 2 ^ 64 / 2 ^ 16 % 256,
      0x70 ||| ((g1.sequence >>> 8 &&& 0x0F) % 256), (g1.sequence &&& 0xFF) % 256,
      (b0 &&& 0x3f) ||| 0x80, b1, b2, b3, b4, b5, b6, b7] := by
    refine ⟨rfl, ?_⟩
    intro b hb
    simp only [List.mem_cons, List.mem_singleton, List.not_mem_nil, or_false] at hb
    rcases hb with rfl | rfl | rfl | rfl | rfl | rfl | rfl | rfl | rfl | rfl | rfl | rfl |
      rfl | rfl | rfl | rfl
    all_goals first
      | exact Nat.mod_lt _ (by decide)
      | exact h6.2.2
      | exact h8.2.2.2
      | exact hbound _ (by simp)
  have hs := UUID_String_version_variant _ hu
  refine ⟨rfl, hu, h6.1, h8.1, ?_, ?_⟩
  · rw [hs.1]
    show some (hexDigit ((0x70 ||| ((g1.sequence >>> 8 &&& 0x0F) % 256)) >>> 4)) = some '7'
    rw [h6.1]
    rfl
  · rw [hs.2]
    obtain ⟨c, hc, hd⟩ := hexDigit_variant _ h8.2.1
    exact ⟨c, hc, by
      show some (hexDigit (((b0 &&& 0x3f) ||| 0x80) >>> 4)) = some c
      rw [hd]⟩

/-- Witness of C28: the zero generator, one clock reading, ten random bytes. -/
theorem UUIDv7_version_and_variant_witness :
    (none : Option UUIDError) = none ∧
    isUUID [1, 148, 31, 41, 124, 100, 112, 0, 129, 2, 3, 4, 5, 6, 7, 8] ∧
    (([1, 148, 31, 41, 124, 100, 112, 0, 129, 2, 3, 4, 5, 6, 7, 8] : UUID).getD 6 0) >>> 4 = 7 ∧
    (([1, 148, 31, 41, 124, 100, 112, 0, 129, 2, 3, 4, 5, 6, 7, 8] : UUID).getD 8 0) >>> 6 = 2 ∧
    (UUID_String [1, 148, 31, 41, 124, 100, 112, 0, 129, 2, 3, 4, 5, 6, 7, 8]).data[14]?
      = some '7' ∧
    (∃ c ∈ ['8', '9', 'a', 'b'],
      (UUID_String [1, 148, 31, 41, 124, 100, 112, 0, 129, 2, 3, 4, 5, 6, 7, 8]).data[19]?
        = some c) :=
  UUIDv7_version_and_variant UUIDv7Generator.zero [1735689600100]
    [1, 2, 3, 4, 5, 6, 7, 8, 9, 10] (by decide)
    ([1, 148, 31, 41, 124, 100, 112, 0, 129, 2, 3, 4, 5, 6, 7, 8], none)
    ⟨1735689600100, 0⟩ [] rfl

/-- C29, counterexample: with a clock that reads `-1`, one millisecond before the Unix
epoch, the timestamp read back from the returned UUID is `2^48 - 1`, not the `-1` the
call adopted. -/
theorem ExtractTimestampFromUUIDv7_wraps :
    UUIDv7Generator.Generate UUIDv7Generator.zero [-1] (some [1, 2, 3, 4, 5, 6, 7, 8, 9, 10])
      = some (([255, 255, 255, 255, 255, 255, 112, 1, 129, 2, 3, 4, 5, 6, 7, 8], none),
          ⟨-1, 1⟩, []) ∧
    ExtractTimestampFromUUIDv7 [255, 255, 255, 255, 255, 255, 112, 1, 129, 2, 3, 4, 5, 6, 7, 8]
      = 281474976710655 ∧
    (281474976710655 : Int) ≠ -1 :=
  ⟨rfl, rfl, by decide⟩

/-- C29, amended: the timestamp `T` a returning `UUIDv7Generator.Generate` call embeds, the
generator's `lastTimestamp` after the call, is one of the clock readings the call consumed;
and when `0 ≤ T < 2^48`, `ExtractTimestampFromUUIDv7` of the returned UUID is `T`. -/
theorem ExtractTimestampFromUUIDv7_of_Generate (g : UUIDv7Generator) (clock : Clock)
    (random : Option (List Nat)) (r : UUID × Option UUIDError) (g1 : UUIDv7Generator)
    (rest : Clock) (h : UUIDv7Generator.Generate g clock random = some (r, g1, rest)) :
    (∃ taken, clock = taken ++ rest ∧ g1.lastTimestamp ∈ taken) ∧
    ((0 ≤ g1.lastTimestamp ∧ g1.lastTimestamp < 2 ^ 48) →
      ExtractTimestampFromUUIDv7 r.1 = g1.lastTimestamp) := by
  obtain ⟨hadv, hr⟩ := UUIDv7_Generate_some g clock random r g1 rest h
  refine ⟨(uuidv7Advance_some g clock _ _ rest hadv).1, fun ht => ?_⟩
  unfold ExtractTimestampFromUUIDv7
  cases random with
  | none =>
    simp only at hr
    rw [hr]
    exact extract_uuidv7TimestampBytes _ ht
  | some randomBytes =>
    simp only at hr
    rw [hr]
    simp only []
    rw [sliceBytes_uuidv7Fill]
    exact extract_uuidv7TimestampBytes _ ht

/-- Witness of the amended C29: the zero generator and a clock reading in 2025. -/
theorem ExtractTimestampFromUUIDv7_of_Generate_witness :
    (∃ taken, [(1735689600100 : Int)] = taken ++ [] ∧ (1735689600100 : Int) ∈ taken) ∧
    ExtractTimestampFromUUIDv7 [1, 148, 31, 41, 124, 100, 112, 0, 129, 2, 3, 4, 5, 6, 7, 8]
      = 1735689600100 :=
  have h := ExtractTimestampFromUUIDv7_of_Generate UUIDv7Generator.zero [1735689600100]
    (some [1, 2, 3, 4, 5, 6, 7, 8, 9, 10])
    ([1, 148, 31, 41, 124, 100, 112, 0, 129, 2, 3, 4, 5, 6, 7, 8], none)
    ⟨1735689600100, 0⟩ [] rfl
  ⟨h.1, h.2 ⟨by decide, by decide⟩⟩

/-- C30, the code at the failing input: the clock reads `…100` for the first call and the
regressed `…050` for the second; the second call adds one to the sequence and adopts
`…050`, so the timestamp read back from the second UUID is below that of the first. -/
theorem UUIDv7_Generate_adopts_regressed_clock :
    UUIDv7Generator.Generate UUIDv7Generator.zero [1735689600100]
        (some [1, 2, 3, 4, 5, 6, 7, 8, 9, 10])
      = some (([1, 148, 31, 41, 124, 100, 112, 0, 129, 2, 3, 4, 5, 6, 7, 8], none),
          ⟨1735689600100, 0⟩, []) ∧
    UUIDv7Generator.Generate ⟨1735689600100, 0⟩ [1735689600050]
        (some [1, 2, 3, 4, 5, 6, 7, 8, 9, 10])
      = some (([1, 148, 31, 41, 124, 50, 112, 1, 129, 2, 3, 4, 5, 6, 7, 8], none),
          ⟨1735689600050, 1⟩, []) ∧
    ExtractTimestampFromUUIDv7 [1, 148, 31, 41, 124, 100, 112, 0, 129, 2, 3, 4, 5, 6, 7, 8]
      = 1735689600100 ∧
    ExtractTimestampFromUUIDv7 [1, 148, 31, 41, 124, 50, 112, 1, 129, 2, 3, 4, 5, 6, 7, 8]
      = 1735689600050 :=
  ⟨rfl, rfl, rfl, rfl⟩

/-! ## Increasing identifiers -/

/-- The chain of `generateCalls_chain`, asking the 41-bit capacity of the adopted timestamps
only. -/
theorem generateCalls_chain_adopted (n : Nat) : ∀ (s : Snowflake) (clock : Clock),
    (0 ≤ s.processID ∧ s.processID ≤ 31) → (0 ≤ s.workerID ∧ s.workerID ≤ 31) →
    (0 ≤ s.sequence ∧ s.sequence ≤ 4095) →
    clock.Pairwise (· ≤ ·) →
    (∀ r ∈ clock, s.lastTimestamp ≤ r) →
    (∀ s1 ∈ generateStates n s clock,
      0 ≤ s1.lastTimestamp - s.epoch ∧ s1.lastTimestamp - s.epoch < 2 ^ 41) →
    List.Chain (· < ·)
      ((s.lastTimestamp - s.epoch) * 2 ^ 22 + s.processID * 2 ^ 17 + s.workerID * 2 ^ 12
        + s.sequence)
      (generateCalls n s clock).1 := by
  induction n with
  | zero => intro s clock _ _ _ _ _ _; exact List.Chain.nil
  | succ n ih =>
    intro s clock hp hw hq hsorted hge hrange
    unfold generateCalls
    unfold generateStates at hrange
    cases hG : Generate s clock with
    | none => exact List.Chain.nil
    | some r =>
      obtain ⟨id, s1, rest⟩ := r
      simp only [hG] at hrange
      obtain ⟨he, hp1, hw1, hq1, hid, _⟩ := Generate_some s clock id s1 rest hG
      obtain ⟨hs1, hge1, _, _⟩ := Generate_clock_left s clock id s1 rest hG hsorted
      have hadv := Generate_advances s clock id s1 rest hG hq hge
      have hr1 := hrange s1 (List.mem_cons_self _ _)
      have hsum := packID_eq_sum s.epoch s.processID s.workerID s1.lastTimestamp s1.sequence
        hp hw hq1 hr1
      have hchain := ih s1 rest (by rw [hp1]; exact hp) (by rw [hw1]; exact hw) hq1 hs1 hge1
        (fun r hr => by rw [he]; exact hrange r (List.mem_cons_of_mem _ hr))
      rw [he, hp1, hw1, ← hsum, ← hid] at hchain
      refine List.Chain.cons ?_ hchain
      rw [hid, hsum]
      rcases hadv with ⟨h1, h2⟩ | ⟨h1, h2⟩
      · omega
      · omega

/-- C33: for a generator obtained from `NewWithEpoch`, when the clock readings are
non-decreasing and every timestamp `T` adopted by a call satisfies `0 ≤ T - epoch < 2^41`,
each identifier returned by `Generate` is above every identifier the generator returned
before. -/
theorem Generate_identifiers_increase (p w e : Int) (g : Snowflake)
    (hnew : NewWithEpoch p w e = .ok g) (clock : Clock) (hsorted : clock.Pairwise (· ≤ ·))
    (n : Nat)
    (hadopted : ∀ s ∈ generateStates n g clock,
      0 ≤ s.lastTimestamp - e ∧ s.lastTimestamp - e < 2 ^ 41) :
    (generateCalls n g clock).1.Pairwise (· < ·) := by
  obtain ⟨hp, hw, rfl⟩ := NewWithEpoch_ok p w e g hnew
  cases n with
  | zero => exact List.Pairwise.nil
  | succ n =>
    unfold generateCalls
    unfold generateStates at hadopted
    cases hG : Generate ⟨e, p, w, 0, 0⟩ clock with
    | none => exact List.Pairwise.nil
    | some r =>
      obtain ⟨id, s1, rest⟩ := r
      simp only [hG] at hadopted
      obtain ⟨he, hp1, hw1, hq1, hid, _⟩ := Generate_some _ clock id s1 rest hG
      obtain ⟨hs1, hge1, _, _⟩ := Generate_clock_left _ clock id s1 rest hG hsorted
      simp only at he hp1 hw1 hid
      have hsum := packID_eq_sum e p w s1.lastTimestamp s1.sequence hp hw hq1
        (hadopted s1 (List.mem_cons_self _ _))
      have hchain := generateCalls_chain_adopted n s1 rest (by rw [hp1]; exact hp)
        (by rw [hw1]; exact hw) hq1 hs1 hge1
        (fun r hr => by rw [he]; exact hadopted r (List.mem_cons_of_mem _ hr))
      rw [he, hp1, hw1, ← hsum, ← hid] at hchain
      exact List.chain_iff_pairwise.mp hchain

/-- Witness of C33: three calls, two of them in the same millisecond. -/
theorem Generate_identifiers_increase_witness :
    (generateCalls 3 ⟨DefaultEpoch, 5, 12, 0, 0⟩
      [1735689600001, 1735689600001, 1735689600002]).1.Pairwise (· < ·) :=
  Generate_identifiers_increase 5 12 DefaultEpoch ⟨DefaultEpoch, 5, 12, 0, 0⟩ rfl
    [1735689600001, 1735689600001, 1735689600002] (by decide) 3 (by decide)

/-- C34: when the timestamp `T` adopted by a `Generate` call satisfies
`epoch ≤ T < epoch + 2^41`, the identifier satisfies `0 ≤ id < 2^63`, and it is 0 exactly
when `T = epoch`, both slots are 0 and the sequence is 0. -/
theorem Generate_identifier_nonnegative (p w e : Int) (g : Snowflake)
    (hnew : NewWithEpoch p w e = .ok g) (seq last : Int) (clock : Clock) (id : Int)
    (g1 : Snowflake) (rest : Clock)
    (h : Generate { g with sequence := seq, lastTimestamp := last } clock
      = some (id, g1, rest))
    (ht : e ≤ g1.lastTimestamp ∧ g1.lastTimestamp < e + 2 ^ 41) :
    (0 ≤ id ∧ id < 2 ^ 63) ∧
    (id = 0 ↔ (g1.lastTimestamp = e ∧ p = 0 ∧ w = 0 ∧ g1.sequence = 0)) := by
  obtain ⟨hp, hw, rfl⟩ := NewWithEpoch_ok p w e g hnew
  obtain ⟨_, _, _, hq, hid, _⟩ := Generate_some _ _ _ _ _ h
  simp only at hid
  rw [hid, packID_eq_sum e p w g1.lastTimestamp g1.sequence hp hw hq ⟨by omega, by omega⟩]
  refine ⟨⟨by omega, by omega⟩, ⟨fun h0 => ?_, fun h0 => ?_⟩⟩
  · refine ⟨?_, ?_, ?_, ?_⟩ <;> omega
  · obtain ⟨h1, h2, h3, h4⟩ := h0
    rw [h1, h2, h3, h4]
    simp

/-- Witness of C34: slots 0 and 0 at the epoch itself give the identifier 0. -/
theorem Generate_identifier_nonnegative_witness :
    ((0 : Int) ≤ 0 ∧ (0 : Int) < 2 ^ 63) ∧
    ((0 : Int) = 0 ↔ ((5 : Int) = 5 ∧ (0 : Int) = 0 ∧ (0 : Int) = 0 ∧ (0 : Int) = 0)) :=
  Generate_identifier_nonnegative 0 0 5 ⟨5, 0, 0, 0, 0⟩ rfl 0 0 [5] 0 ⟨5, 0, 0, 0, 5⟩ [] rfl
    ⟨by decide, by decide⟩

/-! ## Clock regression and the unused error -/

/-- C35, counterexample: a generator whose `lastTimestamp` is `…100` reads `…050`; the call
sleeps, reads `…100` and returns the identifier 420134913, not an error. -/
theorem Generate_regression_returns_identifier :
    Generate ⟨DefaultEpoch, 5, 12, 0, 1735689600100⟩ [1735689600050, 1735689600100]
      = some (420134913, ⟨DefaultEpoch, 5, 12, 1, 1735689600100⟩, []) :=
  rfl

/-- C35, amended: when a `Generate` call reads a clock value below `lastTimestamp`, it
waits and reads the clock once more: if the second reading is not below `lastTimestamp` the
call does what it would have done had it read that value first, and if the second reading
is above `lastTimestamp` the call returns the identifier packed from it with sequence 0.
No constructor returns `ErrClockMovedBackwards`. -/
theorem Generate_regression_rereads (p w e : Int) (g : Snowflake)
    (hnew : NewWithEpoch p w e = .ok g) (seq last now now2 : Int) (rest : Clock)
    (hreg : now < last) :
    (last ≤ now2 →
      Generate { g with sequence := seq, lastTimestamp := last } (now :: now2 :: rest)
        = Generate { g with sequence := seq, lastTimestamp := last } (now2 :: rest)) ∧
    (last < now2 →
      Generate { g with sequence := seq, lastTimestamp := last } (now :: now2 :: rest)
        = some (packID e p w now2 0, { g with sequence := 0, lastTimestamp := now2 }, rest)) ∧
    (∀ p1 w1 e1, NewWithEpoch p1 w1 e1 ≠ .error .ErrClockMovedBackwards) ∧
    (∀ p1 w1 st, (SetDefaultMachineID p1 w1 st).1 ≠ some .ErrClockMovedBackwards) := by
  obtain ⟨_, _, rfl⟩ := NewWithEpoch_ok p w e g hnew
  have hnew_ne : ∀ p1 w1 e1, NewWithEpoch p1 w1 e1 ≠ .error .ErrClockMovedBackwards := by
    intro p1 w1 e1 h
    unfold NewWithEpoch at h
    split at h
    · cases h
    · split at h
      · cases h
      · cases h
  refine ⟨?_, ?_, hnew_ne, ?_⟩
  · intro hge
    simp only [Generate, currentTimestamp, hreg, if_true, if_neg (not_lt.mpr hge)]
  · intro hlt
    simp only [Generate, currentTimestamp, hreg, if_true, if_neg (ne_of_gt hlt)]
  · intro p1 w1 st h
    unfold SetDefaultMachineID NewSnowflake New at h
    cases hN : NewWithEpoch p1 w1 DefaultEpoch with
    | error err =>
      rw [hN] at h
      simp only [Option.some.injEq] at h
      rw [h] at hN
      exact hnew_ne _ _ _ hN
    | ok gen =>
      rw [hN] at h
      cases h

/-- Witness of the amended C35: the clock reads `…050`, behind `…100`, then `…150`. -/
theorem Generate_regression_rereads_witness :
    Generate ⟨DefaultEpoch, 5, 12, 0, 1735689600100⟩ [1735689600050, 1735689600150]
      = some (packID DefaultEpoch 5 12 1735689600150 0,
          ⟨DefaultEpoch, 5, 12, 0, 1735689600150⟩, []) :=
  (Generate_regression_rereads 5 12 DefaultEpoch ⟨DefaultEpoch, 5, 12, 0, 0⟩ rfl 0
    1735689600100 1735689600050 1735689600150 [] (by decide)).2.1 (by decide)

/-- C38: when `SetDefaultMachineID` returns an error, which it does exactly when a slot is
outside `0..31`, the package state is what it was: `GetDefaultGenerator` returns the same
pointer, nil included, and no generator has been allocated or changed. -/
theorem SetDefaultMachineID_failure_changes_nothing (p w : Int) (st : PackageState)
    (err : SnowflakeError) (h : (SetDefaultMachineID p w st).1 = some err) :
    (SetDefaultMachineID p w st).2 = st ∧
    GetDefaultGenerator (SetDefaultMachineID p w st).2 = GetDefaultGenerator st ∧
    (SetDefaultMachineID p w st).2.heap = st.heap ∧
    ¬ ((0 ≤ p ∧ p ≤ 31) ∧ (0 ≤ w ∧ w ≤ 31)) := by
  have hrange : ¬ ((0 ≤ p ∧ p ≤ 31) ∧ (0 ≤ w ∧ w ≤ 31)) := by
    intro hr
    have hN := NewWithEpoch_eq_ok p w DefaultEpoch hr.1 hr.2
    unfold SetDefaultMachineID NewSnowflake New at h
    rw [hN] at h
    cases h
  have hst : (SetDefaultMachineID p w st).2 = st := by
    unfold SetDefaultMachineID at h ⊢
    cases hN : NewSnowflake p w with
    | error e1 => rfl
    | ok gen => rw [hN] at h; cases h
  exact ⟨hst, by rw [hst], by rw [hst], hrange⟩

/-- Witness of C38: `SetDefaultMachineID(32, 0)` while a generator is installed. -/
theorem SetDefaultMachineID_failure_changes_nothing_witness :
    (SetDefaultMachineID 32 0 ⟨[⟨DefaultEpoch, 5, 12, 0, 0⟩], some 0⟩).2
      = ⟨[⟨DefaultEpoch, 5, 12, 0, 0⟩], some 0⟩ ∧
    GetDefaultGenerator (SetDefaultMachineID 32 0 ⟨[⟨DefaultEpoch, 5, 12, 0, 0⟩], some 0⟩).2
      = GetDefaultGenerator ⟨[⟨DefaultEpoch, 5, 12, 0, 0⟩], some 0⟩ ∧
    (SetDefaultMachineID 32 0 ⟨[⟨DefaultEpoch, 5, 12, 0, 0⟩], some 0⟩).2.heap
      = [⟨DefaultEpoch, 5, 12, 0, 0⟩] ∧
    ¬ (((0 : Int) ≤ 32 ∧ (32 : Int) ≤ 31) ∧ ((0 : Int) ≤ 0 ∧ (0 : Int) ≤ 31)) :=
  SetDefaultMachineID_failure_changes_nothing 32 0 ⟨[⟨DefaultEpoch, 5, 12, 0, 0⟩], some 0⟩
    .ErrInvalidProcessID rfl

/-! ## The sequence bits of UUID version 7 -/

/-- The sequence read back from bytes 6 and 7 built by `uuidv7Fill`. -/
theorem uuidv7Fill_sequence (uuid : UUID) (hlen : uuid.length = 16) (sequence : Nat)
    (hseq : sequence ≤ 0x0FFF) (randomBytes : List Nat) :
    ((uuidv7Fill uuid sequence randomBytes).getD 6 0 &&& 0x0f) * 256
      + (uuidv7Fill uuid sequence randomBytes).getD 7 0 = sequence := by
  obtain ⟨b0, b1, b2, b3, b4, b5, b6, b7, b8, b9, b10, b11, b12, b13, b14, b15, rfl⟩ :
      ∃ b0 b1 b2 b3 b4 b5 b6 b7 b8 b9 b10 b11 b12 b13 b14 b15 : Nat,
        uuid = [b0, b1, b2, b3, b4, b5, b6, b7, b8, b9, b10, b11, b12, b13, b14, b15] := by
    rcases uuid with _ | ⟨b0, _ | ⟨b1, _ | ⟨b2, _ | ⟨b3, _ | ⟨b4, _ | ⟨b5, _ | ⟨b6, _ | ⟨b7, _ | ⟨b8, _ | ⟨b9, _ | ⟨b10, _ | ⟨b11, _ | ⟨b12, _ | ⟨b13, _ | ⟨b14, _ | ⟨b15, _ | ⟨b16, t⟩⟩⟩⟩⟩⟩⟩⟩⟩⟩⟩⟩⟩⟩⟩⟩⟩
    all_goals first
      | (simp only [List.length_cons, List.length_nil] at hlen; omega)
      | exact ⟨_, _, _, _, _, _, _, _, _, _, _, _, _, _, _, _, rfl⟩
  have h6 : (uuidv7Fill [b0, b1, b2, b3, b4, b5, b6, b7, b8, b9, b10, b11, b12, b13, b14, b15]
      sequence randomBytes).getD 6 0 = 0x70 ||| ((sequence >>> 8 &&& 0x0F) % 256) := rfl
  have h7 : (uuidv7Fill [b0, b1, b2, b3, b4, b5, b6, b7, b8, b9, b10, b11, b12, b13, b14, b15]
      sequence randomBytes).getD 7 0 = (sequence &&& 0xFF) % 256 := rfl
  rw [h6, h7, (version7_byte sequence).2.1, Nat.and_pow_two_sub_one_eq_mod sequence 8]
  omega

/-- The three branches of the clock and sequence part of `UUIDv7Generator.Generate`. -/
theorem uuidv7Advance_cases (g : UUIDv7Generator) (hseq : g.sequence ≤ 0x0FFF) (clock : Clock)
    (now1 : Int) (sequence1 : Nat) (rest : Clock)
    (h : uuidv7Advance g clock = some (now1, sequence1, rest)) :
    ∃ now c1, clock = now :: c1 ∧
      (g.lastTimestamp < now → sequence1 = 0 ∧ now1 = now ∧ rest = c1) ∧
      (now ≤ g.lastTimestamp → g.sequence + 1 ≤ 0x0FFF →
        sequence1 = g.sequence + 1 ∧ now1 = now ∧ rest = c1) ∧
      (now ≤ g.lastTimestamp → g.sequence + 1 > 0x0FFF →
        sequence1 = 0 ∧ c1 = now1 :: rest) := by
  unfold uuidv7Advance at h
  cases clock with
  | nil => simp [currentTimestamp] at h
  | cons t c1 =>
    refine ⟨t, c1, rfl, ?_⟩
    simp only [currentTimestamp] at h
    have hmod : (g.sequence + 1) % 2 ^ 16 = g.sequence + 1 := Nat.mod_eq_of_lt (by omega)
    rw [hmod] at h
    by_cases hle : t ≤ g.lastTimestamp
    · by_cases hov : g.sequence + 1 > 0x0FFF
      · simp only [hle, hov, if_true] at h
        cases c1 with
        | nil => simp at h
        | cons t2 c2 =>
          simp only [Option.some.injEq, Prod.mk.injEq] at h
          obtain ⟨rfl, rfl, rfl⟩ := h
          exact ⟨fun h1 => absurd hle (not_le.mpr h1), fun _ h2 => absurd hov (not_lt.mpr h2),
            fun _ _ => ⟨rfl, rfl⟩⟩
      · simp only [hle, hov, if_true, if_false, Option.some.injEq, Prod.mk.injEq] at h
        obtain ⟨rfl, rfl, rfl⟩ := h
        exact ⟨fun h1 => absurd hle (not_le.mpr h1), fun _ _ => ⟨rfl, rfl, rfl⟩,
          fun _ h2 => absurd h2 hov⟩
    · simp only [hle, if_false, Option.some.injEq, Prod.mk.injEq] at h
      obtain ⟨rfl, rfl, rfl⟩ := h
      exact ⟨fun _ => ⟨rfl, rfl, rfl⟩, fun h1 => absurd h1 hle, fun h1 => absurd h1 hle⟩

/-- C37: in every UUID `u` returned by `UUIDv7Generator.Generate` on a generator whose
sequence is at most `0x0FFF`, `(u[6] & 0x0f) * 256 + u[7]` is the sequence counter after the
call, which is again at most `0x0FFF`: 0 when the clock reading exceeds `lastTimestamp`,
otherwise the previous value plus 1, and 0 with a second clock reading adopted when the
increment would exceed `0x0FFF`. -/
theorem UUIDv7_Generate_sequence (g : UUIDv7Generator) (hseq : g.sequence ≤ 0x0FFF)
    (clock : Clock) (randomBytes : List Nat) (r : UUID × Option UUIDError)
    (g1 : UUIDv7Generator) (rest : Clock)
    (h : UUIDv7Generator.Generate g clock (some randomBytes) = some (r, g1, rest)) :
    (r.1.getD 6 0 &&& 0x0f) * 256 + r.1.getD 7 0 = g1.sequence ∧
    g1.sequence ≤ 0x0FFF ∧
    ∃ now c1, clock = now :: c1 ∧
      (g.lastTimestamp < now → g1.sequence = 0 ∧ g1.lastTimestamp = now ∧ rest = c1) ∧
      (now ≤ g.lastTimestamp → g.sequence + 1 ≤ 0x0FFF →
        g1.sequence = g.sequence + 1 ∧ g1.lastTimestamp = now ∧ rest = c1) ∧
      (now ≤ g.lastTimestamp → g.sequence + 1 > 0x0FFF →
        g1.sequence = 0 ∧ c1 = g1.lastTimestamp :: rest) := by
  obtain ⟨hadv, hr⟩ := UUIDv7_Generate_some g clock _ r g1 rest h
  simp only at hr
  have hq := (uuidv7Advance_some g clock _ _ rest hadv).2
  refine ⟨?_, hq, uuidv7Advance_cases g hseq clock _ _ rest hadv⟩
  rw [hr]
  exact uuidv7Fill_sequence (uuidv7TimestampBytes g1.lastTimestamp) rfl _ hq randomBytes

/-- Witness of C37: the second call in one millisecond carries sequence 1. -/
theorem UUIDv7_Generate_sequence_witness :
    (([1, 148, 31, 41, 124, 100, 112, 1, 129, 2, 3, 4, 5, 6, 7, 8] : UUID).getD 6 0 &&& 0x0f)
        * 256
      + ([1, 148, 31, 41, 124, 100, 112, 1, 129, 2, 3, 4, 5, 6, 7, 8] : UUID).getD 7 0 = 1 :=
  (UUIDv7_Generate_sequence ⟨1735689600100, 0⟩ (by decide) [1735689600100]
    [1, 2, 3, 4, 5, 6, 7, 8, 9, 10]
    ([1, 148, 31, 41, 124, 100, 112, 1, 129, 2, 3, 4, 5, 6, 7, 8], none)
    ⟨1735689600100, 1⟩ [] rfl).1

/-- C36, counterexample: with every random bit 1 the twelve bits after the version nibble
of the UUID `NewUUIDv7` returns are 0, and with every random bit 0 in the next call of the
same millisecond they are 1. -/
theorem NewUUIDv7_sequence_bits_not_random :
    NewUUIDv7 UUIDv7Generator.zero [1735689600100]
        (some [255, 255, 255, 255, 255, 255, 255, 255, 255, 255])
      = some (([1, 148, 31, 41, 124, 100, 112, 0, 191, 255, 255, 255, 255, 255, 255, 255],
          none), ⟨1735689600100, 0⟩, []) ∧
    NewUUIDv7 ⟨1735689600100, 0⟩ [1735689600100] (some [0, 0, 0, 0, 0, 0, 0, 0, 0, 0])
      = some (([1, 148, 31, 41, 124, 100, 112, 1, 128, 0, 0, 0, 0, 0, 0, 0], none),
          ⟨1735689600100, 1⟩, []) ∧
    ((112 : Nat) &&& 0x0f) * 256 + 0 = 0 ∧ ((112 : Nat) &&& 0x0f) * 256 + 1 = 1 :=
  ⟨rfl, rfl, rfl, rfl⟩

/-- C36, amended: in every UUID returned by `NewUUIDv7`, bytes 0 to 7, the twelve bits after
the version nibble among them, are the same whatever the random source delivers; the random
data are the low six bits of byte 8 and bytes 9 to 15, taken from the first eight of the
ten random bytes. -/
theorem NewUUIDv7_random_bytes (g : UUIDv7Generator) (clock : Clock)
    (randomBytes other : List Nat) (hlen : randomBytes.length = 10)
    (r : UUID × Option UUIDError) (g1 : UUIDv7Generator) (rest : Clock)
    (h : NewUUIDv7 g clock (some randomBytes) = some (r, g1, rest)) :
    (∃ r2, NewUUIDv7 g clock (some other) = some (r2, g1, rest) ∧
      r2.1.take 8 = r.1.take 8) ∧
    r.1.getD 8 0 &&& 0x3f = randomBytes.getD 0 0 &&& 0x3f ∧
    r.1.drop 9 = (randomBytes.drop 1).take 7 := by
  unfold NewUUIDv7 at h ⊢
  obtain ⟨hadv, hr⟩ := UUIDv7_Generate_some g clock _ r g1 rest h
  simp only at hr
  obtain ⟨b0, b1, b2, b3, b4, b5, b6, b7, b8, b9, rfl⟩ := exists_ten_bytes randomBytes hlen
  refine ⟨⟨(uuidv7Fill (uuidv7TimestampBytes g1.lastTimestamp) g1.sequence other, none),
    ?_, ?_⟩, ?_, ?_⟩
  · unfold UUIDv7Generator.Generate
    rw [hadv]
  · rw [hr]
    rfl
  · rw [hr, uuidv7Fill_bytes]
    exact (variant_byte b0).2.2.1
  · rw [hr, uuidv7Fill_bytes]
    rfl

/-- Witness of the amended C36: ten random bytes and ten others. -/
theorem NewUUIDv7_random_bytes_witness :
    (∃ r2, NewUUIDv7 UUIDv7Generator.zero [1735689600100]
        (some [0, 0, 0, 0, 0, 0, 0, 0, 0, 0]) = some (r2, ⟨1735689600100, 0⟩, []) ∧
      r2.1.take 8 = ([1, 148, 31, 41, 124, 100, 112, 0, 129, 2, 3, 4, 5, 6, 7, 8] : UUID).take 8) ∧
    ([1, 148, 31, 41, 124, 100, 112, 0, 129, 2, 3, 4, 5, 6, 7, 8] : UUID).getD 8 0 &&& 0x3f
      = ([1, 2, 3, 4, 5, 6, 7, 8, 9, 10] : List Nat).getD 0 0 &&& 0x3f ∧
    ([1, 148, 31, 41, 124, 100, 112, 0, 129, 2, 3, 4, 5, 6, 7, 8] : UUID).drop 9
      = (([1, 2, 3, 4, 5, 6, 7, 8, 9, 10] : List Nat).drop 1).take 7 :=
  NewUUIDv7_random_bytes UUIDv7Generator.zero [1735689600100]
    [1, 2, 3, 4, 5, 6, 7, 8, 9, 10] [0, 0, 0, 0, 0, 0, 0, 0, 0, 0] rfl
    ([1, 148, 31, 41, 124, 100, 112, 0, 129, 2, 3, 4, 5, 6, 7, 8], none)
    ⟨1735689600100, 0⟩ [] rfl

/-! ## UUID batches -/

/-- The loop of `GenerateUUIDv4Batch`, started at index `done.length` on a slice whose first
entries `done` are written, writes after `done` the strings of the `GenerateUUIDv4` calls
on the successive outputs of the random source, when none of them fails. -/
theorem uuidv4BatchLoop_eq (random : Nat → Option (List Nat)) (k : Nat) :
    ∀ (done : List String),
    (∀ j, done.length ≤ j → j < done.length + k → (random j).isSome) →
    uuidv4BatchLoop k done.length (done ++ List.replicate k emptyString) random
      = (some (done ++ (List.range k).map
          (fun j => (GenerateUUIDv4 (random (done.length + j))).1)), none) := by
  induction k with
  | zero => intro done _; simp [uuidv4BatchLoop]
  | succ k ih =>
    intro done hr
    unfold uuidv4BatchLoop
    have hi := hr done.length (le_refl _) (by omega)
    cases hri : random done.length with
    | none => rw [hri] at hi; cases hi
    | some r =>
      have hG : GenerateUUIDv4 (some r) = (UUID_String (NewUUIDv4 (some r)).1, none) := rfl
      have hset : (done ++ List.replicate (k + 1) emptyString).set done.length
            (UUID_String (NewUUIDv4 (some r)).1)
          = (done ++ [UUID_String (NewUUIDv4 (some r)).1]) ++ List.replicate k emptyString := by
        rw [List.set_append_right _ _ (Nat.le_refl _), Nat.sub_self, List.replicate_succ,
          List.set_cons_zero, List.append_assoc, List.singleton_append]
      have hlen : done.length + 1 = (done ++ [UUID_String (NewUUIDv4 (some r)).1]).length := by
        simp
      simp only [hG, hset]
      rw [hlen, ih (done ++ [UUID_String (NewUUIDv4 (some r)).1])
        (fun j h1 h2 => hr j (by rw [← hlen] at h1; omega) (by rw [← hlen] at h2; omega))]
      rw [List.range_succ_eq_map, List.map_cons, List.map_map, Nat.add_zero, hri, hG,
        List.append_assoc, List.singleton_append, ← hlen]
      have hfun : (fun j => (GenerateUUIDv4 (random (done.length + 1 + j))).1)
          = (fun j => (GenerateUUIDv4 (random (done.length + j))).1) ∘ Nat.succ := by
        funext j
        show _ = (GenerateUUIDv4 (random (done.length + (j + 1)))).1
        rw [Nat.add_assoc, Nat.add_comm 1 j]
      rw [hfun]

/-- With two clock readings left, `UUIDv7Generator.Generate` returns a UUID and no error
when the random source does not fail, and consumes at most two readings. -/
theorem UUIDv7_Generate_returns (g : UUIDv7Generator) (clock : Clock) (r : List Nat)
    (h : 2 ≤ clock.length) :
    ∃ uuid g1 rest, UUIDv7Generator.Generate g clock (some r) = some ((uuid, none), g1, rest) ∧
      clock.length ≤ rest.length + 2 := by
  have hadv : ∃ now sequence rest, uuidv7Advance g clock = some (now, sequence, rest) ∧
      clock.length ≤ rest.length + 2 := by
    rcases clock with _ | ⟨t, _ | ⟨t2, c2⟩⟩
    · simp at h
    · simp at h
    · unfold uuidv7Advance
      simp only [currentTimestamp]
      split
      · split
        · exact ⟨_, _, _, rfl, by simp⟩
        · exact ⟨_, _, _, rfl, by simp⟩
      · exact ⟨_, _, _, rfl, by simp⟩
  obtain ⟨now, sequence, rest, hadv, hl⟩ := hadv
  refine ⟨uuidv7Fill (uuidv7TimestampBytes now) sequence r,
    { lastTimestamp := now, sequence := sequence }, rest, ?_, hl⟩
  unfold UUIDv7Generator.Generate
  rw [hadv]

/-- The loop of `GenerateUUIDv7Batch`, started at index `done.length` on a slice whose first
entries `done` are written, writes after `done` the strings of the UUIDs of the successive
`UUIDv7Generator.Generate` calls, when the random source does not fail and two clock
readings per iteration are left. -/
theorem uuidv7BatchLoop_eq (random : Nat → Option (List Nat)) (k : Nat) :
    ∀ (done : List String) (g : UUIDv7Generator) (clock : Clock),
    (∀ j, done.length ≤ j → j < done.length + k → (random j).isSome) →
    2 * k ≤ clock.length →
    ∃ g1 rest, uuidv7BatchLoop k done.length (done ++ List.replicate k emptyString) g clock
          random
        = some ((some (done ++ (uuidv7Calls k done.length g clock random).map UUID_String),
            none), g1, rest) ∧
      (uuidv7Calls k done.length g clock random).length = k := by
  induction k with
  | zero =>
    intro done g clock _ _
    exact ⟨g, clock, by simp [uuidv7BatchLoop, uuidv7Calls], rfl⟩
  | succ k ih =>
    intro done g clock hr hc
    unfold uuidv7BatchLoop uuidv7Calls
    have hi := hr done.length (le_refl _) (by omega)
    cases hri : random done.length with
    | none => rw [hri] at hi; cases hi
    | some r =>
      obtain ⟨uuid, g1, rest, hG, hl⟩ := UUIDv7_Generate_returns g clock r (by omega)
      have hS : GenerateUUIDv7 g clock (some r) = some ((UUID_String uuid, none), g1, rest) := by
        unfold GenerateUUIDv7 NewUUIDv7
        rw [hG]
      have hset : (done ++ List.replicate (k + 1) emptyString).set done.length
            (UUID_String uuid)
          = (done ++ [UUID_String uuid]) ++ List.replicate k emptyString := by
        rw [List.set_append_right _ _ (Nat.le_refl _), Nat.sub_self, List.replicate_succ,
          List.set_cons_zero, List.append_assoc, List.singleton_append]
      have hlen : done.length + 1 = (done ++ [UUID_String uuid]).length := by simp
      simp only [hS, hG, hset]
      rw [hlen]
      obtain ⟨g2, rest2, ho, hn⟩ := ih (done ++ [UUID_String uuid]) g1 rest
        (fun j h1 h2 => hr j (by rw [← hlen] at h1; omega) (by rw [← hlen] at h2; omega))
        (by omega)
      refine ⟨g2, rest2, ?_, by rw [List.length_cons, hn]⟩
      rw [ho, List.map_cons, List.append_assoc, List.singleton_append]

/-- C32, counterexample: for `count = 1 << 62` both batch functions abort in `make` with a
run-time panic, the 2^66 bytes of the slice being more than the runtime allocates; they
return neither strings nor an error. -/
theorem UUID_batches_panic_above_allocation_limit :
    GenerateUUIDv4Batch 4611686018427387904
        (fun _ => some [1, 2, 3, 4, 5, 6, 7, 8, 9, 10, 11, 12, 13, 14, 15, 16])
      = .panics makesliceMessage ∧
    GenerateUUIDv7Batch 4611686018427387904 UUIDv7Generator.zero [1735689600100]
        (fun _ => some [1, 2, 3, 4, 5, 6, 7, 8, 9, 10])
      = .panics makesliceMessage ∧
    (4611686018427387904 : Int) = 2 ^ 62 :=
  ⟨rfl, rfl, by decide⟩

/-- C32, amended: `GenerateUUIDv4Batch(count)` and `GenerateUUIDv7Batch(count)` return a nil
slice and the error `count must be greater than 0` for every `count ≤ 0`.  For `count > 0`
with the `16 * count` bytes of the slice within the allocation limit `maxAlloc`, when the
random source does not fail (and, for version 7, the clock has two readings for each
call), they return a nil error and exactly `count` strings, those of the successive
`GenerateUUIDv4` calls and of the UUIDs of the successive version 7 `Generate` calls; above
the limit they panic in `make`. -/
theorem UUID_batches_count (count : Int) (g : UUIDv7Generator) (clock : Clock)
    (random4 random7 : Nat → Option (List Nat)) :
    (count ≤ 0 →
      GenerateUUIDv4Batch count random4 = .returns (none, some .countNotPositive) ∧
      GenerateUUIDv7Batch count g clock random7
        = .returns ((none, some .countNotPositive), g, clock)) ∧
    (0 < count → 16 * count ≤ maxAlloc →
      ((∀ i : Nat, (i : Int) < count → (random4 i).isSome) →
        ∃ uuids, GenerateUUIDv4Batch count random4 = .returns (some uuids, none) ∧
          (uuids.length : Int) = count ∧
          uuids = (List.range count.toNat).map (fun i => (GenerateUUIDv4 (random4 i)).1)) ∧
      ((∀ i : Nat, (i : Int) < count → (random7 i).isSome) → 2 * count ≤ clock.length →
        ∃ uuids g1 rest, GenerateUUIDv7Batch count g clock random7
            = .returns ((some uuids, none), g1, rest) ∧
          (uuids.length : Int) = count ∧
          uuids = (uuidv7Calls count.toNat 0 g clock random7).map UUID_String)) ∧
    (0 < count → maxAlloc < 16 * count →
      GenerateUUIDv4Batch count random4 = .panics makesliceMessage ∧
      GenerateUUIDv7Batch count g clock random7 = .panics makesliceMessage) := by
  refine ⟨fun h => ?_, fun h halloc => ⟨fun hr => ?_, fun hr hc => ?_⟩, fun h hbig => ?_⟩
  · constructor
    · unfold GenerateUUIDv4Batch
      rw [if_pos h]
    · unfold GenerateUUIDv7Batch
      rw [if_pos h]
  · unfold GenerateUUIDv4Batch
    rw [if_neg (by omega), if_neg (by rw [makesliceLenOutOfRange_iff]; omega)]
    have ho := uuidv4BatchLoop_eq random4 count.toNat []
      (fun j _ h2 => hr j (by simp only [List.length_nil] at h2; omega))
    simp only [List.length_nil, List.nil_append, Nat.zero_add] at ho
    refine ⟨_, by rw [ho], ?_, rfl⟩
    rw [List.length_map, List.length_range]
    omega
  · unfold GenerateUUIDv7Batch
    rw [if_neg (by omega), if_neg (by rw [makesliceLenOutOfRange_iff]; omega)]
    obtain ⟨g1, rest, ho, hn⟩ := uuidv7BatchLoop_eq random7 count.toNat [] g clock
      (fun j _ h2 => hr j (by simp only [List.length_nil] at h2; omega)) (by omega)
    simp only [List.length_nil, List.nil_append] at ho hn
    refine ⟨_, g1, rest, by rw [ho], ?_, rfl⟩
    rw [List.length_map, hn]
    omega
  · have hpos : ¬ count ≤ 0 := by omega
    have hout := (makesliceLenOutOfRange_iff 16 count).mpr (Or.inr hbig)
    constructor
    · unfold GenerateUUIDv4Batch
      rw [if_neg hpos, if_pos hout]
    · unfold GenerateUUIDv7Batch
      rw [if_neg hpos, if_pos hout]

/-- Witness of the amended C32: batches of two from random sources that deliver bytes. -/
theorem UUID_batches_count_witness :
    (∃ uuids, GenerateUUIDv4Batch 2
        (fun _ => some [1, 2, 3, 4, 5, 6, 7, 8, 9, 10, 11, 12, 13, 14, 15, 16])
          = .returns (some uuids, none) ∧
        (uuids.length : Int) = 2 ∧
        uuids = (List.range (2 : Int).toNat).map (fun i => (GenerateUUIDv4
          ((fun _ => some [1, 2, 3, 4, 5, 6, 7, 8, 9, 10, 11, 12, 13, 14, 15, 16]) i)).1)) ∧
    (∃ uuids g1 rest, GenerateUUIDv7Batch 2 UUIDv7Generator.zero
        [1735689600100, 1735689600100, 1735689600101, 1735689600102]
        (fun _ => some [1, 2, 3, 4, 5, 6, 7, 8, 9, 10])
        = .returns ((some uuids, none), g1, rest) ∧
      (uuids.length : Int) = 2 ∧
      uuids = (uuidv7Calls (2 : Int).toNat 0 UUIDv7Generator.zero
        [1735689600100, 1735689600100, 1735689600101, 1735689600102]
        (fun _ => some [1, 2, 3, 4, 5, 6, 7, 8, 9, 10])).map UUID_String) :=
  have h := (UUID_batches_count 2 UUIDv7Generator.zero
    [1735689600100, 1735689600100, 1735689600101, 1735689600102]
    (fun _ => some [1, 2, 3, 4, 5, 6, 7, 8, 9, 10, 11, 12, 13, 14, 15, 16])
    (fun _ => some [1, 2, 3, 4, 5, 6, 7, 8, 9, 10])).2.1 (by decide) (by decide)
  ⟨h.1 (fun _ _ => rfl), h.2 (fun _ _ => rfl) (by decide)⟩

/-! ## Distinct version 7 UUIDs -/

/-- On a non-decreasing clock that is not behind the generator, and with the clock ahead of
`lastTimestamp` after the overflow sleep, one call moves the pair of timestamp and sequence
strictly up. -/
theorem uuidv7Advance_key (g : UUIDv7Generator) (hseq : g.sequence ≤ 0x0FFF) (clock : Clock)
    (hsorted : clock.Pairwise (· ≤ ·)) (hge : ∀ r ∈ clock, g.lastTimestamp ≤ r)
    (now1 : Int) (sequence1 : Nat) (rest : Clock)
    (h : uuidv7Advance g clock = some (now1, sequence1, rest))
    (hsleep : ∀ now c1, clock = now :: c1 →
      (now ≤ g.lastTimestamp ∧ (g.sequence + 1) % 2 ^ 16 > 0x0FFF) → g.lastTimestamp < now1) :
    g.lastTimestamp * 4096 + (g.sequence : Int) < now1 * 4096 + (sequence1 : Int) ∧
    rest.Pairwise (· ≤ ·) ∧ (∀ r ∈ rest, now1 ≤ r) ∧ now1 ∈ clock ∧ sequence1 ≤ 0x0FFF := by
  obtain ⟨now, c1, rfl, hA, hB, hC⟩ := uuidv7Advance_cases g hseq clock now1 sequence1 rest h
  obtain ⟨hhead, htail⟩ := List.pairwise_cons.mp hsorted
  have hnow := hge now (List.mem_cons_self _ _)
  rcases lt_or_le g.lastTimestamp now with hlt | hle
  · obtain ⟨rfl, rfl, rfl⟩ := hA hlt
    exact ⟨by push_cast; omega, htail, hhead, List.mem_cons_self _ _, by decide⟩
  · by_cases hov : g.sequence + 1 ≤ 0x0FFF
    · obtain ⟨rfl, rfl, rfl⟩ := hB hle hov
      exact ⟨by push_cast; omega, htail, hhead, List.mem_cons_self _ _, hov⟩
    · obtain ⟨rfl, rfl⟩ := hC hle (by omega)
      have hmod : (g.sequence + 1) % 2 ^ 16 = g.sequence + 1 := Nat.mod_eq_of_lt (by omega)
      have hadv := hsleep now _ rfl ⟨hle, by rw [hmod]; omega⟩
      obtain ⟨hhead2, htail2⟩ := List.pairwise_cons.mp htail
      exact ⟨by push_cast; omega, htail2, hhead2,
        List.mem_cons_of_mem _ (List.mem_cons_self _ _), by decide⟩

/-- The number read from a UUID built by `UUIDv7Generator.Generate` is the pair of timestamp
and sequence it was built from. -/
theorem uuidv7Key_uuidv7Fill (now : Int) (hnow : 0 ≤ now ∧ now < 2 ^ 48) (sequence : Nat)
    (hseq : sequence ≤ 0x0FFF) (randomBytes : List Nat) :
    uuidv7Key (uuidv7Fill (uuidv7TimestampBytes now) sequence randomBytes)
      = now * 4096 + (sequence : Int) := by
  unfold uuidv7Key ExtractTimestampFromUUIDv7
  rw [sliceBytes_uuidv7Fill, extract_uuidv7TimestampBytes now hnow,
    uuidv7Fill_sequence (uuidv7TimestampBytes now) rfl sequence hseq randomBytes]

/-- Under the assumptions of `uuidv7Advance_key` for every call, the UUIDs of successive
calls carry strictly increasing pairs of timestamp and sequence. -/
theorem uuidv7Calls_keys (random : Nat → Option (List Nat)) (n : Nat) :
    ∀ (i : Nat) (g : UUIDv7Generator) (clock : Clock),
    g.sequence ≤ 0x0FFF → clock.Pairwise (· ≤ ·) → (∀ r ∈ clock, g.lastTimestamp ≤ r) →
    (∀ r ∈ clock, 0 ≤ r ∧ r < 2 ^ 48) → overflowSleepAdvances n g clock →
    (∀ u ∈ uuidv7Calls n i g clock random,
      g.lastTimestamp * 4096 + (g.sequence : Int) < uuidv7Key u) ∧
    (uuidv7Calls n i g clock random).Pairwise (fun a b => uuidv7Key a < uuidv7Key b) := by
  induction n with
  | zero =>
    intro i g clock _ _ _ _ _
    exact ⟨fun u hu => by simp [uuidv7Calls] at hu, List.Pairwise.nil⟩
  | succ n ih =>
    intro i g clock hseq hsorted hge hrange hover
    unfold uuidv7Calls
    generalize random i = ri
    cases hG : UUIDv7Generator.Generate g clock ri with
    | none => exact ⟨fun u hu => by simp at hu, List.Pairwise.nil⟩
    | some x =>
      obtain ⟨⟨uuid, err⟩, g1, rest⟩ := x
      obtain ⟨hadv, hr⟩ := UUIDv7_Generate_some g clock _ _ g1 rest hG
      have hstep : (∀ now c1, clock = now :: c1 →
          (now ≤ g.lastTimestamp ∧ (g.sequence + 1) % 2 ^ 16 > 0x0FFF) →
            g.lastTimestamp < g1.lastTimestamp) ∧ overflowSleepAdvances n g1 rest := by
        cases clock with
        | nil => simp [uuidv7Advance, currentTimestamp] at hadv
        | cons now c1 =>
          simp only [overflowSleepAdvances, hadv] at hover
          refine ⟨fun now2 c2 heq hc => ?_, hover.2⟩
          simp only [List.cons.injEq] at heq
          rw [← heq.1] at hc
          exact hover.1 hc
      obtain ⟨hkey, hs1, hge1, hmem, hq1⟩ :=
        uuidv7Advance_key g hseq clock hsorted hge _ _ rest hadv hstep.1
      obtain ⟨taken, hclock, _⟩ := (uuidv7Advance_some g clock _ _ rest hadv).1
      have hrange1 : ∀ r ∈ rest, 0 ≤ r ∧ r < 2 ^ 48 := fun r hr1 =>
        hrange r (by rw [hclock]; exact List.mem_append_right _ hr1)
      obtain ⟨hall, hpair⟩ := ih (i + 1) g1 rest hq1 hs1 hge1 hrange1 hstep.2
      cases err with
      | some e =>
        simp only
        exact ⟨fun u hu => lt_trans hkey (hall u hu), hpair⟩
      | none =>
        simp only
        have hu : uuidv7Key uuid = g1.lastTimestamp * 4096 + (g1.sequence : Int) := by
          cases ri with
          | none => simp at hr
          | some rb =>
            simp only [Prod.mk.injEq, and_true] at hr
            rw [hr]
            exact uuidv7Key_uuidv7Fill _ (hrange _ hmem) _ hq1 rb
        refine ⟨fun u hmem1 => ?_, List.pairwise_cons.mpr ⟨fun u hmem1 => ?_, hpair⟩⟩
        · rcases List.mem_cons.mp hmem1 with rfl | ht
          · rw [hu]; exact hkey
          · exact lt_trans hkey (hall u ht)
        · rw [hu]; exact hall u hmem1

/-- C31, counterexample: the clock reads 100 for the first call and `2^48 + 100` for the
second, and the random source delivers the same ten bytes twice; the two calls return the
same UUID. -/
theorem UUIDv7_Generate_repeats_after_timestamp_wrap :
    UUIDv7Generator.Generate UUIDv7Generator.zero [100]
        (some [1, 2, 3, 4, 5, 6, 7, 8, 9, 10])
      = some (([0, 0, 0, 0, 0, 100, 112, 0, 129, 2, 3, 4, 5, 6, 7, 8], none), ⟨100, 0⟩, []) ∧
    UUIDv7Generator.Generate ⟨100, 0⟩ [281474976710756]
        (some [1, 2, 3, 4, 5, 6, 7, 8, 9, 10])
      = some (([0, 0, 0, 0, 0, 100, 112, 0, 129, 2, 3, 4, 5, 6, 7, 8], none),
          ⟨281474976710756, 0⟩, []) ∧
    uuidv7Calls 2 0 UUIDv7Generator.zero [100, 281474976710756]
        (fun _ => some [1, 2, 3, 4, 5, 6, 7, 8, 9, 10])
      = [[0, 0, 0, 0, 0, 100, 112, 0, 129, 2, 3, 4, 5, 6, 7, 8],
         [0, 0, 0, 0, 0, 100, 112, 0, 129, 2, 3, 4, 5, 6, 7, 8]] ∧
    ¬ (uuidv7Calls 2 0 UUIDv7Generator.zero [100, 281474976710756]
        (fun _ => some [1, 2, 3, 4, 5, 6, 7, 8, 9, 10])).Nodup :=
  ⟨rfl, rfl, rfl, by
    rw [show uuidv7Calls 2 0 UUIDv7Generator.zero [100, 281474976710756]
        (fun _ => some [1, 2, 3, 4, 5, 6, 7, 8, 9, 10])
      = [[0, 0, 0, 0, 0, 100, 112, 0, 129, 2, 3, 4, 5, 6, 7, 8],
         [0, 0, 0, 0, 0, 100, 112, 0, 129, 2, 3, 4, 5, 6, 7, 8]] from rfl]
    decide⟩

/-- C31, amended: on a generator starting from its zero value, when the clock readings are
non-decreasing and lie in `[0, 2^48)`, and the reading taken after each overflow sleep is
above `lastTimestamp`, the UUIDs returned by successive `Generate` calls are pairwise
distinct, for every output of the random source. -/
theorem UUIDv7_Generate_unique (n : Nat) (clock : Clock) (random : Nat → Option (List Nat))
    (hsorted : clock.Pairwise (· ≤ ·)) (hrange : ∀ r ∈ clock, 0 ≤ r ∧ r < 2 ^ 48)
    (hsleep : overflowSleepAdvances n UUIDv7Generator.zero clock) :
    (uuidv7Calls n 0 UUIDv7Generator.zero clock random).Nodup := by
  have h := (uuidv7Calls_keys random n 0 UUIDv7Generator.zero clock (by decide) hsorted
    (fun r hr => (hrange r hr).1) hrange hsleep).2
  exact h.imp (fun hab heq => by rw [heq] at hab; exact lt_irrefl _ hab)

/-- Witness of the amended C31: three calls, two of them in one millisecond, with the same
random bytes each time. -/
theorem UUIDv7_Generate_unique_witness :
    (uuidv7Calls 3 0 UUIDv7Generator.zero [1735689600100, 1735689600100, 1735689600101]
      (fun _ => some [1, 2, 3, 4, 5, 6, 7, 8, 9, 10])).Nodup :=
  UUIDv7_Generate_unique 3 [1735689600100, 1735689600100, 1735689600101]
    (fun _ => some [1, 2, 3, 4, 5, 6, 7, 8, 9, 10]) (by decide)
    (by intro r hr; simp only [List.mem_cons, List.mem_singleton, List.not_mem_nil, or_false] at hr; omega)
    (by simp [overflowSleepAdvances, uuidv7Advance, currentTimestamp, UUIDv7Generator.zero])

end Idgen
